import Mathlib

/-!
# rr `src/share/util.cc`: register-file comparator and checksum engine

A shallow embedding of the functions of `util.cc` and theorems about them.
Machine integers are natural numbers: a C `long`/`int`/`unsigned` value is held
as the unsigned reading of its 32-bit pattern, so `!=` is disequality of
patterns and `&`, `|`, `<<` are the bitwise operations on them.
-/

namespace RR

/-! ## Register-file comparator (`compare_register_files`) -/

/-- The i386 `struct user_regs_struct` of `<sys/user.h>`: seventeen `long`
fields, in declaration order. -/
structure user_regs_struct where
  ebx : Nat
  ecx : Nat
  edx : Nat
  esi : Nat
  edi : Nat
  ebp : Nat
  eax : Nat
  xds : Nat
  xes : Nat
  xfs : Nat
  xgs : Nat
  orig_eax : Nat
  eip : Nat
  xcs : Nat
  eflags : Nat
  esp : Nat
  xss : Nat
deriving DecidableEq, Repr

/-- The strictness constants `LOG_MISMATCHES` and `BAIL_ON_MISMATCH` are
declared in `util.h`, which is not part of this source unit; the comparator
only orders `mismatch_behavior` against them, so they are parameters. -/
structure MismatchLevels where
  LOG_MISMATCHES : Int
  BAIL_ON_MISMATCH : Int
deriving DecidableEq, Repr

/-- Severity of a diagnostic line: `log_err` or `log_info`. -/
inductive LogLevel where
  | err
  | info
deriving DecidableEq, Repr

/-- One diagnostic line `"%s 0x%lx != 0x%lx (%s vs. %s)"`, kept unformatted. -/
structure LogLine where
  level : LogLevel
  regname : String
  val1 : Nat
  val2 : Nat
  label1 : String
  label2 : String
deriving DecidableEq, Repr

/-- Source: `maybe_print_reg_mismatch` (util.cc:606-617). Returns the lines
it prints. -/
def maybe_print_reg_mismatch (K : MismatchLevels) (mismatch_behavior : Int)
    (regname : String) (label1 : String) (val1 : Nat)
    (label2 : String) (val2 : Nat) : List LogLine :=
  if mismatch_behavior ≥ K.BAIL_ON_MISMATCH then
    [{ level := .err, regname := regname, val1 := val1, val2 := val2,
       label1 := label1, label2 := label2 }]
  else if mismatch_behavior ≥ K.LOG_MISMATCHES then
    [{ level := .info, regname := regname, val1 := val1, val2 := val2,
       label1 := label1, label2 := label2 }]
  else []

/-- The locals `errbit`, `err` of `compare_register_files`, and the lines
printed so far. -/
structure CmpState where
  errbit : Nat
  err : Nat
  log : List LogLine
deriving DecidableEq, Repr

/-- Source: the macro `REGCMP(_reg, _bit)` (util.cc:631-639) at its call sites
`REGCMP(reg, ++errbit)`. The argument `++errbit` is substituted into the body
of the `if`, so it is evaluated only when the two values differ. -/
def REGCMP (K : MismatchLevels) (mismatch_behavior : Int)
    (name1 name2 : String) (regname : String) (v1 v2 : Nat)
    (s : CmpState) : CmpState :=
  if v1 ≠ v2 then
    let errbit := s.errbit + 1
    { errbit := errbit,
      err := s.err ||| (1 <<< errbit),
      log := s.log ++
        maybe_print_reg_mismatch K mismatch_behavior regname name1 v1 name2 v2 }
  else s

/-- `RESERVED_FLAG_1 = 1 << 1` (util.cc:657). -/
def RESERVED_FLAG_1 : Nat := 1 <<< 1
/-- `RESUME_FLAG = 1 << 16` (util.cc:676). -/
def RESUME_FLAG : Nat := 1 <<< 16
/-- `CPUID_ENABLED_FLAG = 1 << 21` (util.cc:678). -/
def CPUID_ENABLED_FLAG : Nat := 1 <<< 21

/-- `det_mask = ~(RESERVED_FLAG_1 | RESUME_FLAG | CPUID_ENABLED_FLAG)`
(util.cc:681-682), as a 32-bit pattern. -/
def det_mask : Nat :=
  (2 ^ 32 - 1) ^^^ (RESERVED_FLAG_1 ||| RESUME_FLAG ||| CPUID_ENABLED_FLAG)

/-- Decidable equality of `Except` values, to compare outcomes. -/
instance instDecidableEqExcept {ε α : Type} [DecidableEq ε] [DecidableEq α] :
    DecidableEq (Except ε α)
  | .ok a, .ok b =>
    if h : a = b then isTrue (by rw [h]) else isFalse (fun h2 => h (Except.ok.inj h2))
  | .error a, .error b =>
    if h : a = b then isTrue (by rw [h]) else isFalse (fun h2 => h (Except.error.inj h2))
  | .ok _, .error _ => isFalse (fun h => Except.noConfusion h)
  | .error _, .ok _ => isFalse (fun h => Except.noConfusion h)

/-- Modelled from the spec: `assert_exec` is a macro of `dbg.h`, which is not
in this source unit; a failed assertion is a fatal abort of the process
(spec section 7), carrying the message. -/
def assert_exec (cond : Bool) (msg : String) : Except String Unit :=
  if cond then .ok () else .error msg

/-- What a call of `compare_register_files` does: the lines it prints and
either the returned mask or the failed `assert_exec`. -/
structure CmpResult where
  log : List LogLine
  ret : Except String Nat
deriving DecidableEq, Repr

/-- The state of the locals after the eight `REGCMP` lines
(util.cc:641-648). -/
def compare_gp (K : MismatchLevels) (name1 : String) (reg1 : user_regs_struct)
    (name2 : String) (reg2 : user_regs_struct) (mismatch_behavior : Int) :
    CmpState :=
  let s : CmpState := { errbit := 0, err := 0, log := [] }
  let s := REGCMP K mismatch_behavior name1 name2 "eax" reg1.eax reg2.eax s
  let s := REGCMP K mismatch_behavior name1 name2 "ebx" reg1.ebx reg2.ebx s
  let s := REGCMP K mismatch_behavior name1 name2 "ecx" reg1.ecx reg2.ecx s
  let s := REGCMP K mismatch_behavior name1 name2 "edx" reg1.edx reg2.edx s
  let s := REGCMP K mismatch_behavior name1 name2 "esi" reg1.esi reg2.esi s
  let s := REGCMP K mismatch_behavior name1 name2 "edi" reg1.edi reg2.edi s
  let s := REGCMP K mismatch_behavior name1 name2 "ebp" reg1.ebp reg2.ebp s
  let s := REGCMP K mismatch_behavior name1 name2 "eip" reg1.eip reg2.eip s
  s

/-- The state of the locals after the flags comparison (util.cc:681-689). -/
def compare_flags (K : MismatchLevels) (name1 : String) (reg1 : user_regs_struct)
    (name2 : String) (reg2 : user_regs_struct) (mismatch_behavior : Int)
    (s : CmpState) : CmpState :=
  let eflags1 := reg1.eflags &&& det_mask
  let eflags2 := reg2.eflags &&& det_mask
  if eflags1 ≠ eflags2 then
    let errbit := s.errbit + 1
    { errbit := errbit,
      err := s.err ||| (1 <<< errbit),
      log := s.log ++
        maybe_print_reg_mismatch K mismatch_behavior "deterministic eflags"
          name1 eflags1 name2 eflags2 }
  else s

/-- Source: `compare_register_files` (util.cc:619-699). The task argument is
used only to name the task in the abort message and is left out. -/
def compare_register_files (K : MismatchLevels)
    (name1 : String) (reg1 : user_regs_struct)
    (name2 : String) (reg2 : user_regs_struct)
    (mismatch_behavior : Int) : CmpResult :=
  let bail_error : Bool := decide (mismatch_behavior ≥ K.BAIL_ON_MISMATCH)
  let s := compare_gp K name1 reg1 name2 reg2 mismatch_behavior
  let s := compare_flags K name1 reg1 name2 reg2 mismatch_behavior s
  match assert_exec (!bail_error || s.err == 0) "Fatal register mismatch" with
  | .error e => { log := s.log, ret := .error e }
  | .ok _ =>
    if s.err == 0 && mismatch_behavior == K.LOG_MISMATCHES then
      { log := s.log ++
          [{ level := .info, regname := "(register files are the same)",
             val1 := 0, val2 := 0, label1 := name1, label2 := name2 }],
        ret := .ok s.err }
    else
      { log := s.log, ret := .ok s.err }

/-! ### Vocabulary for the comparator's properties -/

/-- The eight general-purpose fields the comparator reads. -/
inductive GPField where
  | eax | ebx | ecx | edx | esi | edi | ebp | eip
deriving DecidableEq, Repr

/-- Read a compared field of a snapshot. -/
def GPField.get (f : GPField) (r : user_regs_struct) : Nat :=
  match f with
  | .eax => r.eax | .ebx => r.ebx | .ecx => r.ecx | .edx => r.edx
  | .esi => r.esi | .edi => r.edi | .ebp => r.ebp | .eip => r.eip

/-- Overwrite a compared field of a snapshot. -/
def GPField.set (f : GPField) (r : user_regs_struct) (v : Nat) : user_regs_struct :=
  match f with
  | .eax => { r with eax := v } | .ebx => { r with ebx := v }
  | .ecx => { r with ecx := v } | .edx => { r with edx := v }
  | .esi => { r with esi := v } | .edi => { r with edi := v }
  | .ebp => { r with ebp := v } | .eip => { r with eip := v }

/-- 1 when the two values differ, 0 when they agree. -/
def differs (a b : Nat) : Nat := if a ≠ b then 1 else 0

/-- Number of the eight general-purpose compared fields that mismatch. -/
def gp_mismatches (r1 r2 : user_regs_struct) : Nat :=
  differs r1.eax r2.eax + differs r1.ebx r2.ebx + differs r1.ecx r2.ecx +
  differs r1.edx r2.edx + differs r1.esi r2.esi + differs r1.edi r2.edi +
  differs r1.ebp r2.ebp + differs r1.eip r2.eip

/-- Number of mismatching compared fields: the eight registers, and the
masked flags as one combined field. -/
def mismatch_count (r1 r2 : user_regs_struct) : Nat :=
  gp_mismatches r1 r2 + differs (r1.eflags &&& det_mask) (r2.eflags &&& det_mask)

/-- Number of bits set among the 32 bits of an `int`. -/
def popcount (n : Nat) : Nat :=
  ((List.range 32).filter (fun i => n.testBit i)).length

/-- A snapshot with every field zero. -/
def zero_regs : user_regs_struct :=
  { ebx := 0, ecx := 0, edx := 0, esi := 0, edi := 0, ebp := 0, eax := 0,
    xds := 0, xes := 0, xfs := 0, xgs := 0, orig_eax := 0, eip := 0, xcs := 0,
    eflags := 0, esp := 0, xss := 0 }

/-! ## C library functions used by the memory-map and checksum code

Text is a list of characters; the files read here hold no NUL character. -/

/-- C `isspace` in the C locale: space, and `\t \n \v \f \r`. -/
def isspace (c : Char) : Bool :=
  decide (c.toNat = 32 ∨ (9 ≤ c.toNat ∧ c.toNat ≤ 13))

/-- C `isblank`: space and tab. -/
def isblank (c : Char) : Bool :=
  decide (c.toNat = 32 ∨ c.toNat = 9)

/-- Value of a hexadecimal digit, as `strtoul` reads it. -/
def hex_val (c : Char) : Option Nat :=
  if 48 ≤ c.toNat ∧ c.toNat ≤ 57 then some (c.toNat - 48)
  else if 97 ≤ c.toNat ∧ c.toNat ≤ 102 then some (c.toNat - 87)
  else if 65 ≤ c.toNat ∧ c.toNat ≤ 70 then some (c.toNat - 55)
  else none

/-- Value of a decimal digit. -/
def dec_val (c : Char) : Option Nat :=
  if 48 ≤ c.toNat ∧ c.toNat ≤ 57 then some (c.toNat - 48) else none

/-- The digit `printf("%x")` prints for a value below 16. -/
def hex_char : Nat → Char
  | 0 => '0' | 1 => '1' | 2 => '2' | 3 => '3' | 4 => '4' | 5 => '5'
  | 6 => '6' | 7 => '7' | 8 => '8' | 9 => '9' | 10 => 'a' | 11 => 'b'
  | 12 => 'c' | 13 => 'd' | 14 => 'e' | _ => 'f'

/-- Digits of `n` in base 16, most significant first, at most `fuel` of
them, in front of `acc`. -/
def fmt_x_aux : Nat → Nat → List Char → List Char
  | 0, _, acc => acc
  | fuel + 1, n, acc =>
    if n / 16 = 0 then hex_char (n % 16) :: acc
    else fmt_x_aux fuel (n / 16) (hex_char (n % 16) :: acc)

/-- What `printf("%x", n)` prints for an `unsigned` (32-bit) `n`: its
hexadecimal digits without leading zeros, eight at most. -/
def fmt_x (n : Nat) : List Char := fmt_x_aux 8 (n % 2 ^ 32) []

/-- Drop leading white space, as every `scanf` conversion used here and a
blank in the format do. -/
def skip_space : List Char → List Char
  | [] => []
  | c :: cs => if isspace c then skip_space cs else c :: cs

/-- Read the longest run of digits, accumulating their value on `acc`. -/
def scan_num (base : Nat) (digit : Char → Option Nat) :
    List Char → Nat → Nat × List Char
  | [], acc => (acc, [])
  | c :: cs, acc =>
    match digit c with
    | some d => scan_num base digit cs (acc * base + d)
    | none => (acc, c :: cs)

/-- Read the longest run of non-space characters, `width` of them at most. -/
def scan_str : Nat → List Char → List Char × List Char
  | 0, inp => ([], inp)
  | _ + 1, [] => ([], [])
  | w + 1, c :: cs =>
    if isspace c then ([], c :: cs)
    else ((scan_str w cs).1.cons c, (scan_str w cs).2)

/-- A value assigned by a `scanf` conversion. -/
inductive ScanVal where
  | num (n : Nat)
  | str (s : List Char)
deriving DecidableEq, Repr

/-- The directives of the two `sscanf` formats of this file. Numbers are read
as the kernel and `printf` write them: digits without sign or `0x`; a value
too large for its type reads as the largest value of the type. -/
inductive ScanDir where
  /-- White space in the format. -/
  | space
  /-- An ordinary character. -/
  | lit (c : Char)
  /-- The conversions `%x`, `%p` (32 bits) and `%Lx` (64 bits). -/
  | hex (bits : Nat)
  /-- The conversion `%Lu` (64 bits). -/
  | dec (bits : Nat)
  /-- The conversions `%s` (`none`) and `%31s` (`some 31`). -/
  | str (width : Option Nat)
deriving DecidableEq, Repr

/-- The return value and assignments of `sscanf` when the input ends before
a directive is satisfied: `EOF` (-1) if nothing was converted yet. -/
def scan_input_failure (acc : List ScanVal) : Int × List ScanVal :=
  if acc.length = 0 then (-1, acc) else ((acc.length : Int), acc)

/-- What one directive does on the input. -/
inductive ScanStep where
  /-- The directive is satisfied: the input left, and the value assigned if
  the directive is a conversion. -/
  | ok (rest : List Char) (val : Option ScanVal)
  /-- The next character does not fit the directive. -/
  | matching_failure
  /-- The input ended. -/
  | input_failure
deriving DecidableEq, Repr

/-- One directive of `scanf` on the input: a blank skips white space, an
ordinary character must be next, a conversion skips white space and reads its
longest match. -/
def scan_step (d : ScanDir) (inp : List Char) : ScanStep :=
  match d with
  | .space => .ok (skip_space inp) none
  | .lit c =>
    match inp with
    | [] => .input_failure
    | x :: xs => if x = c then .ok xs none else .matching_failure
  | .hex bits =>
    match skip_space inp with
    | [] => .input_failure
    | x :: xs =>
      match hex_val x with
      | none => .matching_failure
      | some _ =>
        .ok (scan_num 16 hex_val (x :: xs) 0).2
          (some (.num (min (scan_num 16 hex_val (x :: xs) 0).1 (2 ^ bits - 1))))
  | .dec bits =>
    match skip_space inp with
    | [] => .input_failure
    | x :: xs =>
      match dec_val x with
      | none => .matching_failure
      | some _ =>
        .ok (scan_num 10 dec_val (x :: xs) 0).2
          (some (.num (min (scan_num 10 dec_val (x :: xs) 0).1 (2 ^ bits - 1))))
  | .str width =>
    match skip_space inp with
    | [] => .input_failure
    | x :: xs =>
      match width with
      | some w => .ok (scan_str w (x :: xs)).2 (some (.str (scan_str w (x :: xs)).1))
      | none =>
        .ok (scan_str (x :: xs).length (x :: xs)).2
          (some (.str (scan_str (x :: xs).length (x :: xs)).1))

/-- C `sscanf(input, format, ...)` for a format given as directives: the
number of conversions assigned and their values, in order. It stops at the
first directive that is not satisfied. -/
def sscanf_aux : List ScanDir → List Char → List ScanVal → Int × List ScanVal
  | [], _, acc => ((acc.length : Int), acc)
  | d :: ds, inp, acc =>
    match scan_step d inp with
    | .ok rest none => sscanf_aux ds rest acc
    | .ok rest (some v) => sscanf_aux ds rest (acc ++ [v])
    | .matching_failure => ((acc.length : Int), acc)
    | .input_failure => scan_input_failure acc

/-- C `sscanf`. -/
def sscanf (input : List Char) (format : List ScanDir) : Int × List ScanVal :=
  sscanf_aux format input []

/-- Characters `fgets` puts in a buffer with room for `room` characters, and
the rest of the stream: it stops after a newline. -/
def fgets_aux : Nat → List Char → List Char × List Char
  | 0, s => ([], s)
  | _ + 1, [] => ([], [])
  | k + 1, c :: s =>
    if c = '\n' then ([c], s)
    else ((fgets_aux k s).1.cons c, (fgets_aux k s).2)

/-- C `fgets(buf, size, stream)`: `none` at end of file, else the line read
(at most `size - 1` characters) and the rest of the stream. -/
def fgets (size : Nat) (stream : List Char) : Option (List Char × List Char) :=
  match stream with
  | [] => none
  | _ :: _ => some (fgets_aux (size - 1) stream)

/-- C `strstr(haystack, needle)`: the offset of the first occurrence. -/
def strstr : List Char → List Char → Option Nat
  | [], needle => if needle = [] then some 0 else none
  | c :: cs, needle =>
    if needle.isPrefixOf (c :: cs) then some 0
    else (strstr cs needle).map (· + 1)

/-- C `strchr(s, c) != NULL`. -/
def strchr (s : List Char) (c : Char) : Bool := s.contains c

/-- The value of a 32-bit `int`/`ssize_t` as an unsigned 32-bit pattern. -/
def to_u32 (x : Int) : Nat := (x % 2 ^ 32).toNat

/-- The signed reading of a 32-bit pattern. -/
def to_i32 (x : Int) : Int := (x + 2 ^ 31) % 2 ^ 32 - 2 ^ 31

/-! ## Memory-map enumerator (`iterate_memory_map`) -/

/-- `PATH_MAX` of `<limits.h>`. -/
def PATH_MAX : Nat := 4096
/-- `PROT_READ` of `<sys/mman.h>`. -/
def PROT_READ : Nat := 1
/-- `PROT_WRITE` of `<sys/mman.h>`. -/
def PROT_WRITE : Nat := 2
/-- `PROT_EXEC` of `<sys/mman.h>`. -/
def PROT_EXEC : Nat := 4
/-- `MAP_SHARED` of `<sys/mman.h>`. -/
def MAP_SHARED : Nat := 1
/-- `MAP_PRIVATE` of `<sys/mman.h>`. -/
def MAP_PRIVATE : Nat := 2

/-- `enum { CONTINUE_ITERATING, STOP_ITERATING }` (util.cc:371). -/
def CONTINUE_ITERATING : Int := 0
/-- `enum { CONTINUE_ITERATING, STOP_ITERATING }` (util.cc:371). -/
def STOP_ITERATING : Int := 1

/-- The fields of `struct mapped_segment_info` (declared in `util.h`) that
this file reads and writes. -/
structure mapped_segment_info where
  name : List Char
  start_addr : Nat
  end_addr : Nat
  prot : Nat
  flags : Nat
  file_offset : Nat
  inode : Nat
  dev_major : Nat
  dev_minor : Nat
deriving DecidableEq, Repr

/-- Source: `struct map_iterator_data` (util.cc:372-383). `mem` is `none` for
the NULL pointer, else the bytes of the buffer. -/
structure map_iterator_data where
  info : mapped_segment_info
  size_bytes : Int
  mem : Option (List Nat)
  mem_len : Int
  raw_map_line : List Char
deriving DecidableEq, Repr

/-- The tracee as this file reads it. Both functions are defined in another
source unit: `read_child_data_checked t size addr` gives the buffer and the
byte count it stores in `*mem_len`, `read_child_data t size addr` gives the
bytes read. -/
structure Tracee where
  read_child_data_checked : Int → Nat → Option (List Nat) × Int
  read_child_data : Nat → Nat → List Nat

/-- Source: `read_segment_filter_t` with its two reserved values
`kNeverReadSegment` (0) and `kAlwaysReadSegment` (1) (util.cc:387-392). A
filter function may abort. -/
inductive read_segment_filter_t where
  | kNeverReadSegment
  | kAlwaysReadSegment
  | fn (filt : mapped_segment_info → Except String Int)

/-- Source: `caller_wants_segment_read` (util.cc:394-406). -/
def caller_wants_segment_read (info : mapped_segment_info)
    (filt : read_segment_filter_t) : Except String Int :=
  match filt with
  | .kNeverReadSegment => .ok 0
  | .kAlwaysReadSegment => .ok 1
  | .fn f => f info

/-- Source: `trim_leading_blanks` (util.cc:344-349). -/
def trim_leading_blanks : List Char → List Char
  | [] => []
  | c :: cs => if isblank c then trim_leading_blanks cs else c :: cs

/-- The format `"%p-%p %31s %Lx %x:%x %Lu %s"` (util.cc:430). -/
def maps_line_format : List ScanDir :=
  [.hex 32, .lit '-', .hex 32, .space, .str (some 31), .space, .hex 64,
   .space, .hex 32, .lit ':', .hex 32, .space, .dec 64, .space, .str none]

/-- Source: the body of the loop of `iterate_memory_map` up to the size
computation (util.cc:427-450): parse one line of the maps file. -/
def parse_map_line (line : List Char) : Except String map_iterator_data :=
  match sscanf line maps_line_format with
  | (8, [.num start_addr, .num end_addr, .str flags, .num file_offset,
         .num dev_major, .num dev_minor, .num inode, .str name]) =>
    .ok { info :=
            { name := trim_leading_blanks name,
              start_addr := start_addr, end_addr := end_addr,
              prot := (if strchr flags 'r' then PROT_READ else 0) |||
                      (if strchr flags 'w' then PROT_WRITE else 0) |||
                      (if strchr flags 'x' then PROT_EXEC else 0),
              flags := (if strchr flags 'p' then MAP_PRIVATE else 0) |||
                       (if strchr flags 's' then MAP_SHARED else 0),
              file_offset := file_offset, inode := inode,
              dev_major := dev_major, dev_minor := dev_minor },
          size_bytes := to_i32 ((end_addr : Int) - (start_addr : Int)),
          mem := none, mem_len := 0, raw_map_line := line }
  | (7, [.num start_addr, .num end_addr, .str flags, .num file_offset,
         .num dev_major, .num dev_minor, .num inode]) =>
    .ok { info :=
            { name := trim_leading_blanks [],
              start_addr := start_addr, end_addr := end_addr,
              prot := (if strchr flags 'r' then PROT_READ else 0) |||
                      (if strchr flags 'w' then PROT_WRITE else 0) |||
                      (if strchr flags 'x' then PROT_EXEC else 0),
              flags := (if strchr flags 'p' then MAP_PRIVATE else 0) |||
                       (if strchr flags 's' then MAP_SHARED else 0),
              file_offset := file_offset, inode := inode,
              dev_major := dev_major, dev_minor := dev_minor },
          size_bytes := to_i32 ((end_addr : Int) - (start_addr : Int)),
          mem := none, mem_len := 0, raw_map_line := line }
  | _ => .error "Only parsed %d fields of segment info"

/-- Source: the segment read of `iterate_memory_map` (util.cc:451-460). -/
def read_segment (t : Tracee) (data : map_iterator_data) : map_iterator_data :=
  { data with
    mem := (t.read_child_data_checked data.size_bytes data.info.start_addr).1,
    mem_len := max 0 (t.read_child_data_checked data.size_bytes data.info.start_addr).2 }

/-- Source: the loop of `iterate_memory_map` (util.cc:421-468), over the text
of the maps file still unread; `it_data` is the iterator's state. Each round
reads at least one character, so `fuel` above the length of the text is never
used up. -/
def iterate_memory_map_loop {σ : Type} (t : Tracee)
    (it : σ → map_iterator_data → Except String (σ × Int))
    (filt : read_segment_filter_t) :
    Nat → List Char → σ → Except String σ
  | 0, _, _ => .error "out of fuel"
  | fuel + 1, maps_file, it_data =>
    match fgets PATH_MAX maps_file with
    | none => .ok it_data
    | some (line, rest) =>
      match parse_map_line line with
      | .error e => .error e
      | .ok data0 =>
        match caller_wants_segment_read data0.info filt with
        | .error e => .error e
        | .ok wants =>
          match it it_data (if wants ≠ 0 then read_segment t data0 else data0) with
          | .error e => .error e
          | .ok (it_data1, next_action) =>
            if next_action = STOP_ITERATING then .ok it_data1
            else iterate_memory_map_loop t it filt fuel rest it_data1

/-- Source: `iterate_memory_map` (util.cc:408-470); `maps_file` is the text
of `/proc/<tid>/maps`. -/
def iterate_memory_map {σ : Type} (t : Tracee) (maps_file : List Char)
    (it : σ → map_iterator_data → Except String (σ × Int)) (it_data : σ)
    (filt : read_segment_filter_t) : Except String σ :=
  iterate_memory_map_loop t it filt (maps_file.length + 1) maps_file it_data

/-! ## Scratch registry and mutability classifier -/

/-- Source: `is_start_of_scratch_region` (util.cc:93-102), over the first
`scratch_table_size` entries of `scratch_table`. -/
def is_start_of_scratch_region (scratch_table : List Nat) (start_addr : Nat) : Bool :=
  match scratch_table with
  | [] => false
  | e :: rest =>
    if e = start_addr then true else is_start_of_scratch_region rest start_addr

/-- The fields of `struct stat` read by `should_copy_mmap_region`. -/
structure stat_t where
  st_mode : Nat
  st_uid : Nat
deriving DecidableEq, Repr

/-- The host file system as this file asks it: `stat(path)` (`none` when it
fails), `statfs(path).f_type == TMPFS_MAGIC`, and `access(path, W_OK) == 0`. -/
structure FileSystem where
  stat : List Char → Option stat_t
  is_tmpfs : List Char → Bool
  access_w_ok : List Char → Bool

/-- Source: `is_tmp_file` (util.cc:1276-1281). -/
def is_tmp_file (fs : FileSystem) (path : List Char) : Bool := fs.is_tmpfs path

/-- Source: `should_copy_mmap_region` (util.cc:1283-1374). Debug and warning
lines are left out; `fatal` and a failed `assert` abort. -/
def should_copy_mmap_region (fs : FileSystem) (filename : List Char)
    (st : stat_t) (prot : Nat) (flags : Nat) : Except String Int :=
  let private_mapping := flags &&& MAP_PRIVATE
  if is_tmp_file fs filename then .ok 1
  else if private_mapping ≠ 0 ∧ (prot &&& PROT_EXEC) ≠ 0 then .ok 0
  else if private_mapping ≠ 0 ∧ (0o111 &&& st.st_mode) ≠ 0 then .ok 0
  else
    let can_write_file := fs.access_w_ok filename
    if !can_write_file ∧ st.st_uid = 0 then
      if (prot &&& PROT_WRITE) ≠ 0 then .error "assert(!(prot & PROT_WRITE))"
      else .ok 0
    else if private_mapping ≠ 0 then .ok 1
    else if (0o222 &&& st.st_mode) = 0 then .ok 1
    else if !can_write_file then .error "Unhandled mmap"
    else .ok 1

/-! ## Checksum engine (`checksum_iterator`, `iterate_checksums`) -/

/-- `SYSCALLBUF_SHMEM_FILENAME_PREFIX` (util.cc:61). -/
def SYSCALLBUF_SHMEM_FILENAME_PREFIX : List Char :=
  "/dev/shm/rr-tracee-shmem-".toList

/-- `struct syscallbuf_hdr` and `struct syscallbuf_record` are declared in
`preload/syscall_buffer.h`, which is not in this source unit: their sizes and
the decoding of the field `num_rec_bytes` from the header bytes are
parameters. -/
structure SyscallbufLayout where
  sizeof_hdr : Nat
  sizeof_record : Nat
  num_rec_bytes : List Nat → Nat

/-- Source: `enum ChecksumMode` (util.cc:954). -/
inductive ChecksumMode where
  | STORE_CHECKSUMS
  | VALIDATE_CHECKSUMS
deriving DecidableEq, Repr

/-- Source: `struct checksum_iterator_data` (util.cc:955-958). The file is
its text: what has been written so far when storing, what is still unread
when validating. -/
structure checksum_iterator_data where
  mode : ChecksumMode
  checksums_file : List Char
deriving DecidableEq, Repr

/-- Source: `valid_mem_len` of `checksum_iterator` (util.cc:965-991), a
`ssize_t`. -/
def checksum_valid_mem_len (L : SyscallbufLayout) (t : Tracee)
    (data : map_iterator_data) : Int :=
  if strstr data.info.name SYSCALLBUF_SHMEM_FILENAME_PREFIX = some 0 then
    let hdr := t.read_child_data L.sizeof_hdr data.info.start_addr
    to_i32 (((L.sizeof_hdr + L.num_rec_bytes hdr + L.sizeof_record) % 2 ^ 32 : Nat) : Int)
  else data.mem_len

/-- Source: the bound `ssize_t(valid_mem_len / sizeof(*buf))` of the checksum
loop (util.cc:997): an unsigned division by 4. -/
def checksum_word_count (L : SyscallbufLayout) (t : Tracee)
    (data : map_iterator_data) : Nat :=
  to_u32 (checksum_valid_mem_len L t data) / 4

/-- The word `buf[i]` of `unsigned* buf = (unsigned*)data->mem` (little
endian); `none` when the word is not inside the buffer. -/
def read_word (mem : Option (List Nat)) (i : Nat) : Option Nat :=
  match mem with
  | none => none
  | some bytes =>
    match bytes.drop (4 * i) with
    | b0 :: b1 :: b2 :: b3 :: _ => some (b0 + 256 * b1 + 65536 * b2 + 16777216 * b3)
    | _ => none

/-- Source: the checksum loop (util.cc:997-999) with `n` rounds left, at
index `i`, `checksum` being an `unsigned`. A read outside the buffer has no
defined result. -/
def checksum_loop (mem : Option (List Nat)) : Nat → Nat → Nat → Except String Nat
  | 0, _, checksum => .ok checksum
  | n + 1, i, checksum =>
    match read_word mem i with
    | none => .error "read outside data->mem"
    | some w => checksum_loop mem n (i + 1) ((checksum + w) % 2 ^ 32)

/-- Source: the checksum `checksum_iterator` computes for a segment
(util.cc:964-999). -/
def segment_checksum (L : SyscallbufLayout) (t : Tracee)
    (data : map_iterator_data) : Except String Nat :=
  checksum_loop data.mem (checksum_word_count L t data) 0 0

/-- Source: `notify_checksum_error` (util.cc:908-947); the memory dump it
writes first is left out. -/
def notify_checksum_error (checksum rec_checksum : Nat) : Except String Unit :=
  assert_exec (checksum = rec_checksum) "Divergence in contents of memory segment"

/-- The format `"(%x) %p-%p"` (util.cc:1012). -/
def checksum_line_format : List ScanDir :=
  [.lit '(', .hex 32, .lit ')', .space, .hex 32, .lit '-', .hex 32]

/-- Source: the validation of `checksum_iterator` after the line has been
read (util.cc:1012-1035), for the live `checksum`. -/
def validate_checksum_line (scratch_table : List Nat) (line : List Char)
    (checksum : Nat) (data : map_iterator_data) : Except String Int :=
  match sscanf line checksum_line_format with
  | (3, [.num rec_checksum, .num rec_start_addr, .num rec_end_addr]) =>
    match assert_exec (rec_start_addr = data.info.start_addr
                      && rec_end_addr = data.info.end_addr)
            "Segment %p-%p changed to %p-%p??" with
    | .error e => .error e
    | .ok _ =>
      if is_start_of_scratch_region scratch_table rec_start_addr then
        .ok CONTINUE_ITERATING
      else if checksum ≠ rec_checksum then
        match notify_checksum_error checksum rec_checksum with
        | .error e => .error e
        | .ok _ => .ok CONTINUE_ITERATING
      else .ok CONTINUE_ITERATING
  | _ => .error "Only parsed %d items"

/-- Source: `checksum_iterator` (util.cc:959-1037). -/
def checksum_iterator (L : SyscallbufLayout) (scratch_table : List Nat)
    (t : Tracee) (c : checksum_iterator_data) (data : map_iterator_data) :
    Except String (checksum_iterator_data × Int) :=
  match segment_checksum L t data with
  | .error e => .error e
  | .ok checksum =>
    match c.mode with
    | .STORE_CHECKSUMS =>
      .ok ({ c with checksums_file :=
              c.checksums_file ++ ('(' :: fmt_x checksum ++ [')', ' '] ++ data.raw_map_line) },
           CONTINUE_ITERATING)
    | .VALIDATE_CHECKSUMS =>
      match fgets 1024 c.checksums_file with
      | none => .error "fgets at end of file: line is not initialised"
      | some (line, rest) =>
        match validate_checksum_line scratch_table line checksum data with
        | .error e => .error e
        | .ok next_action => .ok ({ c with checksums_file := rest }, next_action)

/-- Source: `checksum_segment_filter` (util.cc:1039-1062). -/
def checksum_segment_filter (fs : FileSystem) (info : mapped_segment_info) :
    Except String Int :=
  match fs.stat info.name with
  | none => .ok 1
  | some st =>
    match should_copy_mmap_region fs info.name st info.prot info.flags with
    | .error e => .error e
    | .ok r => .ok (if r ≠ 0 ∨ (PROT_WRITE &&& info.prot) ≠ 0 then 1 else 0)

/-- Source: `iterate_checksums` (util.cc:1069-1085). `checksums_file` is the
text of the checksum file when validating; storing opens it empty. The
result is the file written (storing) or left unread (validating). -/
def iterate_checksums (L : SyscallbufLayout) (fs : FileSystem)
    (scratch_table : List Nat) (t : Tracee) (maps_file : List Char)
    (mode : ChecksumMode) (checksums_file : List Char) :
    Except String (List Char) :=
  match iterate_memory_map t maps_file (checksum_iterator L scratch_table t)
      { mode := mode,
        checksums_file := (match mode with
          | .STORE_CHECKSUMS => []
          | .VALIDATE_CHECKSUMS => checksums_file) }
      (.fn (checksum_segment_filter fs)) with
  | .error e => .error e
  | .ok c => .ok c.checksums_file

/-! ### Vocabulary for the checksum properties -/

/-- The 32-bit words of a byte sequence, in order (little endian); bytes
after the last whole word are left out. -/
def le_words : List Nat → List Nat
  | b0 :: b1 :: b2 :: b3 :: rest =>
    (b0 + 256 * b1 + 65536 * b2 + 16777216 * b3) :: le_words rest
  | _ => []

/-- The additive 32-bit checksum of the spec: the sum modulo 2^32 of the
first `n` 32-bit words of the bytes. -/
def additive_checksum (bytes : List Nat) (n : Nat) : Nat :=
  ((le_words bytes).take n).sum % 2 ^ 32

/-- The record line `"(%x) %s"` that storing writes for a segment. -/
def checksum_record_line (checksum : Nat) (raw_map_line : List Char) : List Char :=
  '(' :: fmt_x checksum ++ [')', ' '] ++ raw_map_line

/-- The directives `%p-%p` that both formats read the address range with. -/
def range_format : List ScanDir := [.hex 32, .lit '-', .hex 32]

/-- The directives of the maps format after the address range. -/
def maps_tail_format : List ScanDir :=
  [.space, .str (some 31), .space, .hex 64, .space, .hex 32, .lit ':', .hex 32,
   .space, .dec 64, .space, .str none]

/-- Whether a directive is a conversion (assigns a value). -/
def ScanDir.is_conv : ScanDir → Bool
  | .space => false
  | .lit _ => false
  | _ => true

/-- Number of conversions among directives. -/
def conv_count : List ScanDir → Nat
  | [] => 0
  | d :: ds => (if d.is_conv then 1 else 0) + conv_count ds

/-- Every directive is followed, sooner or later, by a conversion or is one. -/
def ends_in_conv : List ScanDir → Bool
  | [] => true
  | d :: ds => decide (0 < conv_count (d :: ds)) && ends_in_conv ds

/-- All the directives are satisfied in turn: the values assigned and the
input left. -/
def scan_all : List ScanDir → List Char → Option (List ScanVal × List Char)
  | [], inp => some ([], inp)
  | d :: ds, inp =>
    match scan_step d inp with
    | .ok rest v =>
      match scan_all ds rest with
      | some (vals, r) => some (v.toList ++ vals, r)
      | none => none
    | _ => none

/-- The lines `fgets` cuts a text into, with the fuel of the enumeration
loop. -/
def fgets_lines (size : Nat) : Nat → List Char → List (List Char)
  | 0, _ => []
  | fuel + 1, text =>
    match fgets size text with
    | none => []
    | some (line, rest) => line :: fgets_lines size fuel rest

/-! ### Sample inputs -/

/-- A layout with a 4-byte header whose first byte is `num_rec_bytes`, and
8-byte records. -/
def sample_layout : SyscallbufLayout :=
  { sizeof_hdr := 4, sizeof_record := 8, num_rec_bytes := fun hdr => hdr.headD 0 }

/-- A tracee whose memory reads as zero bytes, every read complete. -/
def zero_tracee : Tracee :=
  { read_child_data_checked := fun size _ => (some (List.replicate size.toNat 0), size),
    read_child_data := fun size _ => List.replicate size 0 }

/-- The mapping `08048000-08048008 rw-p` of `/tmp/data`. -/
def sample_info : mapped_segment_info :=
  { name := "/tmp/data".toList, start_addr := 0x08048000, end_addr := 0x08048008,
    prot := 3, flags := 2, file_offset := 0, inode := 7, dev_major := 8, dev_minor := 1 }

/-- The maps line of `sample_info`. -/
def sample_raw_line : List Char :=
  "08048000-08048008 rw-p 00000000 08:01 7 /tmp/data\n".toList

/-- The segment `sample_info` read in full, holding the bytes 1..8. -/
def sample_data : map_iterator_data :=
  { info := sample_info, size_bytes := 8, mem := some [1, 2, 3, 4, 5, 6, 7, 8],
    mem_len := 8, raw_map_line := sample_raw_line }

/-- A syscall-buffer segment of 24 bytes whose header announces 4 bytes of
records: the checksum covers 4 + 4 + 8 = 16 bytes. -/
def sample_syscallbuf_data (tail : List Nat) : map_iterator_data :=
  { info := { sample_info with name := "/dev/shm/rr-tracee-shmem-77".toList },
    size_bytes := 24,
    mem := some ([4, 0, 0, 0, 1, 1, 1, 1, 2, 2, 2, 2, 3, 3, 3, 3] ++ tail),
    mem_len := 24, raw_map_line := sample_raw_line }

/-- A tracee whose syscall-buffer header reads `num_rec_bytes = 4`. -/
def syscallbuf_tracee : Tracee :=
  { read_child_data_checked := fun size _ => (some (List.replicate size.toNat 0), size),
    read_child_data := fun _ _ => [4, 0, 0, 0] }

/-- A path of 1012 characters: five directories with names of 200
characters and a file `lib.so`. -/
def long_path : List Char :=
  '/' :: List.replicate 200 'd' ++ '/' :: List.replicate 200 'd' ++
  '/' :: List.replicate 200 'd' ++ '/' :: List.replicate 200 'd' ++
  '/' :: List.replicate 200 'd' ++ "/lib.so".toList

/-- A maps file of two private executable mappings, the first of the file
`long_path`. -/
def long_path_maps : List Char :=
  "08048000-08049000 r-xp 00000000 08:01 1 ".toList ++ long_path ++
  "\n08049000-0804a000 r-xp 00000000 08:01 2 /lib/b.so\n".toList

/-- A host on which every file exists, is owned by root with mode 0755, is
not on tmpfs and cannot be written. -/
def root_fs : FileSystem :=
  { stat := fun _ => some { st_mode := 0o755, st_uid := 0 },
    is_tmpfs := fun _ => false, access_w_ok := fun _ => false }

/-- The checksum file that storing writes for `long_path_maps`. -/
def long_path_checksums : List Char :=
  "(0) 08048000-08049000 r-xp 00000000 08:01 1 ".toList ++ long_path ++
  "\n(0) 08049000-0804a000 r-xp 00000000 08:01 2 /lib/b.so\n".toList

/-- A maps file of three short lines: code, data, and an anonymous
mapping. -/
def sample_maps : List Char :=
  ("08048000-08048010 r-xp 00000000 08:01 7 /bin/cat\n" ++
   "08049000-08049008 rw-p 00001000 08:01 7 /bin/cat\n" ++
   "bffdf000-bffdf004 rw-p 00000000 00:00 0 \n").toList

/-- The checksum file that storing writes for `sample_maps` on `root_fs` with
zero memory. -/
def sample_checksums : List Char :=
  ("(0) 08048000-08048010 r-xp 00000000 08:01 7 /bin/cat\n" ++
   "(0) 08049000-08049008 rw-p 00001000 08:01 7 /bin/cat\n" ++
   "(0) bffdf000-bffdf004 rw-p 00000000 00:00 0 \n").toList

/-! ### Vocabulary for the classifier's properties -/

/-- The three outcomes of the decision table of the spec: track the mapping
(true), skip it (false), or refuse (fatal). -/
inductive CopyDecision where
  | track
  | skip
  | fatal
deriving DecidableEq, Repr

/-- The eight-rule, first-match decision table as the spec words it (section
4.3), over: backing store on tmpfs, private mapping, protection bits, file
mode, owner uid, host can write the file. -/
def should_copy_table (tmpfs private_mapping : Bool) (prot mode uid : Nat)
    (can_write : Bool) : CopyDecision :=
  if tmpfs then .track
  else if private_mapping ∧ prot &&& PROT_EXEC ≠ 0 then .skip
  else if private_mapping ∧ mode &&& 0o111 ≠ 0 then .skip
  else if can_write = false ∧ uid = 0 then .skip
  else if private_mapping then .track
  else if mode &&& 0o222 = 0 then .track
  else if can_write = false then .fatal
  else .track

/-- The return value or abort that stands for an outcome of the table. -/
def CopyDecision.result : CopyDecision → Except String Int
  | .track => .ok 1
  | .skip => .ok 0
  | .fatal => .error "Unhandled mmap"

/-- The inputs on which rule 4 is reached with a writable mapping: not on
tmpfs, not caught by rules 2 and 3, file owned by root and not writable by the
host, and `PROT_WRITE` set. -/
def rule4_writable (tmpfs private_mapping : Bool) (prot mode uid : Nat)
    (can_write : Bool) : Prop :=
  tmpfs = false ∧ ¬ (private_mapping ∧ prot &&& PROT_EXEC ≠ 0) ∧
  ¬ (private_mapping ∧ mode &&& 0o111 ≠ 0) ∧ can_write = false ∧ uid = 0 ∧
  prot &&& PROT_WRITE ≠ 0

instance (tmpfs private_mapping : Bool) (prot mode uid : Nat) (can_write : Bool) :
    Decidable (rule4_writable tmpfs private_mapping prot mode uid can_write) := by
  unfold rule4_writable
  infer_instance

/-- A host on which every file is owned by root with mode 0644, is not on
tmpfs and cannot be written. -/
def root_data_fs : FileSystem :=
  { stat := fun _ => some { st_mode := 0o644, st_uid := 0 },
    is_tmpfs := fun _ => false, access_w_ok := fun _ => false }

/-- A host on which every file is owned by root with mode 0644, is on tmpfs
and cannot be written. -/
def root_tmpfs : FileSystem :=
  { stat := fun _ => some { st_mode := 0o644, st_uid := 0 },
    is_tmpfs := fun _ => true, access_w_ok := fun _ => false }

/-! ## Segment locator (`find_segment_containing`) -/

/-- Source: `addr_in_segment` (util.cc:488-491): nonzero when the address is
in the half-open range of the segment. -/
def addr_in_segment (addr : Nat) (info : mapped_segment_info) : Int :=
  if info.start_addr ≤ addr ∧ addr < info.end_addr then 1 else 0

/-- Source: `find_segment_iterator` (util.cc:493-504); the iterator's data is
the caller's `info`, whose `start_addr` holds the address searched. -/
def find_segment_iterator (info : mapped_segment_info) (data : map_iterator_data) :
    Except String (mapped_segment_info × Int) :=
  let search_addr := info.start_addr
  if addr_in_segment search_addr data.info ≠ 0 then .ok (data.info, STOP_ITERATING)
  else .ok (info, CONTINUE_ITERATING)

/-- The descriptor after `memset(info, 0, sizeof(*info))`. -/
def zero_segment_info : mapped_segment_info :=
  { name := [], start_addr := 0, end_addr := 0, prot := 0, flags := 0,
    file_offset := 0, inode := 0, dev_major := 0, dev_minor := 0 }

/-- Source: `find_segment_containing` (util.cc:506-514): the value returned
and the descriptor left in `*info`. -/
def find_segment_containing (t : Tracee) (maps_file : List Char) (search_addr : Nat) :
    Except String (Int × mapped_segment_info) :=
  match iterate_memory_map t maps_file find_segment_iterator
      { zero_segment_info with start_addr := search_addr } .kNeverReadSegment with
  | .error e => .error e
  | .ok info => .ok (addr_in_segment search_addr info, info)

/-! ### Vocabulary for the enumerator's properties -/

/-- The loop of `iterate_memory_map` with a record of the descriptors the
callback was invoked with, kept also when the enumeration aborts. -/
def iterate_memory_map_calls {σ : Type} (t : Tracee)
    (it : σ → map_iterator_data → Except String (σ × Int))
    (filt : read_segment_filter_t) :
    Nat → List Char → σ → List map_iterator_data × Except String σ
  | 0, _, _ => ([], .error "out of fuel")
  | fuel + 1, maps_file, it_data =>
    match fgets PATH_MAX maps_file with
    | none => ([], .ok it_data)
    | some (line, rest) =>
      match parse_map_line line with
      | .error e => ([], .error e)
      | .ok data0 =>
        match caller_wants_segment_read data0.info filt with
        | .error e => ([], .error e)
        | .ok wants =>
          match it it_data (if wants ≠ 0 then read_segment t data0 else data0) with
          | .error e => ([if wants ≠ 0 then read_segment t data0 else data0], .error e)
          | .ok (it_data1, next_action) =>
            if next_action = STOP_ITERATING then
              ([if wants ≠ 0 then read_segment t data0 else data0], .ok it_data1)
            else
              ((if wants ≠ 0 then read_segment t data0 else data0) ::
                (iterate_memory_map_calls t it filt fuel rest it_data1).1,
               (iterate_memory_map_calls t it filt fuel rest it_data1).2)

/-- An iterator that keeps every descriptor and always continues. -/
def collect_iterator (acc : List mapped_segment_info) (data : map_iterator_data) :
    Except String (List mapped_segment_info × Int) :=
  .ok (acc ++ [data.info], CONTINUE_ITERATING)

/-- The segments of a maps file in enumeration order, when every line
parses. -/
def enumerate_segments (t : Tracee) (maps_file : List Char) :
    Except String (List mapped_segment_info) :=
  iterate_memory_map t maps_file collect_iterator [] .kNeverReadSegment

/-- Whether the address is in the half-open range `[start, end)` of the
segment. -/
def segment_contains (addr : Nat) (info : mapped_segment_info) : Bool :=
  decide (info.start_addr ≤ addr ∧ addr < info.end_addr)

/-- The number of fields `sscanf` parses from a maps line. -/
def nparsed (line : List Char) : Int := (sscanf line maps_line_format).1

/-- The directives of the maps format up to the inode. -/
def maps_head_format : List ScanDir :=
  [.hex 32, .lit '-', .hex 32, .space, .str (some 31), .space, .hex 64,
   .space, .hex 32, .lit ':', .hex 32, .space, .dec 64]

/-- A value has the kind its conversion assigns. -/
def ScanDir.fits : ScanDir → ScanVal → Prop
  | .hex _, .num _ => True
  | .dec _, .num _ => True
  | .str _, .str _ => True
  | _, _ => False

/-- What the callback gets for a line: the descriptor parsed from it, its
size the difference of the two addresses as an `int`, and the line itself. -/
def call_of_line (line : List Char) (data : map_iterator_data) : Prop :=
  ∃ data0, parse_map_line line = .ok data0 ∧ data.info = data0.info ∧
    data.size_bytes = to_i32 ((data.info.end_addr : Int) - (data.info.start_addr : Int)) ∧
    data.raw_map_line = line

/-- The three segments of `sample_maps`. -/
def sample_segments : List mapped_segment_info :=
  [{ name := "/bin/cat".toList, start_addr := 0x08048000, end_addr := 0x08048010,
     prot := 5, flags := 2, file_offset := 0, inode := 7, dev_major := 8, dev_minor := 1 },
   { name := "/bin/cat".toList, start_addr := 0x08049000, end_addr := 0x08049008,
     prot := 3, flags := 2, file_offset := 0x1000, inode := 7, dev_major := 8,
     dev_minor := 1 },
   { name := [], start_addr := 0xbffdf000, end_addr := 0xbffdf004,
     prot := 3, flags := 2, file_offset := 0, inode := 0, dev_major := 0, dev_minor := 0 }]

/-- A maps file whose second line is malformed: it has no address range. -/
def malformed_maps : List Char :=
  ("08048000-08048010 r-xp 00000000 08:01 7 /bin/cat\n" ++
   "garbage\n" ++
   "bffdf000-bffdf004 rw-p 00000000 00:00 0 \n").toList

/-! ## Remote-syscall injector (`prepare_remote_syscalls` ... `finish_remote_syscalls`) -/

/-- The tracee as `ptrace` shows it: its registers and its memory, one byte
per address. `kernel` stands for the kernel's own state of the tracee (such
as whether it is inside a syscall), which the code never reads or writes. -/
structure Child where
  regs : user_regs_struct
  mem : Nat → Nat
  kernel : Nat

/-- The fields of `struct task` (declared in `task.h`) that the injector and
the syscall-buffer bootstrap use, with the tracee behind the task. `reg_writes`
records every register file written to the tracee, in order; the code does
not read it. -/
structure task where
  tid : Int
  rec_tid : Int
  status : Int
  child : Child
  desched_fd : Int
  desched_fd_child : Int
  untraced_syscall_ip : Nat
  num_syscallbuf_bytes : Nat
  syscallbuf_child : Nat
  syscallbuf_hdr : Nat
  reg_writes : List user_regs_struct

/-- The fields of `struct current_state_buffer` (declared in `util.h`) set by
`prepare_remote_syscalls`. -/
structure current_state_buffer where
  pid : Int
  regs : user_regs_struct
  code_size : Nat
  start_addr : Nat
  code_buffer : List Nat
deriving DecidableEq, Repr

/-- The fields of `struct restore_mem` (declared in `util.h`). -/
structure restore_mem where
  addr : Nat
  data : List Nat
  len : Nat
  saved_sp : Nat
deriving DecidableEq, Repr

/-- The kernel side of tracing, defined outside this source unit:
`sys_ptrace_syscall` resumes the tracee to its next syscall stop,
`sys_waitpid` waits for the stop and gives the wait status, and the macro
`GET_PTRACE_EVENT` extracts the ptrace event from a status. -/
structure Kernel where
  sys_ptrace_syscall : Child → Child
  sys_waitpid : Child → Child × Int
  GET_PTRACE_EVENT : Int → Int

/-- `PTRACE_EVENT_SECCOMP_OBSOLETE` (util.cc:47). -/
def PTRACE_EVENT_SECCOMP_OBSOLETE : Int := 8
/-- `PTRACE_EVENT_SECCOMP` (util.cc:48). -/
def PTRACE_EVENT_SECCOMP : Int := 7

/-- Modelled from the spec: `read_child_registers` (task abstraction, register
read) is not in this source unit; it copies the tracee's registers. -/
def read_child_registers (t : task) : user_regs_struct := t.child.regs

/-- Modelled from the spec: `write_child_registers` (task abstraction,
register write) is not in this source unit; it sets the tracee's registers. -/
def write_child_registers (t : task) (regs : user_regs_struct) : task :=
  { t with child := { t.child with regs := regs }, reg_writes := t.reg_writes ++ [regs] }

/-- Modelled from the spec: `read_child_data` (task abstraction, memory read)
is not in this source unit; it copies `size` bytes of tracee memory from
`addr`. -/
def read_child_data (t : task) (size : Nat) (addr : Nat) : List Nat :=
  (List.range size).map (fun i => t.child.mem (addr + i))

/-- Modelled from the spec: `write_child_data` (task abstraction, memory
write) is not in this source unit; it stores `size` bytes at `addr`. -/
def write_child_data (t : task) (size : Nat) (addr : Nat) (data : List Nat) : task :=
  { t with child := { t.child with
      mem := fun a => if addr ≤ a ∧ a < addr + size then data.getD (a - addr) 0
                      else t.child.mem a } }

/-- The call `sys_ptrace_syscall(t)`. -/
def sys_ptrace_syscall (K : Kernel) (t : task) : task :=
  { t with child := K.sys_ptrace_syscall t.child }

/-- The call `sys_waitpid(tid, &t->status)`. -/
def sys_waitpid (K : Kernel) (t : task) : task :=
  { t with child := (K.sys_waitpid t.child).1, status := (K.sys_waitpid t.child).2 }

/-- Source: `prepare_remote_syscalls` (util.cc:1376-1393). -/
def prepare_remote_syscalls (t : task) : task × current_state_buffer :=
  let regs := read_child_registers t
  let state : current_state_buffer :=
    { pid := t.tid, regs := regs, code_size := 2, start_addr := regs.eip,
      code_buffer := read_child_data t 2 regs.eip }
  (write_child_data t state.code_size state.start_addr [0xcd, 0x80], state)

/-- C `strlen` of a string given as its bytes: the number of bytes before the
first NUL, or all of them. -/
def strlen : List Nat → Nat
  | [] => 0
  | c :: cs => if c = 0 then 0 else strlen cs + 1

/-- Source: `push_tmp_str` (util.cc:1395-1410): the task, the session state,
the record `*mem` and the address returned. `size_t` and `long` arithmetic is
modulo 2^32. -/
def push_tmp_str (t : task) (state : current_state_buffer) (str : List Nat) :
    task × current_state_buffer × restore_mem × Nat :=
  let len := (strlen str + 1) % 2 ^ 32
  let saved_sp := state.regs.esp
  let state := { state with
    regs := { state.regs with esp := (state.regs.esp + 2 ^ 32 - len) % 2 ^ 32 } }
  let t := write_child_registers t state.regs
  let addr := state.regs.esp
  let data := read_child_data t len addr
  let t := write_child_data t len addr (str.take (strlen str) ++ [0])
  (t, state, { addr := addr, data := data, len := len, saved_sp := saved_sp }, addr)

/-- Source: `pop_tmp_mem` (util.cc:1412-1422). -/
def pop_tmp_mem (t : task) (state : current_state_buffer) (mem : restore_mem) :
    Except String (task × current_state_buffer) :=
  if mem.saved_sp ≠ (state.regs.esp + mem.len) % 2 ^ 32 then
    .error "assert(mem->saved_sp == (byte*)state->regs.esp + mem->len)"
  else
    let t := write_child_data t mem.len mem.addr mem.data
    let state := { state with
      regs := { state.regs with esp := (state.regs.esp + mem.len) % 2 ^ 32 } }
    .ok (write_child_registers t state.regs, state)

/-- Source: `wait_remote_syscall` (util.cc:1472-1486). -/
def wait_remote_syscall (K : Kernel) (t : task) (syscallno : Int) :
    Except String (task × Nat) :=
  let t := sys_waitpid K t
  let regs := read_child_registers t
  match assert_exec (regs.orig_eax = to_u32 syscallno)
      "Should be entering %s, but instead at %s" with
  | .error e => .error e
  | .ok _ => .ok (t, regs.eax)

/-- Source: the register file `remote_syscall` prepares (util.cc:1434-1441):
a copy of the saved registers with the syscall number and the six
arguments. -/
def remote_syscall_callregs (state : current_state_buffer) (syscallno : Int)
    (a1 a2 a3 a4 a5 a6 : Nat) : user_regs_struct :=
  { state.regs with eax := to_u32 syscallno, ebx := a1, ecx := a2, edx := a3,
                    esi := a4, edi := a5, ebp := a6 }

/-- Source: the advance to syscall entry of `remote_syscall`
(util.cc:1445-1456), stepping past a seccomp trace event. -/
def advance_to_syscall_entry (K : Kernel) (t : task) : task :=
  let t := sys_waitpid K (sys_ptrace_syscall K t)
  if K.GET_PTRACE_EVENT t.status = PTRACE_EVENT_SECCOMP
      ∨ K.GET_PTRACE_EVENT t.status = PTRACE_EVENT_SECCOMP_OBSOLETE then
    sys_waitpid K (sys_ptrace_syscall K t)
  else t

/-- Source: `remote_syscall` from the entry stop on (util.cc:1457-1469). -/
def remote_syscall_at_entry (K : Kernel) (WAIT : Int) (t : task)
    (state : current_state_buffer) (wait : Int) (syscallno : Int) :
    Except String (task × current_state_buffer × Nat) :=
  if K.GET_PTRACE_EVENT t.status ≠ 0 then
    .error "assert(GET_PTRACE_EVENT(t->status) == 0)"
  else
    match assert_exec ((read_child_registers t).orig_eax = to_u32 syscallno)
        "Should be entering %s, but instead at %s" with
    | .error e => .error e
    | .ok _ =>
      if WAIT = wait then
        match wait_remote_syscall K (sys_ptrace_syscall K t) syscallno with
        | .error e => .error e
        | .ok (t1, ret) => .ok (t1, state, ret)
      else .ok (sys_ptrace_syscall K t, state, 0)

/-- Source: `remote_syscall` (util.cc:1424-1470); `WAIT` is declared in
`util.h` and is a parameter. The session state is handed back as the call
leaves it. -/
def remote_syscall (K : Kernel) (WAIT : Int) (t : task) (state : current_state_buffer)
    (wait : Int) (syscallno : Int) (a1 a2 a3 a4 a5 a6 : Nat) :
    Except String (task × current_state_buffer × Nat) :=
  if t.tid ≠ state.pid then .error "assert(tid == state->pid)"
  else
    remote_syscall_at_entry K WAIT
      (advance_to_syscall_entry K
        (write_child_registers t
          (remote_syscall_callregs state syscallno a1 a2 a3 a4 a5 a6)))
      state wait syscallno

/-- Source: `finish_remote_syscalls` (util.cc:1488-1502). -/
def finish_remote_syscalls (t : task) (state : current_state_buffer) : Except String task :=
  if t.tid ≠ state.pid then .error "assert(tid == state->pid)"
  else
    let t := write_child_data t state.code_size state.start_addr state.code_buffer
    .ok (write_child_registers t state.regs)

/-! ### Vocabulary for the injector's properties -/

/-- One step of a session between `prepare` and `finish`. -/
inductive SessionOp where
  /-- A call of `remote_syscall`. -/
  | syscall (wait : Int) (syscallno : Int) (a1 a2 a3 a4 a5 a6 : Nat)
  /-- A call of `wait_remote_syscall`, completing a deferred call. -/
  | wait_syscall (syscallno : Int)
  /-- A call of `push_tmp_str`; its record goes on top of the stack. -/
  | push (str : List Nat)
  /-- A call of `pop_tmp_mem` with the record of the latest push not yet
  popped. -/
  | pop
deriving DecidableEq, Repr

/-- A session in flight: the task, the session state, and the records of the
pushes not yet popped, the latest first. -/
structure Session where
  t : task
  state : current_state_buffer
  stack : List restore_mem

/-- Run one step of a session. A `pop` with no record outstanding is not a
call the caller can make. -/
def run_op (K : Kernel) (WAIT : Int) (s : Session) : SessionOp → Except String Session
  | .syscall wait syscallno a1 a2 a3 a4 a5 a6 =>
    match remote_syscall K WAIT s.t s.state wait syscallno a1 a2 a3 a4 a5 a6 with
    | .error e => .error e
    | .ok (t, state, _) => .ok { s with t := t, state := state }
  | .wait_syscall syscallno =>
    match wait_remote_syscall K s.t syscallno with
    | .error e => .error e
    | .ok (t, _) => .ok { s with t := t }
  | .push str =>
    .ok { t := (push_tmp_str s.t s.state str).1,
          state := (push_tmp_str s.t s.state str).2.1,
          stack := (push_tmp_str s.t s.state str).2.2.1 :: s.stack }
  | .pop =>
    match s.stack with
    | [] => .error "no record to pop"
    | mem :: rest =>
      match pop_tmp_mem s.t s.state mem with
      | .error e => .error e
      | .ok (t, state) => .ok { t := t, state := state, stack := rest }

/-- Run the steps of a session in order. -/
def run_ops (K : Kernel) (WAIT : Int) : List SessionOp → Session → Except String Session
  | [], s => .ok s
  | op :: ops, s =>
    match run_op K WAIT s op with
    | .error e => .error e
    | .ok s1 => run_ops K WAIT ops s1

/-- The records on the stack lead back to the stack pointer `esp0`: popping
them in order ends there. -/
def esp_chain (esp0 : Nat) : List restore_mem → Nat → Prop
  | [], esp => esp = esp0
  | mem :: rest, _ => esp_chain esp0 rest mem.saved_sp

/-- A kernel for examples: the first resume enters the syscall (`orig_eax`
takes the number in `eax`), the second leaves it with the result in `eax`, 0
for a `connect` socketcall and 5 for every other call; every stop is a plain
syscall stop. -/
def toy_kernel : Kernel :=
  { sys_ptrace_syscall := fun c =>
      if c.kernel = 0 then
        { c with regs := { c.regs with orig_eax := c.regs.eax }, kernel := 1 }
      else
        { c with regs := { c.regs with eax := if c.regs.ebx = 3 then 0 else 5 },
                 kernel := 0 },
    sys_waitpid := fun c => (c, 0x857f),
    GET_PTRACE_EVENT := fun status => (status / 65536) % 256 }

/-- A task for examples: tid 100, stopped at `eip = 0x1000` with
`esp = 0x2000`, its memory holding at each address the address modulo 256. -/
def sample_task : task :=
  { tid := 100, rec_tid := 100, status := 0,
    child := { regs := { zero_regs with eip := 0x1000, esp := 0x2000, ebx := 0x3000 },
               mem := fun a => a % 256, kernel := 0 },
    desched_fd := 0, desched_fd_child := 0, untraced_syscall_ip := 0,
    num_syscallbuf_bytes := 0, syscallbuf_child := 0, syscallbuf_hdr := 0,
    reg_writes := [] }

/-- A session for examples: a string pushed, a waited call, a second string
pushed and popped, the first popped, then a deferred call and its wait. -/
def sample_ops : List SessionOp :=
  [.push [47, 116, 109, 112], .syscall 1 5 0x1ffb 0 0 0 0 0, .push [97], .pop, .pop,
   .syscall 0 102 3 0x3000 0 0 0 0, .wait_syscall 102]

/-- Whether a run ended normally with no record outstanding. -/
def ended_balanced (r : Except String Session) : Bool :=
  match r with
  | .ok s => s.stack.isEmpty
  | .error _ => false

/-- The invariant of a session opened on task `tid` with tracee registers
`regs0` and saved instruction bytes `code`: the session state still holds
them, its registers differ from `regs0` in `esp` at most, and the records
outstanding lead back to `regs0.esp`. -/
def session_inv (tid : Int) (regs0 : user_regs_struct) (code : List Nat) (s : Session) : Prop :=
  s.t.tid = tid ∧ s.state.pid = tid ∧ s.state.code_size = 2 ∧
  s.state.start_addr = regs0.eip ∧ s.state.code_buffer = code ∧
  s.state.regs = { regs0 with esp := s.state.regs.esp } ∧
  esp_chain regs0.esp s.stack s.state.regs.esp

/-- Whether a script is made of pushes and pops only, every pop matching an
earlier push not yet popped, with `d` pushes outstanding at its start and
none at its end. -/
def lifo_nested : Nat → List SessionOp → Bool
  | d, [] => d == 0
  | d, .push _ :: ops => lifo_nested (d + 1) ops
  | d + 1, .pop :: ops => lifo_nested d ops
  | _, _ => false

/-- The tracee memory that popping the records in order, the latest first,
gives from `mem`. -/
def unwind (mem : Nat → Nat) : List restore_mem → Nat → Nat
  | [] => mem
  | r :: rest =>
    unwind (fun a => if r.addr ≤ a ∧ a < r.addr + r.len then r.data.getD (a - r.addr) 0
                     else mem a) rest

/-- Each record on the stack passes the assertion of `pop_tmp_mem` when its
turn comes: its `saved_sp` is `len` above the stack pointer left by the pops
before it. -/
def stack_valid : Nat → List restore_mem → Prop
  | _, [] => True
  | esp, r :: rest => r.saved_sp = (esp + r.len) % 2 ^ 32 ∧ stack_valid r.saved_sp rest

/-- The invariant of pushes and pops on a tracee that had memory `mem0` and
session registers `regs0`: popping what is outstanding gives `mem0` back, the
session registers differ from `regs0` in `esp` at most. -/
def push_pop_inv (mem0 : Nat → Nat) (regs0 : user_regs_struct) (s : Session) : Prop :=
  s.state.regs.esp < 2 ^ 32 ∧ stack_valid s.state.regs.esp s.stack ∧
  unwind s.t.child.mem s.stack = mem0 ∧
  s.state.regs = { regs0 with esp := s.state.regs.esp }

/-! ## Scratch registry state (`add_scratch`) -/

/-- The file-level state of the scratch registry (util.cc:65-67): the slots
of the array `scratch_table[MAX_TID]` and the two `size_t` counters. -/
structure ScratchState where
  scratch_table : List Nat
  scratch_table_size : Nat
  scratch_overall_size : Nat
deriving DecidableEq, Repr

/-- The registry at program start: `MAX_TID` slots holding `NULL`, both
counters 0. `MAX_TID` is declared outside this source unit and is a
parameter. -/
def scratch_init (MAX_TID : Nat) : ScratchState :=
  { scratch_table := List.replicate MAX_TID 0, scratch_table_size := 0,
    scratch_overall_size := 0 }

/-- Source: `add_scratch` (util.cc:1135-1138). The function stores at index
`scratch_table_size` without comparing it with `MAX_TID`; a store at an index
outside the array is undefined in C and is an error here. -/
def add_scratch (MAX_TID : Nat) (st : ScratchState) (ptr : Nat) (size : Int) :
    Except String ScratchState :=
  if st.scratch_table_size < MAX_TID then
    .ok { scratch_table := st.scratch_table.set st.scratch_table_size ptr,
          scratch_table_size := (st.scratch_table_size + 1) % 2 ^ 32,
          scratch_overall_size := (st.scratch_overall_size + to_u32 size) % 2 ^ 32 }
  else .error "store outside scratch_table"

/-- The entries `is_start_of_scratch_region` visits in a registry state: the
loop runs while `i < ssize_t(scratch_table_size)` (util.cc:96). -/
def scratch_entries (st : ScratchState) : List Nat :=
  st.scratch_table.take (to_i32 st.scratch_table_size).toNat

/-- A sequence of `add_scratch(ptr, size)` calls, in order. -/
def add_scratch_calls (MAX_TID : Nat) : ScratchState → List (Nat × Int) →
    Except String ScratchState
  | st, [] => .ok st
  | st, (ptr, size) :: calls =>
    match add_scratch MAX_TID st ptr size with
    | .error e => .error e
    | .ok st1 => add_scratch_calls MAX_TID st1 calls

/-- The private read-write mapping of the data of a system library, the file
`/lib/libc.so`. -/
def libc_data_info : mapped_segment_info :=
  { name := "/lib/libc.so".toList, start_addr := 0xb7600000, end_addr := 0xb7602000,
    prot := 3, flags := 2, file_offset := 0x1a0000, inode := 11, dev_major := 8,
    dev_minor := 1 }

/-- A syscall-buffer segment of 24 bytes of which the read gave the first 8
only; its header announces 4 bytes of records. -/
def partly_read_syscallbuf : map_iterator_data :=
  { info := { sample_info with name := "/dev/shm/rr-tracee-shmem-77".toList },
    size_bytes := 24, mem := some [4, 0, 0, 0, 1, 1, 1, 1], mem_len := 8,
    raw_map_line := sample_raw_line }

/-! ## Syscall-buffer bootstrap (`init_syscall_buffer`) -/

/-- `REPLAY_DESCHED_EVENT_FD` (util.cc:55). -/
def REPLAY_DESCHED_EVENT_FD : Int := -123

/-- `SYS_close` of `<sys/syscall.h>` (i386). -/
def SYS_close : Int := 6
/-- `SYS_ioctl` of `<sys/syscall.h>` (i386). -/
def SYS_ioctl : Int := 54
/-- `SYS_socketcall` of `<sys/syscall.h>` (i386). -/
def SYS_socketcall : Int := 102
/-- `SYS_mmap2` of `<sys/syscall.h>` (i386). -/
def SYS_mmap2 : Int := 192
/-- `SYS_SOCKET` of `<linux/net.h>`. -/
def SYS_SOCKET : Nat := 1
/-- `SYS_CONNECT` of `<linux/net.h>`. -/
def SYS_CONNECT : Nat := 3
/-- `SYS_SENDMSG` of `<linux/net.h>`. -/
def SYS_SENDMSG : Nat := 16
/-- `SYS_RECVMSG` of `<linux/net.h>`. -/
def SYS_RECVMSG : Nat := 17
/-- `AF_UNIX` of `<sys/socket.h>`. -/
def AF_UNIX : Nat := 1
/-- `SOCK_STREAM` of `<sys/socket.h>`. -/
def SOCK_STREAM : Nat := 1

/-- Names declared in `util.h` and `preload/syscall_buffer.h`, which are not
in this source unit, as parameters: the wait policies, the flag value that
asks for the desched event fd to be shared, the size of the syscall buffer and
`sizeof(struct sockaddr_un)`. -/
structure UtilParams where
  WAIT : Int
  DONT_WAIT : Int
  SHARE_DESCHED_EVENT_FD : Int
  SYSCALLBUF_BUFFER_SIZE : Nat
  sizeof_sockaddr_un : Nat
deriving DecidableEq, Repr

/-- The fields of `struct rrcall_init_buffers_params` (declared in
`preload/syscall_buffer.h`) that `init_syscall_buffer` uses; pointers are
tracee addresses. -/
structure rrcall_init_buffers_params where
  untraced_syscall_ip : Nat
  args_vec : Nat
  sockaddr : Nat
  msg : Nat
  fdptr : Nat
  num_syscallbuf_bytes : Nat
  syscallbuf_ptr : Nat
deriving DecidableEq, Repr

/-- What the host's own library calls in `init_syscall_buffer`, `send_fd` and
`recv_fd` return: `open`, `ftruncate`, `bind`, `listen`, `sendmsg`, `recvmsg`,
whether the control message received is `SOL_SOCKET`/`SCM_RIGHTS`, the
descriptor and the remote descriptor number received, and `mmap`. -/
structure HostCalls where
  open_shmem : Int
  ftruncate : Int
  bind : Int
  listen : Int
  sendmsg : Int
  recvmsg : Int
  cmsg_is_rights : Bool
  received_fd : Int
  received_remote_fd : Int
  mmap : Nat
deriving DecidableEq, Repr

/-- The four bytes of a 32-bit value, low byte first. -/
def le_bytes (x : Nat) : List Nat :=
  [x % 256, x / 256 % 256, x / 65536 % 256, x / 16777216 % 256]

/-- The 32-bit value of four bytes, low byte first. -/
def le_value (bytes : List Nat) : Nat :=
  bytes.getD 0 0 + 256 * bytes.getD 1 0 + 65536 * bytes.getD 2 0 + 16777216 * bytes.getD 3 0

/-- Source: `is_desched_event_syscall` (util.cc:1203-1209); the register
fields are `long`, the descriptor number an `int`. -/
def is_desched_event_syscall (t : task) (regs : user_regs_struct) : Int :=
  if SYS_ioctl = to_i32 regs.orig_eax
      ∧ (t.desched_fd_child = to_i32 regs.ebx
         ∨ t.desched_fd_child = REPLAY_DESCHED_EVENT_FD) then 1 else 0

/-- Source: `send_fd` (util.cc:1507-1537), as far as the host's `sendmsg`
decides it. -/
def send_fd (H : HostCalls) : Except String Unit :=
  if 0 ≥ H.sendmsg then .error "Failed to send fd" else .ok ()

/-- Source: `recv_fd` (util.cc:1544-1576): the descriptor received and the
remote descriptor number. -/
def recv_fd (H : HostCalls) : Except String (Int × Int) :=
  if 0 ≥ H.recvmsg then .error "Failed to receive fd"
  else if !H.cmsg_is_rights then
    .error "assert(cmsg->cmsg_level == SOL_SOCKET && cmsg->cmsg_type == SCM_RIGHTS)"
  else .ok (H.received_fd, H.received_remote_fd)

/-- Source: `write_socketcall_args` (util.cc:1578-1584); `struct
socketcall_args` holds three `long`. -/
def write_socketcall_args (t : task) (child_args_vec : Nat) (arg1 arg2 arg3 : Nat) : task :=
  write_child_data t 12 child_args_vec (le_bytes arg1 ++ le_bytes arg2 ++ le_bytes arg3)

/-- Modelled from the spec: the macro `remote_syscall6` of `util.h`, a
`remote_syscall` with the `WAIT` policy. -/
def remote_syscall6 (K : Kernel) (WAIT : Int) (t : task) (state : current_state_buffer)
    (syscallno : Int) (a1 a2 a3 a4 a5 a6 : Nat) :
    Except String (task × current_state_buffer × Nat) :=
  remote_syscall K WAIT t state WAIT syscallno a1 a2 a3 a4 a5 a6

/-- Modelled from the spec: the macro `remote_syscall2` of `util.h`. -/
def remote_syscall2 (K : Kernel) (WAIT : Int) (t : task) (state : current_state_buffer)
    (syscallno : Int) (a1 a2 : Nat) : Except String (task × current_state_buffer × Nat) :=
  remote_syscall6 K WAIT t state syscallno a1 a2 0 0 0 0

/-- Modelled from the spec: the macro `remote_syscall1` of `util.h`. -/
def remote_syscall1 (K : Kernel) (WAIT : Int) (t : task) (state : current_state_buffer)
    (syscallno : Int) (a1 : Nat) : Except String (task × current_state_buffer × Nat) :=
  remote_syscall6 K WAIT t state syscallno a1 0 0 0 0 0

/-- Source: `init_syscall_buffer`, the host's shared-memory file and listening
socket (util.cc:1607-1625). -/
def init_host_side (H : HostCalls) : Except String Unit :=
  if 0 > H.open_shmem then .error "Failed to open shmem file"
  else if H.ftruncate ≠ 0 then .error "Failed to resize syscall buffer shmem"
  else if H.bind ≠ 0 then .error "Failed to bind listen socket"
  else if H.listen ≠ 0 then .error "Failed to mark listening for listen socket"
  else .ok ()

/-- Source: `init_syscall_buffer`, the tracee's socket and its `connect`
(util.cc:1627-1650); the result carries `child_sock`. -/
def connect_child_socket (C : UtilParams) (K : Kernel) (t : task)
    (state : current_state_buffer) (args : rrcall_init_buffers_params) :
    Except String (task × current_state_buffer × Nat) :=
  match remote_syscall2 K C.WAIT
      (write_socketcall_args t args.args_vec AF_UNIX SOCK_STREAM 0) state
      SYS_socketcall SYS_SOCKET args.args_vec with
  | .error e => .error e
  | .ok (t1, state1, child_sock) =>
    if 0 > to_i32 child_sock then .error "Failed to create child socket"
    else
      match remote_syscall K C.WAIT
          (write_socketcall_args t1 args.args_vec child_sock args.sockaddr
            C.sizeof_sockaddr_un)
          state1 C.DONT_WAIT SYS_socketcall SYS_CONNECT args.args_vec 0 0 0 0 with
      | .error e => .error e
      | .ok (t2, state2, _) =>
        match wait_remote_syscall K t2 SYS_socketcall with
        | .error e => .error e
        | .ok (t3, child_ret) =>
          if child_ret ≠ 0 then .error "Failed to connect() in tracee"
          else .ok (t3, state2, child_sock)

/-- Source: `init_syscall_buffer`, the desched event fd (util.cc:1654-1678). -/
def share_desched_event_fd (C : UtilParams) (K : Kernel) (H : HostCalls) (t : task)
    (state : current_state_buffer) (args : rrcall_init_buffers_params)
    (child_sock : Nat) (share_desched_fd : Int) :
    Except String (task × current_state_buffer) :=
  if C.SHARE_DESCHED_EVENT_FD = share_desched_fd then
    match remote_syscall K C.WAIT
        (write_socketcall_args t args.args_vec child_sock args.msg 0)
        state C.DONT_WAIT SYS_socketcall SYS_SENDMSG args.args_vec 0 0 0 0 with
    | .error e => .error e
    | .ok (t1, state1, _) =>
      match recv_fd H with
      | .error e => .error e
      | .ok (fd, remote_fdno) =>
        match wait_remote_syscall K
            { t1 with desched_fd := fd, desched_fd_child := remote_fdno }
            SYS_socketcall with
        | .error e => .error e
        | .ok (t2, ret) =>
          if 0 ≥ to_i32 ret then .error "Failed to sendmsg() in tracee"
          else .ok (t2, state1)
  else .ok ({ t with desched_fd_child := REPLAY_DESCHED_EVENT_FD }, state)

/-- Source: `init_syscall_buffer`, sharing the shmem fd with the tracee and
clearing the buffers used (util.cc:1680-1706); the result carries
`child_shmem_fd`. -/
def share_shmem_fd (C : UtilParams) (K : Kernel) (H : HostCalls) (t : task)
    (state : current_state_buffer) (args : rrcall_init_buffers_params)
    (child_sock : Nat) : Except String (task × current_state_buffer × Nat) :=
  match send_fd H with
  | .error e => .error e
  | .ok _ =>
    match remote_syscall2 K C.WAIT
        (write_socketcall_args t args.args_vec child_sock args.msg 0) state
        SYS_socketcall SYS_RECVMSG args.args_vec with
    | .error e => .error e
    | .ok (t1, state1, child_ret) =>
      if 0 ≥ to_i32 child_ret then .error "Failed to recvmsg() shared fd in tracee"
      else
        match remote_syscall1 K C.WAIT
            (write_child_data (write_socketcall_args t1 args.args_vec 0 0 0) 4 args.fdptr
              (le_bytes 0))
            state1 SYS_close child_sock with
        | .error e => .error e
        | .ok (t2, state2, _) =>
          .ok (t2, state2, le_value (read_child_data t1 4 args.fdptr))

/-- Source: `init_syscall_buffer`, mapping the segment in both address spaces
(util.cc:1708-1731); the host's `memset` of the mapped header is outside the
tracee and left out. -/
def map_syscallbuf (C : UtilParams) (K : Kernel) (H : HostCalls) (t : task)
    (state : current_state_buffer) (args : rrcall_init_buffers_params)
    (map_hint : Nat) (child_shmem_fd : Nat) :
    Except String (task × current_state_buffer × rrcall_init_buffers_params × Nat) :=
  if H.mmap = 2 ^ 32 - 1 then .error "Failed to mmap shmem region"
  else
    match remote_syscall6 K C.WAIT
        { t with num_syscallbuf_bytes := C.SYSCALLBUF_BUFFER_SIZE } state SYS_mmap2
        map_hint C.SYSCALLBUF_BUFFER_SIZE (PROT_READ ||| PROT_WRITE) MAP_SHARED
        child_shmem_fd 0 with
    | .error e => .error e
    | .ok (t1, state1, child_map_addr) =>
      match remote_syscall1 K C.WAIT
          { t1 with syscallbuf_child := child_map_addr, syscallbuf_hdr := H.mmap }
          state1 SYS_close child_shmem_fd with
      | .error e => .error e
      | .ok (t2, state2, _) =>
        .ok (t2, state2,
             { args with num_syscallbuf_bytes := C.SYSCALLBUF_BUFFER_SIZE,
                         syscallbuf_ptr := child_map_addr },
             child_map_addr)

/-- Source: `init_syscall_buffer` (util.cc:1586-1732): the task, the session
state, the parameter block `*args` and the tracee address of the buffer. -/
def init_syscall_buffer (C : UtilParams) (K : Kernel) (H : HostCalls) (t : task)
    (state : current_state_buffer) (args : rrcall_init_buffers_params)
    (map_hint : Nat) (share_desched_fd : Int) :
    Except String (task × current_state_buffer × rrcall_init_buffers_params × Nat) :=
  match init_host_side H with
  | .error e => .error e
  | .ok _ =>
    match connect_child_socket C K
        { t with untraced_syscall_ip := args.untraced_syscall_ip } state args with
    | .error e => .error e
    | .ok (t1, state1, child_sock) =>
      match share_desched_event_fd C K H t1 state1 args child_sock share_desched_fd with
      | .error e => .error e
      | .ok (t2, state2) =>
        match share_shmem_fd C K H t2 state2 args child_sock with
        | .error e => .error e
        | .ok (t3, state3, child_shmem_fd) =>
          map_syscallbuf C K H t3 state3 args map_hint child_shmem_fd

/-- Whether a register file written to the tracee asks for a `sendmsg`: the
`socketcall` number in `eax` and `SYS_SENDMSG` in `ebx`. -/
def is_sendmsg_call (regs : user_regs_struct) : Bool :=
  regs.eax = to_u32 SYS_socketcall && regs.ebx = SYS_SENDMSG

/-- The task `t1` comes from `t` by steps that keep `desched_fd_child` and
write to the tracee register files of which none asks for a `sendmsg`. -/
def quiet_steps (t t1 : task) : Prop :=
  t1.desched_fd_child = t.desched_fd_child ∧
  ∃ l, t1.reg_writes = t.reg_writes ++ l ∧ ∀ r ∈ l, is_sendmsg_call r = false

/-- Parameters for examples: `WAIT` 1, `DONT_WAIT` 0, sharing asked for by 1,
a buffer of one page. -/
def sample_params : UtilParams :=
  { WAIT := 1, DONT_WAIT := 0, SHARE_DESCHED_EVENT_FD := 1,
    SYSCALLBUF_BUFFER_SIZE := 4096, sizeof_sockaddr_un := 110 }

/-- A host on which every call succeeds. -/
def sample_host : HostCalls :=
  { open_shmem := 7, ftruncate := 0, bind := 0, listen := 0, sendmsg := 4, recvmsg := 4,
    cmsg_is_rights := true, received_fd := 9, received_remote_fd := 12,
    mmap := 0x70000000 }

/-- The parameter block of an example tracee. -/
def sample_args : rrcall_init_buffers_params :=
  { untraced_syscall_ip := 0x1100, args_vec := 0x3000, sockaddr := 0x3010, msg := 0x3080,
    fdptr := 0x30a0, num_syscallbuf_bytes := 0, syscallbuf_ptr := 0 }

/-- Whether a call returned normally. -/
def returned {α : Type} (r : Except String α) : Bool :=
  match r with
  | .ok _ => true
  | .error _ => false

/-! ### The comparator's mask in closed form -/

/-- The locals hold `k` mismatches so far: `errbit = k` and bits 1..k of
`err` are set. -/
def CmpInv (s : CmpState) (k : Nat) : Prop :=
  s.errbit = k ∧ s.err = 2 ^ (k + 1) - 2

theorem differs_le_one (a b : Nat) : differs a b ≤ 1 := by
  unfold differs; split <;> omega

theorem differs_eq_zero_iff (a b : Nat) : differs a b = 0 ↔ a = b := by
  unfold differs; split <;> simp_all

theorem or_next_bit (k : Nat) (hk : k ≤ 8) :
    (2 ^ (k + 1) - 2) ||| (1 <<< (k + 1)) = 2 ^ (k + 1 + 1) - 2 := by
  interval_cases k <;> decide

theorem REGCMP_inv (K : MismatchLevels) (m : Int) (n1 n2 nm : String)
    (v1 v2 : Nat) (s : CmpState) (k : Nat) (h : CmpInv s k) (hk : k ≤ 8) :
    CmpInv (REGCMP K m n1 n2 nm v1 v2 s) (k + differs v1 v2) := by
  obtain ⟨h1, h2⟩ := h
  unfold REGCMP differs
  by_cases hv : v1 = v2
  · simp [hv, CmpInv, h1, h2]
  · simp only [ne_eq, hv, not_false_eq_true, if_true, CmpInv, h1, h2]
    exact ⟨trivial, or_next_bit k hk⟩

theorem compare_flags_inv (K : MismatchLevels) (m : Int) (n1 n2 : String)
    (r1 r2 : user_regs_struct) (s : CmpState) (k : Nat) (h : CmpInv s k) (hk : k ≤ 8) :
    CmpInv (compare_flags K n1 r1 n2 r2 m s)
      (k + differs (r1.eflags &&& det_mask) (r2.eflags &&& det_mask)) := by
  obtain ⟨h1, h2⟩ := h
  unfold compare_flags differs
  by_cases hv : r1.eflags &&& det_mask = r2.eflags &&& det_mask
  · simp [hv, CmpInv, h1, h2]
  · simp only [ne_eq, hv, not_false_eq_true, if_true, CmpInv, h1, h2]
    exact ⟨trivial, or_next_bit k hk⟩

theorem compare_gp_inv (K : MismatchLevels) (n1 n2 : String)
    (r1 r2 : user_regs_struct) (m : Int) :
    CmpInv (compare_gp K n1 r1 n2 r2 m) (gp_mismatches r1 r2) := by
  have d1 := differs_le_one r1.eax r2.eax
  have d2 := differs_le_one r1.ebx r2.ebx
  have d3 := differs_le_one r1.ecx r2.ecx
  have d4 := differs_le_one r1.edx r2.edx
  have d5 := differs_le_one r1.esi r2.esi
  have d6 := differs_le_one r1.edi r2.edi
  have d7 := differs_le_one r1.ebp r2.ebp
  have h0 : CmpInv { errbit := 0, err := 0, log := [] } 0 := ⟨rfl, rfl⟩
  have h1 := REGCMP_inv K m n1 n2 "eax" r1.eax r2.eax _ _ h0 (by omega)
  have h2 := REGCMP_inv K m n1 n2 "ebx" r1.ebx r2.ebx _ _ h1 (by omega)
  have h3 := REGCMP_inv K m n1 n2 "ecx" r1.ecx r2.ecx _ _ h2 (by omega)
  have h4 := REGCMP_inv K m n1 n2 "edx" r1.edx r2.edx _ _ h3 (by omega)
  have h5 := REGCMP_inv K m n1 n2 "esi" r1.esi r2.esi _ _ h4 (by omega)
  have h6 := REGCMP_inv K m n1 n2 "edi" r1.edi r2.edi _ _ h5 (by omega)
  have h7 := REGCMP_inv K m n1 n2 "ebp" r1.ebp r2.ebp _ _ h6 (by omega)
  have h8 := REGCMP_inv K m n1 n2 "eip" r1.eip r2.eip _ _ h7 (by omega)
  simpa [compare_gp, gp_mismatches] using h8

theorem gp_mismatches_le (r1 r2 : user_regs_struct) : gp_mismatches r1 r2 ≤ 8 := by
  have d1 := differs_le_one r1.eax r2.eax
  have d2 := differs_le_one r1.ebx r2.ebx
  have d3 := differs_le_one r1.ecx r2.ecx
  have d4 := differs_le_one r1.edx r2.edx
  have d5 := differs_le_one r1.esi r2.esi
  have d6 := differs_le_one r1.edi r2.edi
  have d7 := differs_le_one r1.ebp r2.ebp
  have d8 := differs_le_one r1.eip r2.eip
  unfold gp_mismatches; omega

theorem mismatch_count_le (r1 r2 : user_regs_struct) : mismatch_count r1 r2 ≤ 9 := by
  have := gp_mismatches_le r1 r2
  have := differs_le_one (r1.eflags &&& det_mask) (r2.eflags &&& det_mask)
  unfold mismatch_count; omega

theorem compare_state (K : MismatchLevels) (n1 n2 : String)
    (r1 r2 : user_regs_struct) (m : Int) :
    CmpInv (compare_flags K n1 r1 n2 r2 m (compare_gp K n1 r1 n2 r2 m))
      (mismatch_count r1 r2) :=
  compare_flags_inv K m n1 n2 r1 r2 _ _ (compare_gp_inv K n1 n2 r1 r2 m)
    (gp_mismatches_le r1 r2)

theorem mask_eq_zero_iff (k : Nat) : 2 ^ (k + 1) - 2 = 0 ↔ k = 0 := by
  constructor
  · intro h
    by_contra hk
    have : 2 ^ 2 ≤ 2 ^ (k + 1) := Nat.pow_le_pow_right (by norm_num) (by omega)
    omega
  · rintro rfl; rfl

/-- The returned value of the comparator in closed form: with `k` mismatching
compared fields the mask has bits 1..k set, and the call aborts when the
strictness is fatal and `k` is not 0. -/
theorem compare_ret (K : MismatchLevels) (n1 n2 : String)
    (r1 r2 : user_regs_struct) (m : Int) :
    (compare_register_files K n1 r1 n2 r2 m).ret =
      if m ≥ K.BAIL_ON_MISMATCH ∧ mismatch_count r1 r2 ≠ 0 then
        .error "Fatal register mismatch"
      else .ok (2 ^ (mismatch_count r1 r2 + 1) - 2) := by
  obtain ⟨_, h2⟩ := compare_state K n1 n2 r1 r2 m
  have hz := mask_eq_zero_iff (mismatch_count r1 r2)
  unfold compare_register_files
  simp only [h2, assert_exec]
  by_cases hb : m ≥ K.BAIL_ON_MISMATCH <;> by_cases hk : mismatch_count r1 r2 = 0
  · simp [hb, hk]; split <;> rfl
  · have hne : ¬ (2 ^ (mismatch_count r1 r2 + 1) - 2 = 0) := fun h => hk (hz.mp h)
    simp [hb, hk, hne]
  · simp [hb, hk]; split <;> rfl
  · have hne : ¬ (2 ^ (mismatch_count r1 r2 + 1) - 2 = 0) := fun h => hk (hz.mp h)
    simp [hb, hk, hne]

theorem popcount_mask (k : Nat) (hk : k ≤ 9) : popcount (2 ^ (k + 1) - 2) = k := by
  interval_cases k <;> decide

theorem gp_mismatches_set (f : GPField) (r : user_regs_struct) (v : Nat)
    (hv : v ≠ f.get r) : gp_mismatches r (f.set r v) = 1 := by
  have hv2 : ¬ (f.get r = v) := fun h => hv h.symm
  cases f <;> simp_all [gp_mismatches, differs, GPField.set, GPField.get]

theorem flags_same_set (f : GPField) (r : user_regs_struct) (v : Nat) :
    (f.set r v).eflags = r.eflags := by
  cases f <;> rfl

theorem gp_mismatches_eq_zero_iff (r1 r2 : user_regs_struct) :
    gp_mismatches r1 r2 = 0 ↔ ∀ f : GPField, f.get r1 = f.get r2 := by
  constructor
  · intro h f
    have d1 := differs_eq_zero_iff r1.eax r2.eax
    have d2 := differs_eq_zero_iff r1.ebx r2.ebx
    have d3 := differs_eq_zero_iff r1.ecx r2.ecx
    have d4 := differs_eq_zero_iff r1.edx r2.edx
    have d5 := differs_eq_zero_iff r1.esi r2.esi
    have d6 := differs_eq_zero_iff r1.edi r2.edi
    have d7 := differs_eq_zero_iff r1.ebp r2.ebp
    have d8 := differs_eq_zero_iff r1.eip r2.eip
    unfold gp_mismatches at h
    cases f
    · exact d1.mp (by omega)
    · exact d2.mp (by omega)
    · exact d3.mp (by omega)
    · exact d4.mp (by omega)
    · exact d5.mp (by omega)
    · exact d6.mp (by omega)
    · exact d7.mp (by omega)
    · exact d8.mp (by omega)
  · intro h
    have e1 := h .eax
    have e2 := h .ebx
    have e3 := h .ecx
    have e4 := h .edx
    have e5 := h .esi
    have e6 := h .edi
    have e7 := h .ebp
    have e8 := h .eip
    simp only [GPField.get] at e1 e2 e3 e4 e5 e6 e7 e8
    simp [gp_mismatches, differs, e1, e2, e3, e4, e5, e6, e7, e8]

theorem det_mask_testBit (i : Nat) :
    det_mask.testBit i = decide (i < 32 ∧ i ≠ 1 ∧ i ≠ 16 ∧ i ≠ 21) := by
  by_cases hi : i < 32
  · interval_cases i <;> decide
  · have h1 : det_mask < 2 ^ i :=
      lt_of_lt_of_le (by decide : det_mask < 2 ^ 32) (Nat.pow_le_pow_right (by norm_num) (by omega))
    rw [Nat.testBit_lt_two_pow h1]
    simp [hi]

theorem land_det_mask_eq_iff (a b : Nat) :
    a &&& det_mask = b &&& det_mask ↔
      ∀ i, i < 32 → i ≠ 1 → i ≠ 16 → i ≠ 21 → a.testBit i = b.testBit i := by
  constructor
  · intro h i h32 h1 h16 h21
    have := congrArg (fun x => x.testBit i) h
    simpa [Nat.testBit_and, det_mask_testBit, h32, h1, h16, h21] using this
  · intro h
    apply Nat.eq_of_testBit_eq
    intro i
    rw [Nat.testBit_and, Nat.testBit_and, det_mask_testBit]
    by_cases hc : i < 32 ∧ i ≠ 1 ∧ i ≠ 16 ∧ i ≠ 21
    · rw [h i hc.1 hc.2.1 hc.2.2.1 hc.2.2.2]
    · simp [hc]

theorem flip_masked_bit (a i : Nat) (hi : i = 1 ∨ i = 16 ∨ i = 21) :
    (a ^^^ 2 ^ i) &&& det_mask = a &&& det_mask := by
  rw [land_det_mask_eq_iff]
  intro j _ h1 h16 h21
  rw [Nat.testBit_xor, Nat.testBit_two_pow]
  have : ¬ (i = j) := by omega
  simp [this]

theorem flip_unmasked_bit (a b i : Nat) (h : a &&& det_mask = b &&& det_mask)
    (h32 : i < 32) (h1 : i ≠ 1) (h16 : i ≠ 16) (h21 : i ≠ 21) :
    a &&& det_mask ≠ (b ^^^ 2 ^ i) &&& det_mask := by
  intro hc
  have h2 := (land_det_mask_eq_iff _ _).mp (h.symm.trans hc) i h32 h1 h16 h21
  rw [Nat.testBit_xor, Nat.testBit_two_pow] at h2
  simp at h2

theorem mismatch_count_of_gp_eq (r1 r2 : user_regs_struct)
    (hgp : ∀ f : GPField, f.get r1 = f.get r2) :
    mismatch_count r1 r2 = differs (r1.eflags &&& det_mask) (r2.eflags &&& det_mask) := by
  unfold mismatch_count
  rw [(gp_mismatches_eq_zero_iff r1 r2).mpr hgp]
  omega

theorem mismatch_count_ne_zero_iff (r1 r2 : user_regs_struct) :
    mismatch_count r1 r2 ≠ 0 ↔
      ((∃ f : GPField, f.get r1 ≠ f.get r2) ∨
        r1.eflags &&& det_mask ≠ r2.eflags &&& det_mask) := by
  have hg := gp_mismatches_eq_zero_iff r1 r2
  have hf := differs_eq_zero_iff (r1.eflags &&& det_mask) (r2.eflags &&& det_mask)
  unfold mismatch_count
  constructor
  · intro h
    by_cases h1 : gp_mismatches r1 r2 = 0
    · right
      intro he
      exact h (by rw [h1, hf.mpr he])
    · left
      by_contra hne
      push_neg at hne
      exact h1 (hg.mpr hne)
  · rintro (⟨f, hf1⟩ | h2) h
    · exact hf1 (hg.mp (by omega) f)
    · exact h2 (hf.mp (by omega))

/-! ### Claims about the comparator -/

/-- C1 (as the code behaves): a pair of snapshots that differ in exactly one
general-purpose compared field and nowhere else gets the mask 2, bit 1 alone,
whichever of the eight fields it is, because `++errbit` sits inside the body
of the mismatch test of `REGCMP`; so the bit does not identify the field and
two different fields give the same mask. -/
theorem single_field_mismatch_mask (K : MismatchLevels) (n1 n2 : String)
    (f : GPField) (r : user_regs_struct) (v : Nat) (m : Int)
    (hv : v ≠ f.get r) (hm : m < K.BAIL_ON_MISMATCH) :
    (compare_register_files K n1 r n2 (f.set r v) m).ret = .ok 2 := by
  have hc : mismatch_count r (f.set r v) = 1 := by
    unfold mismatch_count
    rw [gp_mismatches_set f r v hv, flags_same_set]
    simp [differs]
  rw [compare_ret, hc]
  have : ¬ (m ≥ K.BAIL_ON_MISMATCH) := by omega
  simp [this]

/-- Witness for C1: changing only `eax` and changing only `ebx` both return
the mask 2. -/
theorem single_field_mismatch_mask_witness :
    (compare_register_files ⟨1, 2⟩ "rec" zero_regs "rep"
        (GPField.eax.set zero_regs 7) 0).ret = .ok 2 ∧
    (compare_register_files ⟨1, 2⟩ "rec" zero_regs "rep"
        (GPField.ebx.set zero_regs 7) 0).ret = .ok 2 :=
  ⟨single_field_mismatch_mask ⟨1, 2⟩ "rec" "rep" .eax zero_regs 7 0 (by decide) (by decide),
   single_field_mismatch_mask ⟨1, 2⟩ "rec" "rep" .ebx zero_regs 7 0 (by decide) (by decide)⟩

/-- C2: comparing a snapshot with itself returns the mask 0 and does not
abort, at every strictness. -/
theorem compare_identical_returns_zero (K : MismatchLevels) (n1 n2 : String)
    (r : user_regs_struct) (m : Int) :
    (compare_register_files K n1 r n2 r m).ret = .ok 0 := by
  have hc : mismatch_count r r = 0 := by
    simp [mismatch_count, gp_mismatches, differs]
  rw [compare_ret, hc]
  simp

/-- C3: at a non-fatal strictness the call returns a mask whose number of set
bits is the number of mismatching compared fields (eight registers and the
masked flags as one field). -/
theorem popcount_mask_eq_mismatch_count (K : MismatchLevels) (n1 n2 : String)
    (r1 r2 : user_regs_struct) (m : Int) (hm : m < K.BAIL_ON_MISMATCH) :
    ∃ e, (compare_register_files K n1 r1 n2 r2 m).ret = .ok e ∧
      popcount e = mismatch_count r1 r2 := by
  refine ⟨2 ^ (mismatch_count r1 r2 + 1) - 2, ?_, popcount_mask _ (mismatch_count_le r1 r2)⟩
  rw [compare_ret]
  have : ¬ (m ≥ K.BAIL_ON_MISMATCH) := by omega
  simp [this]

/-- Witness for C3: three registers and an unmasked flag bit differ, the mask
has four bits set. -/
theorem popcount_mask_eq_mismatch_count_witness :
    ∃ e, (compare_register_files ⟨1, 2⟩ "rec" zero_regs "rep"
        { zero_regs with ebx := 1, esi := 2, eip := 3, eflags := 4 } 0).ret = .ok e ∧
      popcount e = mismatch_count zero_regs
        { zero_regs with ebx := 1, esi := 2, eip := 3, eflags := 4 } :=
  popcount_mask_eq_mismatch_count ⟨1, 2⟩ "rec" "rep" zero_regs
    { zero_regs with ebx := 1, esi := 2, eip := 3, eflags := 4 } 0 (by decide)

/-- C4 fails as stated: two snapshots that differ in the stack pointer `esp`
only compare equal, the mask is 0. -/
theorem esp_difference_not_detected :
    zero_regs.esp ≠ ({ zero_regs with esp := 4096 } : user_regs_struct).esp ∧
    (compare_register_files ⟨1, 2⟩ "rec" zero_regs "rep"
        { zero_regs with esp := 4096 } 0).ret = .ok 0 := by
  decide

/-- C4 (amended): snapshots that differ in one of eax, ebx, ecx, edx, esi,
edi, ebp, eip never get the mask 0: a non-fatal call returns a nonzero mask
and a fatal call aborts; the stack pointer is not compared, changing `esp`
alone gives the mask 0. -/
theorem gp_difference_detected (K : MismatchLevels) (n1 n2 : String)
    (r1 r2 : user_regs_struct) (m : Int)
    (hd : ∃ f : GPField, f.get r1 ≠ f.get r2) :
    (m < K.BAIL_ON_MISMATCH →
      ∃ e, (compare_register_files K n1 r1 n2 r2 m).ret = .ok e ∧ e ≠ 0) ∧
    (K.BAIL_ON_MISMATCH ≤ m →
      (compare_register_files K n1 r1 n2 r2 m).ret = .error "Fatal register mismatch") ∧
    (∀ v, (compare_register_files K n1 r1 n2 { r1 with esp := v } m).ret = .ok 0) := by
  have hg : gp_mismatches r1 r2 ≠ 0 := by
    intro h
    obtain ⟨f, hf⟩ := hd
    exact hf ((gp_mismatches_eq_zero_iff r1 r2).mp h f)
  have hc : mismatch_count r1 r2 ≠ 0 := by unfold mismatch_count; omega
  refine ⟨fun hm => ?_, fun hm => ?_, fun v => ?_⟩
  · refine ⟨2 ^ (mismatch_count r1 r2 + 1) - 2, ?_, fun h => hc ((mask_eq_zero_iff _).mp h)⟩
    rw [compare_ret]
    have : ¬ (m ≥ K.BAIL_ON_MISMATCH) := by omega
    simp [this]
  · rw [compare_ret]
    simp [hm, hc]
  · have h0 : mismatch_count r1 { r1 with esp := v } = 0 := by
      simp [mismatch_count, gp_mismatches, differs]
    rw [compare_ret, h0]
    simp

/-- Witness for C4 (amended): `edx` differs. -/
theorem gp_difference_detected_witness :
    (∃ f : GPField, f.get zero_regs ≠ f.get { zero_regs with edx := 1 }) ∧
    ((0 : Int) < 2 →
      ∃ e, (compare_register_files ⟨1, 2⟩ "rec" zero_regs "rep"
        { zero_regs with edx := 1 } 0).ret = .ok e ∧ e ≠ 0) :=
  ⟨⟨.edx, by decide⟩,
   (gp_difference_detected ⟨1, 2⟩ "rec" "rep" zero_regs { zero_regs with edx := 1 } 0
      ⟨.edx, by decide⟩).1⟩

/-- C5: when the eight general-purpose compared fields are equal, the call
returns 0 exactly when the two flags words agree on every bit of the 32 other
than bits 1, 16 and 21; flipping bit 1, 16 or 21 of one flags word never
changes the outcome, and flipping any other bit of flags that compared equal
sets the flags-mismatch bit (mask 2, or the abort at fatal strictness). -/
theorem flags_compared_modulo_three_bits (K : MismatchLevels) (n1 n2 : String)
    (r1 r2 : user_regs_struct) (m : Int)
    (hgp : ∀ f : GPField, f.get r1 = f.get r2) :
    ((compare_register_files K n1 r1 n2 r2 m).ret = .ok 0 ↔
      ∀ i, i < 32 → i ≠ 1 → i ≠ 16 → i ≠ 21 →
        r1.eflags.testBit i = r2.eflags.testBit i) ∧
    (∀ i, i = 1 ∨ i = 16 ∨ i = 21 →
      (compare_register_files K n1 r1 n2
        { r2 with eflags := r2.eflags ^^^ 2 ^ i } m).ret =
      (compare_register_files K n1 r1 n2 r2 m).ret) ∧
    (∀ i, i < 32 → i ≠ 1 → i ≠ 16 → i ≠ 21 →
      (compare_register_files K n1 r1 n2 r2 m).ret = .ok 0 →
      (compare_register_files K n1 r1 n2
        { r2 with eflags := r2.eflags ^^^ 2 ^ i } m).ret =
      if m ≥ K.BAIL_ON_MISMATCH then .error "Fatal register mismatch" else .ok 2) := by
  have hc := mismatch_count_of_gp_eq r1 r2 hgp
  have hz : (compare_register_files K n1 r1 n2 r2 m).ret = .ok 0 ↔
      r1.eflags &&& det_mask = r2.eflags &&& det_mask := by
    rw [compare_ret, hc]
    unfold differs
    by_cases he : r1.eflags &&& det_mask = r2.eflags &&& det_mask
    · simp [he]
    · by_cases hb : m ≥ K.BAIL_ON_MISMATCH <;> simp [he, hb]
  refine ⟨?_, ?_, ?_⟩
  · rw [hz, land_det_mask_eq_iff]
  · intro i hi
    have hgp2 : ∀ f : GPField,
        f.get r1 = f.get { r2 with eflags := r2.eflags ^^^ 2 ^ i } := by
      intro f
      rw [hgp f]
      cases f <;> rfl
    rw [compare_ret, compare_ret, hc, mismatch_count_of_gp_eq _ _ hgp2]
    simp only [flip_masked_bit _ i hi]
  · intro i h32 h1 h16 h21 h0
    have hgp2 : ∀ f : GPField,
        f.get r1 = f.get { r2 with eflags := r2.eflags ^^^ 2 ^ i } := by
      intro f
      rw [hgp f]
      cases f <;> rfl
    have hne := flip_unmasked_bit _ _ i (hz.mp h0) h32 h1 h16 h21
    rw [compare_ret, mismatch_count_of_gp_eq _ _ hgp2]
    simp only [differs]
    by_cases hb : m ≥ K.BAIL_ON_MISMATCH <;> simp [hne, hb]

/-- Witness for C5: flags 0x202 against 0x10000 with equal registers; they
differ in bits 1, 9 and 16. -/
theorem flags_compared_modulo_three_bits_witness :
    (∀ f : GPField, f.get { zero_regs with eflags := 0x202 } =
      f.get { zero_regs with eflags := 0x10000 }) ∧
    ((compare_register_files ⟨1, 2⟩ "rec" { zero_regs with eflags := 0x202 } "rep"
        { zero_regs with eflags := 0x10000 } 0).ret = .ok 0 ↔
      ∀ i, i < 32 → i ≠ 1 → i ≠ 16 → i ≠ 21 →
        ({ zero_regs with eflags := 0x202 } : user_regs_struct).eflags.testBit i =
        ({ zero_regs with eflags := 0x10000 } : user_regs_struct).eflags.testBit i) :=
  ⟨fun f => by cases f <;> rfl,
   (flags_compared_modulo_three_bits ⟨1, 2⟩ "rec" "rep"
      { zero_regs with eflags := 0x202 } { zero_regs with eflags := 0x10000 } 0
      (fun f => by cases f <;> rfl)).1⟩

/-- C6: there is one mask `e` for a pair of snapshots, nonzero exactly when a
compared field mismatches; every non-fatal call (silent or log-only) returns
`e` and never aborts; a fatal call aborts exactly when a compared field
mismatches, and otherwise returns the same `e` (which is then 0). -/
theorem fatal_aborts_iff_mismatch (K : MismatchLevels) (n1 n2 : String)
    (r1 r2 : user_regs_struct) :
    ∃ e : Nat,
      (e ≠ 0 ↔ ((∃ f : GPField, f.get r1 ≠ f.get r2) ∨
        r1.eflags &&& det_mask ≠ r2.eflags &&& det_mask)) ∧
      (∀ m, m < K.BAIL_ON_MISMATCH →
        (compare_register_files K n1 r1 n2 r2 m).ret = .ok e) ∧
      (∀ m, K.BAIL_ON_MISMATCH ≤ m →
        ((∃ msg, (compare_register_files K n1 r1 n2 r2 m).ret = .error msg) ↔
          ((∃ f : GPField, f.get r1 ≠ f.get r2) ∨
            r1.eflags &&& det_mask ≠ r2.eflags &&& det_mask)) ∧
        ((compare_register_files K n1 r1 n2 r2 m).ret = .ok e ∨
          (compare_register_files K n1 r1 n2 r2 m).ret =
            .error "Fatal register mismatch")) := by
  have hiff := mismatch_count_ne_zero_iff r1 r2
  refine ⟨2 ^ (mismatch_count r1 r2 + 1) - 2, ?_, ?_, ?_⟩
  · rw [← hiff, ne_eq, mask_eq_zero_iff]
  · intro m hm
    rw [compare_ret]
    have : ¬ (m ≥ K.BAIL_ON_MISMATCH) := by omega
    simp [this]
  · intro m hm
    rw [← hiff, compare_ret]
    by_cases hk : mismatch_count r1 r2 = 0
    · simp [hk]
    · simp [hk, hm]

/-! ### The checksum loop in closed form -/

theorem read_word_eq_getElem (bytes : List Nat) (i : Nat) :
    read_word (some bytes) i = (le_words bytes)[i]? := by
  induction i generalizing bytes with
  | zero =>
    match bytes with
    | [] => rfl
    | [_] => rfl
    | [_, _] => rfl
    | [_, _, _] => rfl
    | b0 :: b1 :: b2 :: b3 :: rest => simp [read_word, le_words]
  | succ i ih =>
    have h : 4 * (i + 1) = 4 * i + 1 + 1 + 1 + 1 := by ring
    match bytes with
    | [] => simp [read_word, le_words]
    | [_] => simp [read_word, le_words, h]
    | [_, _] => simp [read_word, le_words, h]
    | [_, _, _] => simp [read_word, le_words, h]
    | b0 :: b1 :: b2 :: b3 :: rest =>
      have := ih rest
      simp only [read_word] at this
      simp only [read_word, le_words, h, List.drop_succ_cons, List.getElem?_cons_succ]
      exact this

theorem le_words_length (bytes : List Nat) : (le_words bytes).length = bytes.length / 4 := by
  match bytes with
  | [] => rfl
  | [_] => simp [le_words]
  | [_, _] => simp [le_words]
  | [_, _, _] => simp [le_words]
  | b0 :: b1 :: b2 :: b3 :: rest =>
    have := le_words_length rest
    simp only [le_words, List.length_cons, this]
    omega

theorem checksum_loop_words (bytes : List Nat) (n i c : Nat)
    (h : i + n ≤ (le_words bytes).length) (hc : c < 2 ^ 32) :
    checksum_loop (some bytes) n i c =
      .ok ((c + (((le_words bytes).drop i).take n).sum) % 2 ^ 32) := by
  induction n generalizing i c with
  | zero =>
    have hc2 : c % 2 ^ 32 = c := Nat.mod_eq_of_lt hc
    simp only [checksum_loop, List.take_zero, List.sum_nil, Nat.add_zero, hc2]
  | succ n ih =>
    have hi : i < (le_words bytes).length := by omega
    rw [checksum_loop, read_word_eq_getElem, List.getElem?_eq_getElem hi]
    simp only
    rw [ih (i + 1) _ (by omega) (Nat.mod_lt _ (by norm_num))]
    rw [List.drop_eq_getElem_cons hi]
    simp only [List.take_succ_cons, List.sum_cons]
    congr 1
    rw [Nat.add_mod, Nat.mod_mod, ← Nat.add_mod]
    ring_nf

theorem to_u32_of_nonneg (x : Int) (h0 : 0 ≤ x) (h1 : x < 2 ^ 32) : to_u32 x = x.toNat := by
  unfold to_u32
  rw [Int.emod_eq_of_lt h0 h1]

theorem to_u32_to_i32 (n : Nat) (h : n < 2 ^ 32) : to_u32 (to_i32 (n : Int)) = n := by
  unfold to_u32 to_i32
  have h2 : ((n : Int) + 2 ^ 31) % 2 ^ 32 - 2 ^ 31 = (n : Int) ∨
      ((n : Int) + 2 ^ 31) % 2 ^ 32 - 2 ^ 31 = (n : Int) - 2 ^ 32 := by omega
  rcases h2 with h2 | h2 <;> rw [h2] <;> omega

theorem valid_mem_len_plain (L : SyscallbufLayout) (t : Tracee) (data : map_iterator_data)
    (hname : strstr data.info.name SYSCALLBUF_SHMEM_FILENAME_PREFIX ≠ some 0) :
    checksum_valid_mem_len L t data = data.mem_len := by
  unfold checksum_valid_mem_len
  simp [hname]

theorem valid_mem_len_syscallbuf (L : SyscallbufLayout) (t : Tracee) (data : map_iterator_data)
    (hname : strstr data.info.name SYSCALLBUF_SHMEM_FILENAME_PREFIX = some 0) :
    checksum_word_count L t data =
      (L.sizeof_hdr + L.num_rec_bytes (t.read_child_data L.sizeof_hdr data.info.start_addr)
        + L.sizeof_record) % 2 ^ 32 / 4 := by
  unfold checksum_word_count checksum_valid_mem_len
  simp only [hname, if_true]
  rw [to_u32_to_i32 _ (Nat.mod_lt _ (by norm_num))]

theorem segment_checksum_plain (L : SyscallbufLayout) (t : Tracee) (data : map_iterator_data)
    (hname : strstr data.info.name SYSCALLBUF_SHMEM_FILENAME_PREFIX ≠ some 0)
    (bytes : List Nat) (hmem : data.mem = some bytes) (h0 : 0 ≤ data.mem_len)
    (hlen : data.mem_len ≤ bytes.length) (h31 : data.mem_len < 2 ^ 31) :
    segment_checksum L t data = .ok (additive_checksum bytes (data.mem_len.toNat / 4)) := by
  unfold segment_checksum checksum_word_count
  rw [valid_mem_len_plain L t data hname, to_u32_of_nonneg _ h0 (by omega), hmem]
  have hw := le_words_length bytes
  rw [checksum_loop_words bytes _ 0 0 (by omega) (by norm_num)]
  simp [additive_checksum]

theorem le_words_take (m : List Nat) (V : Nat) :
    le_words (m.take V) = (le_words m).take (V / 4) := by
  induction V using Nat.strong_induction_on generalizing m with
  | _ V ih =>
    by_cases hV : V < 4
    · have h0 : V / 4 = 0 := by omega
      rw [h0, List.take_zero]
      have hl : (le_words (m.take V)).length = 0 := by
        rw [le_words_length, List.length_take]
        omega
      exact List.length_eq_zero.mp hl
    · obtain ⟨W, rfl⟩ : ∃ W, V = W + 4 := ⟨V - 4, by omega⟩
      have hd : (W + 4) / 4 = W / 4 + 1 := by omega
      match m with
      | [] => simp [le_words]
      | [_] => simp [le_words]
      | [_, _] => simp [le_words]
      | [_, _, _] => simp [le_words]
      | b0 :: b1 :: b2 :: b3 :: rest =>
        rw [hd]
        simp only [List.take_succ_cons, le_words, List.cons.injEq, true_and]
        exact ih W (by omega) rest

theorem checksum_loop_congr (mem1 mem2 : Option (List Nat)) (n i c : Nat)
    (h : ∀ k, k < n → read_word mem1 (i + k) = read_word mem2 (i + k)) :
    checksum_loop mem1 n i c = checksum_loop mem2 n i c := by
  induction n generalizing i c with
  | zero => rfl
  | succ n ih =>
    have h0 := h 0 (by omega)
    rw [Nat.add_zero] at h0
    rw [checksum_loop, checksum_loop, h0]
    cases read_word mem2 i with
    | none => rfl
    | some w =>
      simp only
      apply ih
      intro k hk
      have := h (k + 1) (by omega)
      rw [show i + (k + 1) = i + 1 + k by ring] at this
      exact this

/-- Changing one byte inside the first `n` words changes exactly one word of
the sum. -/
theorem word_sum_change (n : Nat) (bytes : List Nat) (j b b1 : Nat)
    (hj : j < 4 * n) (hlen : 4 * (j / 4) + 4 ≤ bytes.length)
    (hbytes : ∀ x ∈ bytes, x < 256) (hb1 : b1 < 256)
    (hget : bytes[j]? = some b) (hne : b ≠ b1) :
    ∃ R w w1, ((le_words bytes).take n).sum = R + w ∧
      ((le_words (bytes.set j b1)).take n).sum = R + w1 ∧
      w ≠ w1 ∧ w < 2 ^ 32 ∧ w1 < 2 ^ 32 := by
  induction n generalizing bytes j with
  | zero => omega
  | succ n ih =>
    match bytes, hlen, hbytes, hget with
    | [], hlen, _, _ => simp at hlen
    | [_], hlen, _, _ => simp at hlen
    | [_, _], hlen, _, _ => simp at hlen
    | [_, _, _], hlen, _, _ => simp at hlen
    | a0 :: a1 :: a2 :: a3 :: rest, hlen, hbytes, hget =>
      have ha0 : a0 < 256 := hbytes a0 (by simp)
      have ha1 : a1 < 256 := hbytes a1 (by simp)
      have ha2 : a2 < 256 := hbytes a2 (by simp)
      have ha3 : a3 < 256 := hbytes a3 (by simp)
      by_cases hj4 : j < 4
      · refine ⟨((le_words rest).take n).sum,
          a0 + 256 * a1 + 65536 * a2 + 16777216 * a3, ?_⟩
        interval_cases j
        · simp only [List.getElem?_cons_zero, Option.some.injEq] at hget
          subst hget
          exact ⟨b1 + 256 * a1 + 65536 * a2 + 16777216 * a3,
            by simp [le_words]; ring, by simp [le_words]; ring,
            by omega, by omega, by omega⟩
        · simp only [List.getElem?_cons_succ, List.getElem?_cons_zero, Option.some.injEq] at hget
          subst hget
          exact ⟨a0 + 256 * b1 + 65536 * a2 + 16777216 * a3,
            by simp [le_words]; ring, by simp [le_words]; ring,
            by omega, by omega, by omega⟩
        · simp only [List.getElem?_cons_succ, List.getElem?_cons_zero, Option.some.injEq] at hget
          subst hget
          exact ⟨a0 + 256 * a1 + 65536 * b1 + 16777216 * a3,
            by simp [le_words]; ring, by simp [le_words]; ring,
            by omega, by omega, by omega⟩
        · simp only [List.getElem?_cons_succ, List.getElem?_cons_zero, Option.some.injEq] at hget
          subst hget
          exact ⟨a0 + 256 * a1 + 65536 * a2 + 16777216 * b1,
            by simp [le_words]; ring, by simp [le_words]; ring,
            by omega, by omega, by omega⟩
      · obtain ⟨i, rfl⟩ : ∃ i, j = i + 4 := ⟨j - 4, by omega⟩
        have hget2 : rest[i]? = some b := by
          simpa [List.getElem?_cons_succ] using hget
        have hlen2 : 4 * (i / 4) + 4 ≤ rest.length := by
          simp only [List.length_cons] at hlen
          omega
        obtain ⟨R, w, w1, h1, h2, h3, h4, h5⟩ :=
          ih rest i (by omega) hlen2 (fun x hx => hbytes x (by simp [hx])) hget2
        refine ⟨(a0 + 256 * a1 + 65536 * a2 + 16777216 * a3) + R, w, w1, ?_, ?_, h3, h4, h5⟩
        · simp only [le_words, List.take_succ_cons, List.sum_cons, h1]
          ring
        · simp only [List.set_cons_succ, le_words, List.take_succ_cons, List.sum_cons, h2]
          ring

theorem additive_checksum_change (n : Nat) (bytes : List Nat) (j b b1 : Nat)
    (hj : j < 4 * n) (hlen : 4 * (j / 4) + 4 ≤ bytes.length)
    (hbytes : ∀ x ∈ bytes, x < 256) (hb1 : b1 < 256)
    (hget : bytes[j]? = some b) (hne : b ≠ b1) :
    additive_checksum (bytes.set j b1) n ≠ additive_checksum bytes n := by
  obtain ⟨R, w, w1, h1, h2, h3, h4, h5⟩ :=
    word_sum_change n bytes j b b1 hj hlen hbytes hb1 hget hne
  unfold additive_checksum
  rw [h1, h2]
  intro h
  apply h3
  have e1 : (R + w1) % 2 ^ 32 = ((R % 2 ^ 32) + w1) % 2 ^ 32 := by
    rw [Nat.add_mod, Nat.mod_eq_of_lt h5]
  have e2 : (R + w) % 2 ^ 32 = ((R % 2 ^ 32) + w) % 2 ^ 32 := by
    rw [Nat.add_mod, Nat.mod_eq_of_lt h4]
  rw [e1, e2] at h
  have hr : R % 2 ^ 32 < 2 ^ 32 := Nat.mod_lt _ (by norm_num)
  omega

/-- The test `name == strstr(name, prefix)` of `checksum_iterator` holds
exactly when the name starts with the prefix. -/
theorem strstr_eq_zero_iff (hay needle : List Char) :
    strstr hay needle = some 0 ↔ needle.isPrefixOf hay = true := by
  cases hay with
  | nil =>
    cases needle with
    | nil => simp [strstr]
    | cons n ns => simp [strstr]
  | cons c cs =>
    by_cases h : needle.isPrefixOf (c :: cs) = true
    · simp [strstr, h]
    · simp only [strstr, h, Bool.false_eq_true, if_false, iff_false]
      cases strstr cs needle <;> simp

/-! ### Claims about the segment checksum -/

/-- C7 (as the code behaves): for a maps file whose first line is longer than
the 1024-byte line buffer of the validation, storing writes the two record
lines and validating the unchanged address space aborts at the second
segment: the second `fgets` returns the tail of the first record line, which
does not parse. -/
theorem long_line_breaks_round_trip :
    iterate_checksums sample_layout root_fs [] zero_tracee long_path_maps
        .STORE_CHECKSUMS [] = .ok long_path_checksums ∧
    iterate_checksums sample_layout root_fs [] zero_tracee long_path_maps
        .VALIDATE_CHECKSUMS long_path_checksums = .error "Only parsed %d items" := by
  constructor
  · decide!
  · decide!

/-- C8: for a tracked segment (read in full, a whole number of words, not a
scratch base, not the syscall buffer) changing any one byte changes the
additive checksum; so validating the changed segment against the record that
holds the stored checksum and the live range reports the divergence, and
validating the unchanged segment against the same record reports nothing and
continues. -/
theorem byte_change_detected (L : SyscallbufLayout) (t : Tracee)
    (scratch_table : List Nat) (data : map_iterator_data) (bytes : List Nat)
    (j b1 old : Nat) (c : checksum_iterator_data) (line rest : List Char)
    (hname : strstr data.info.name SYSCALLBUF_SHMEM_FILENAME_PREFIX ≠ some 0)
    (hscratch : is_start_of_scratch_region scratch_table data.info.start_addr = false)
    (hmem : data.mem = some bytes) (hlen : data.mem_len = bytes.length)
    (h4 : bytes.length % 4 = 0) (h31 : bytes.length < 2 ^ 31)
    (hbytes : ∀ x ∈ bytes, x < 256) (hj : j < bytes.length)
    (hb1 : b1 < 256) (hne : bytes[j]? ≠ some b1)
    (hold : segment_checksum L t data = .ok old)
    (hmode : c.mode = .VALIDATE_CHECKSUMS)
    (hfile : fgets 1024 c.checksums_file = some (line, rest))
    (hline : sscanf line checksum_line_format =
      (3, [.num old, .num data.info.start_addr, .num data.info.end_addr])) :
    (∃ new, segment_checksum L t { data with mem := some (bytes.set j b1) } = .ok new ∧
      new ≠ old) ∧
    checksum_iterator L scratch_table t c { data with mem := some (bytes.set j b1) } =
      .error "Divergence in contents of memory segment" ∧
    checksum_iterator L scratch_table t c data =
      .ok ({ c with checksums_file := rest }, CONTINUE_ITERATING) := by
  have hml0 : (0 : Int) ≤ data.mem_len := by rw [hlen]; omega
  have hml1 : data.mem_len < 2 ^ 31 := by rw [hlen]; exact_mod_cast h31
  have hn : data.mem_len.toNat = bytes.length := by rw [hlen]; simp
  have e1 := segment_checksum_plain L t data hname bytes hmem hml0 (by rw [hlen]) hml1
  have e2 := segment_checksum_plain L t { data with mem := some (bytes.set j b1) } hname
    (bytes.set j b1) rfl hml0 (by simp [hlen]) hml1
  simp only [hn] at e1 e2
  have hold2 : old = additive_checksum bytes (bytes.length / 4) := by
    rw [e1] at hold
    exact (Except.ok.inj hold).symm
  obtain ⟨b, hb⟩ : ∃ b, bytes[j]? = some b := ⟨bytes[j], List.getElem?_eq_getElem hj⟩
  have hbne : b ≠ b1 := fun h => hne (by rw [hb, h])
  have hchg := additive_checksum_change (bytes.length / 4) bytes j b b1 (by omega) (by omega)
    hbytes hb1 hb hbne
  rw [← hold2] at hchg
  refine ⟨⟨_, e2, hchg⟩, ?_, ?_⟩
  · unfold checksum_iterator
    rw [e2]
    simp only [hmode, hfile, validate_checksum_line, hline, assert_exec, hscratch,
      notify_checksum_error]
    simp [hchg]
  · unfold checksum_iterator
    rw [hold]
    simp only [hmode, hfile, validate_checksum_line, hline, assert_exec, hscratch,
      notify_checksum_error]
    simp

/-- Witness for C8: the bytes 1..8 with byte 5 changed from 6 to 9, validated
against the record line written for the unchanged bytes. -/
theorem byte_change_detected_witness :
    (∃ new, segment_checksum sample_layout zero_tracee
        { sample_data with mem := some (([1, 2, 3, 4, 5, 6, 7, 8] : List Nat).set 5 9) } =
          .ok new ∧ new ≠ 0xc0a0806) ∧
    checksum_iterator sample_layout [] zero_tracee
        { mode := .VALIDATE_CHECKSUMS,
          checksums_file := checksum_record_line 0xc0a0806 sample_raw_line }
        { sample_data with mem := some (([1, 2, 3, 4, 5, 6, 7, 8] : List Nat).set 5 9) } =
      .error "Divergence in contents of memory segment" ∧
    checksum_iterator sample_layout [] zero_tracee
        { mode := .VALIDATE_CHECKSUMS,
          checksums_file := checksum_record_line 0xc0a0806 sample_raw_line }
        sample_data =
      .ok ({ mode := .VALIDATE_CHECKSUMS, checksums_file := [] }, CONTINUE_ITERATING) :=
  byte_change_detected sample_layout zero_tracee [] sample_data [1, 2, 3, 4, 5, 6, 7, 8]
    5 9 0xc0a0806
    { mode := .VALIDATE_CHECKSUMS,
      checksums_file := checksum_record_line 0xc0a0806 sample_raw_line }
    (checksum_record_line 0xc0a0806 sample_raw_line) []
    (by decide) (by decide) rfl rfl (by decide) (by decide) (by decide) (by decide)
    (by decide) (by decide) (by decide) rfl (by decide) (by decide)

/-- C9: for a segment that is not the syscall buffer the checksum is the sum
modulo 2^32 of the first `mem_len / 4` 32-bit words of the bytes read, and a
segment with `mem_len = 0` (nothing read) has checksum 0. -/
theorem checksum_is_additive_word_sum (L : SyscallbufLayout) (t : Tracee)
    (data : map_iterator_data)
    (hname : strstr data.info.name SYSCALLBUF_SHMEM_FILENAME_PREFIX ≠ some 0) :
    (∀ bytes, data.mem = some bytes → 0 ≤ data.mem_len →
      data.mem_len ≤ bytes.length → data.mem_len < 2 ^ 31 →
      segment_checksum L t data =
        .ok (((le_words bytes).take (data.mem_len.toNat / 4)).sum % 2 ^ 32)) ∧
    (data.mem_len = 0 → segment_checksum L t data = .ok 0) := by
  refine ⟨fun bytes hmem h0 hlen h31 => ?_, fun h0 => ?_⟩
  · exact segment_checksum_plain L t data hname bytes hmem h0 hlen h31
  · unfold segment_checksum checksum_word_count
    rw [valid_mem_len_plain L t data hname, h0]
    rfl

/-- Witness for C9: the bytes 1..8 sum to 0x04030201 + 0x08070605. -/
theorem checksum_is_additive_word_sum_witness :
    segment_checksum sample_layout zero_tracee sample_data = .ok 0xc0a0806 ∧
    segment_checksum sample_layout zero_tracee
      { sample_data with mem := none, mem_len := 0 } = .ok 0 :=
  ⟨(checksum_is_additive_word_sum sample_layout zero_tracee sample_data (by decide)).1
      [1, 2, 3, 4, 5, 6, 7, 8] rfl (by decide) (by decide) (by decide),
   (checksum_is_additive_word_sum sample_layout zero_tracee
      { sample_data with mem := none, mem_len := 0 } (by decide)).2 rfl⟩

/-- C10: for a segment whose name starts with the syscall-buffer prefix the
loop sums `(sizeof(hdr) + num_rec_bytes + sizeof(record)) / 4` words: two
buffers that agree on the first `sizeof(hdr) + num_rec_bytes + sizeof(record)`
bytes get the same checksum whatever follows, and when those bytes are inside
the buffer the checksum is the additive checksum of that many bytes. -/
theorem syscallbuf_checksum_ignores_tail (L : SyscallbufLayout) (t : Tracee)
    (d1 d2 : map_iterator_data) (m1 m2 : List Nat)
    (hname : strstr d1.info.name SYSCALLBUF_SHMEM_FILENAME_PREFIX = some 0)
    (hinfo : d2.info = d1.info) (hm1 : d1.mem = some m1) (hm2 : d2.mem = some m2)
    (hpre : m1.take (L.sizeof_hdr +
        L.num_rec_bytes (t.read_child_data L.sizeof_hdr d1.info.start_addr) +
        L.sizeof_record) =
      m2.take (L.sizeof_hdr +
        L.num_rec_bytes (t.read_child_data L.sizeof_hdr d1.info.start_addr) +
        L.sizeof_record)) :
    segment_checksum L t d1 = segment_checksum L t d2 ∧
    (L.sizeof_hdr + L.num_rec_bytes (t.read_child_data L.sizeof_hdr d1.info.start_addr) +
        L.sizeof_record ≤ m1.length →
      L.sizeof_hdr + L.num_rec_bytes (t.read_child_data L.sizeof_hdr d1.info.start_addr) +
        L.sizeof_record < 2 ^ 32 →
      segment_checksum L t d1 =
        .ok (additive_checksum m1
          ((L.sizeof_hdr +
            L.num_rec_bytes (t.read_child_data L.sizeof_hdr d1.info.start_addr) +
            L.sizeof_record) / 4))) := by
  have hname2 : strstr d2.info.name SYSCALLBUF_SHMEM_FILENAME_PREFIX = some 0 := by
    rw [hinfo]; exact hname
  have hc1 := valid_mem_len_syscallbuf L t d1 hname
  have hc2 := valid_mem_len_syscallbuf L t d2 hname2
  rw [hinfo] at hc2
  generalize hV : L.sizeof_hdr +
    L.num_rec_bytes (t.read_child_data L.sizeof_hdr d1.info.start_addr) +
    L.sizeof_record = V at hpre hc1 hc2 ⊢
  have hw : (le_words m1).take (V / 4) = (le_words m2).take (V / 4) := by
    rw [← le_words_take, ← le_words_take, hpre]
  refine ⟨?_, fun hle h32 => ?_⟩
  · unfold segment_checksum
    rw [hc1, hc2, hm1, hm2]
    apply checksum_loop_congr
    intro k hk
    have hk2 : k < V / 4 := by
      have : V % 2 ^ 32 ≤ V := Nat.mod_le _ _
      have : V % 2 ^ 32 / 4 ≤ V / 4 := Nat.div_le_div_right this
      omega
    rw [Nat.zero_add, read_word_eq_getElem, read_word_eq_getElem]
    have e1 : ((le_words m1).take (V / 4))[k]? = (le_words m1)[k]? :=
      List.getElem?_take_of_lt hk2
    have e2 : ((le_words m2).take (V / 4))[k]? = (le_words m2)[k]? :=
      List.getElem?_take_of_lt hk2
    rw [← e1, ← e2, hw]
  · unfold segment_checksum
    rw [hc1, hm1, Nat.mod_eq_of_lt h32]
    have hl := le_words_length m1
    have : V / 4 ≤ m1.length / 4 := Nat.div_le_div_right hle
    rw [checksum_loop_words m1 _ 0 0 (by omega) (by norm_num)]
    simp [additive_checksum]

/-- Witness for C10: two 24-byte buffers with the same first 16 bytes and
different tails. -/
theorem syscallbuf_checksum_ignores_tail_witness :
    segment_checksum sample_layout syscallbuf_tracee
        (sample_syscallbuf_data [9, 9, 9, 9, 9, 9, 9, 9]) =
      segment_checksum sample_layout syscallbuf_tracee
        (sample_syscallbuf_data [0, 0, 0, 0, 5, 5, 5, 5]) :=
  (syscallbuf_checksum_ignores_tail sample_layout syscallbuf_tracee
    (sample_syscallbuf_data [9, 9, 9, 9, 9, 9, 9, 9])
    (sample_syscallbuf_data [0, 0, 0, 0, 5, 5, 5, 5])
    ([4, 0, 0, 0, 1, 1, 1, 1, 2, 2, 2, 2, 3, 3, 3, 3] ++ [9, 9, 9, 9, 9, 9, 9, 9])
    ([4, 0, 0, 0, 1, 1, 1, 1, 2, 2, 2, 2, 3, 3, 3, 3] ++ [0, 0, 0, 0, 5, 5, 5, 5])
    (by decide) rfl rfl rfl (by decide)).1

/-! ### Printing and reading back a checksum -/

theorem hex_val_hex_char (d : Nat) (h : d < 16) : hex_val (hex_char d) = some d := by
  interval_cases d <;> rfl

theorem isspace_hex_char (d : Nat) : isspace (hex_char d) = false := by
  by_cases h : d < 16
  · interval_cases d <;> rfl
  · have : hex_char d = 'f' := by
      unfold hex_char
      split <;> first | omega | rfl
    rw [this]; rfl

theorem hex_char_ne_newline (d : Nat) : hex_char d ≠ '\n' := by
  by_cases h : d < 16
  · interval_cases d <;> decide
  · have : hex_char d = 'f' := by
      unfold hex_char
      split <;> first | omega | rfl
    rw [this]; decide

/-- The digits `fmt_x_aux` puts in front of `acc`: at least one, `fuel` at
most, each a digit, and reading them back gives `n`. -/
theorem fmt_x_aux_spec (fuel : Nat) (n : Nat) (acc : List Char)
    (hf : 0 < fuel) (hn : n < 16 ^ fuel) :
    ∃ D, fmt_x_aux fuel n acc = D ++ acc ∧ D ≠ [] ∧ D.length ≤ fuel ∧
      (∀ ch ∈ D, ∃ d, d < 16 ∧ ch = hex_char d) ∧
      (∀ a tail, scan_num 16 hex_val (D ++ tail) a =
        scan_num 16 hex_val tail (a * 16 ^ D.length + n)) := by
  induction fuel generalizing n acc with
  | zero => omega
  | succ fuel ih =>
    have hmod : n % 16 < 16 := Nat.mod_lt _ (by norm_num)
    by_cases h0 : n / 16 = 0
    · have hn16 : n % 16 = n := by omega
      refine ⟨[hex_char (n % 16)], by simp [fmt_x_aux, h0], by simp, by simp,
        ?_, ?_⟩
      · intro ch hch
        simp only [List.mem_singleton] at hch
        exact ⟨n % 16, hmod, hch⟩
      · intro a tail
        have hv := hex_val_hex_char _ hmod
        rw [hn16] at hv
        simp [scan_num, hv, hn16]
    · have hfuel : 0 < fuel := by
        rcases Nat.eq_zero_or_pos fuel with h | h
        · subst h
          simp at hn
          omega
        · exact h
      have hdiv : n / 16 < 16 ^ fuel := by
        rw [Nat.div_lt_iff_lt_mul (by norm_num)]
        rw [pow_succ] at hn
        exact hn
      obtain ⟨D, hD, hne, hlen, hdig, hscan⟩ :=
        ih (n / 16) (hex_char (n % 16) :: acc) hfuel hdiv
      refine ⟨D ++ [hex_char (n % 16)], ?_, by simp, by simp; omega, ?_, ?_⟩
      · simp [fmt_x_aux, h0, hD]
      · intro ch hch
        rcases List.mem_append.mp hch with h | h
        · exact hdig ch h
        · simp only [List.mem_singleton] at h
          exact ⟨n % 16, hmod, h⟩
      · intro a tail
        rw [List.append_assoc, hscan]
        have hv := hex_val_hex_char _ hmod
        simp only [List.singleton_append, scan_num, hv,
          List.length_append, List.length_singleton]
        congr 1
        rw [pow_succ]
        have := Nat.div_add_mod n 16
        nlinarith [Nat.div_add_mod n 16]

/-- What `fmt_x` prints: one to eight digits that read back as the value
modulo 2^32. -/
theorem fmt_x_spec (c : Nat) :
    ∃ x xs, fmt_x c = x :: xs ∧ (x :: xs).length ≤ 8 ∧
      (∀ ch ∈ x :: xs, ∃ d, d < 16 ∧ ch = hex_char d) ∧
      (∀ tail, scan_num 16 hex_val (x :: xs ++ tail) 0 =
        scan_num 16 hex_val tail (c % 2 ^ 32)) := by
  have hlt : c % 2 ^ 32 < 16 ^ 8 := by
    have : (16 : Nat) ^ 8 = 2 ^ 32 := by norm_num
    rw [this]
    exact Nat.mod_lt _ (by norm_num)
  obtain ⟨D, hD, hne, hlen, hdig, hscan⟩ := fmt_x_aux_spec 8 (c % 2 ^ 32) [] (by norm_num) hlt
  rw [List.append_nil] at hD
  match D, hne with
  | x :: xs, _ =>
    refine ⟨x, xs, hD, hlen, hdig, fun tail => ?_⟩
    have := hscan 0 tail
    simpa using this

/-! ### The `scanf` engine -/

theorem scan_input_failure_snd (acc : List ScanVal) : (scan_input_failure acc).2 = acc := by
  unfold scan_input_failure
  split <;> rfl

theorem scan_step_val (d : ScanDir) (inp rest : List Char) (v : Option ScanVal)
    (h : scan_step d inp = .ok rest v) : v.isSome = d.is_conv := by
  cases d with
  | space =>
    simp only [scan_step, ScanStep.ok.injEq] at h
    rw [← h.2]; rfl
  | lit c =>
    simp only [scan_step] at h
    split at h
    · cases h
    · split at h
      · simp only [ScanStep.ok.injEq] at h
        rw [← h.2]; rfl
      · cases h
  | hex bits =>
    simp only [scan_step] at h
    split at h
    · cases h
    · split at h
      · cases h
      · simp only [ScanStep.ok.injEq] at h
        rw [← h.2]; rfl
  | dec bits =>
    simp only [scan_step] at h
    split at h
    · cases h
    · split at h
      · cases h
      · simp only [ScanStep.ok.injEq] at h
        rw [← h.2]; rfl
  | str width =>
    simp only [scan_step] at h
    split at h
    · cases h
    · split at h
      · simp only [ScanStep.ok.injEq] at h
        rw [← h.2]; rfl
      · simp only [ScanStep.ok.injEq] at h
        rw [← h.2]; rfl

/-- The values assigned extend the ones assigned before. -/
theorem sscanf_aux_extends (ds : List ScanDir) (inp : List Char) (acc : List ScanVal) :
    ∃ more, (sscanf_aux ds inp acc).2 = acc ++ more := by
  induction ds generalizing inp acc with
  | nil => exact ⟨[], by simp [sscanf_aux]⟩
  | cons d ds ih =>
    unfold sscanf_aux
    split
    · exact ih _ _
    · next rest v _ =>
      obtain ⟨more, hm⟩ := ih rest (acc ++ [v])
      exact ⟨v :: more, by rw [hm]; simp⟩
    · exact ⟨[], by simp⟩
    · exact ⟨[], by simp [scan_input_failure_snd]⟩

/-- When a prefix of the format is satisfied, `sscanf` goes on with the rest
of the format. -/
theorem sscanf_aux_append (ds1 ds2 : List ScanDir) (inp rest : List Char)
    (acc vals : List ScanVal) (h : scan_all ds1 inp = some (vals, rest)) :
    sscanf_aux (ds1 ++ ds2) inp acc = sscanf_aux ds2 rest (acc ++ vals) := by
  induction ds1 generalizing inp acc vals with
  | nil =>
    simp only [scan_all, Option.some.injEq, Prod.mk.injEq] at h
    rw [← h.1, ← h.2]
    simp
  | cons d ds1 ih =>
    unfold scan_all at h
    split at h
    · next r v hstep =>
      split at h
      · next vals1 r1 hall =>
        simp only [Option.some.injEq, Prod.mk.injEq] at h
        obtain ⟨h1, h2⟩ := h
        subst h2
        have h := And.intro h1 (rfl : r1 = r1)
        rw [List.cons_append, sscanf_aux, hstep]
        cases v with
        | none =>
          simp only
          rw [ih r acc vals1 hall, ← h.1, ← h.2]
          simp
        | some w =>
          simp only
          rw [ih r (acc ++ [w]) vals1 hall, ← h.1, ← h.2]
          simp
      · cases h
    · cases h

theorem scan_all_length (ds : List ScanDir) (inp rest : List Char) (vals : List ScanVal)
    (h : scan_all ds inp = some (vals, rest)) : vals.length = conv_count ds := by
  induction ds generalizing inp vals with
  | nil =>
    simp only [scan_all, Option.some.injEq, Prod.mk.injEq] at h
    rw [← h.1]; rfl
  | cons d ds ih =>
    unfold scan_all at h
    split at h
    · next r v hstep =>
      split at h
      · next vals1 r1 hall =>
        simp only [Option.some.injEq, Prod.mk.injEq] at h
        obtain ⟨h1, h2⟩ := h
        subst h2
        have h := And.intro h1 (rfl : r1 = r1)
        have hv := scan_step_val d inp r v hstep
        have hl := ih r vals1 hall
        rw [← h.1, conv_count, List.length_append, hl]
        cases v <;> simp_all
      · cases h
    · cases h

/-- When `sscanf` assigned as many values as a prefix of the format converts,
that prefix was satisfied. -/
theorem scan_all_of_sscanf_aux (ds1 ds2 : List ScanDir) (inp : List Char)
    (acc : List ScanVal) (hend : ends_in_conv ds1 = true)
    (hlen : acc.length + conv_count ds1 ≤ (sscanf_aux (ds1 ++ ds2) inp acc).2.length) :
    ∃ vals rest, scan_all ds1 inp = some (vals, rest) := by
  induction ds1 generalizing inp acc with
  | nil => exact ⟨[], inp, rfl⟩
  | cons d ds1 ih =>
    simp only [ends_in_conv, Bool.and_eq_true, decide_eq_true_eq] at hend
    rw [List.cons_append, sscanf_aux] at hlen
    cases hstep : scan_step d inp with
    | ok r v =>
      have hv := scan_step_val d inp r v hstep
      rw [hstep] at hlen
      cases v with
      | none =>
        simp only at hlen
        have hc : conv_count (d :: ds1) = conv_count ds1 := by
          simp only [conv_count]
          simp only [Option.isSome_none] at hv
          simp [← hv]
        obtain ⟨vals, rest, h⟩ := ih r acc hend.2 (by omega)
        exact ⟨vals, rest, by simp [scan_all, hstep, h]⟩
      | some w =>
        simp only at hlen
        have hc : conv_count (d :: ds1) = 1 + conv_count ds1 := by
          simp only [conv_count]
          simp only [Option.isSome_some] at hv
          simp [← hv]
        obtain ⟨vals, rest, h⟩ := ih r (acc ++ [w]) hend.2 (by simp; omega)
        exact ⟨w :: vals, rest, by simp [scan_all, hstep, h]⟩
    | matching_failure =>
      rw [hstep] at hlen
      simp only at hlen
      omega
    | input_failure =>
      rw [hstep] at hlen
      simp only [scan_input_failure_snd] at hlen
      omega

theorem skip_space_idem (inp : List Char) : skip_space (skip_space inp) = skip_space inp := by
  induction inp with
  | nil => rfl
  | cons c cs ih =>
    by_cases h : isspace c = true
    · simp [skip_space, h, ih]
    · simp [skip_space, h]

theorem scan_step_hex_skip (bits : Nat) (inp : List Char) :
    scan_step (.hex bits) (skip_space inp) = scan_step (.hex bits) inp := by
  simp only [scan_step, skip_space_idem]

theorem scan_all_range_skip (inp : List Char) :
    scan_all range_format (skip_space inp) = scan_all range_format inp := by
  simp only [range_format, scan_all, scan_step_hex_skip]

/-! ### Reading back a record line -/

theorem range_of_sscanf_maps (raw : List Char) (s e : Nat) (more : List ScanVal)
    (h : (sscanf raw maps_line_format).2 = .num s :: .num e :: more) :
    ∃ rest, scan_all range_format raw = some ([.num s, .num e], rest) := by
  have hsplit : maps_line_format = range_format ++ maps_tail_format := rfl
  unfold sscanf at h
  rw [hsplit] at h
  obtain ⟨vals, rest, hall⟩ := scan_all_of_sscanf_aux range_format maps_tail_format raw []
    (by decide) (by rw [h]; simp [conv_count, range_format, ScanDir.is_conv])
  have hl := scan_all_length _ _ _ _ hall
  rw [sscanf_aux_append _ _ _ _ _ _ hall] at h
  obtain ⟨more1, hm⟩ := sscanf_aux_extends maps_tail_format rest ([] ++ vals)
  rw [hm] at h
  match vals, hl with
  | [a, b], _ =>
    simp only [List.nil_append, List.cons_append, List.cons.injEq] at h
    exact ⟨rest, by rw [hall, h.1, h.2.1]⟩

theorem range_of_parse_map_line (raw : List Char) (data : map_iterator_data)
    (h : parse_map_line raw = .ok data) :
    data.raw_map_line = raw ∧
    ∃ rest, scan_all range_format raw =
      some ([.num data.info.start_addr, .num data.info.end_addr], rest) := by
  unfold parse_map_line at h
  split at h
  · next s e fl off maj mi ino nm heq =>
    have hr := range_of_sscanf_maps raw s e _ (by rw [heq])
    cases h
    exact ⟨rfl, hr⟩
  · next s e fl off maj mi ino heq =>
    have hr := range_of_sscanf_maps raw s e _ (by rw [heq])
    cases h
    exact ⟨rfl, hr⟩
  · cases h

theorem sscanf_record_line (c s e : Nat) (raw rest : List Char)
    (h : scan_all range_format raw = some ([.num s, .num e], rest)) :
    sscanf (checksum_record_line c raw) checksum_line_format =
      (3, [.num (c % 2 ^ 32), .num s, .num e]) := by
  obtain ⟨x, xs, hx, _, hdig, hscan⟩ := fmt_x_spec c
  obtain ⟨d, hd, hxd⟩ := hdig x (by simp)
  have hsp : isspace x = false := by rw [hxd]; exact isspace_hex_char d
  have hv : hex_val x = some d := by rw [hxd]; exact hex_val_hex_char d hd
  have hsc := hscan (')' :: ' ' :: raw)
  have hstop : scan_num 16 hex_val (')' :: ' ' :: raw) (c % 2 ^ 32) =
      (c % 2 ^ 32, ')' :: ' ' :: raw) := by
    rw [scan_num]
    rfl
  rw [hstop] at hsc
  have hmin : min (c % 2 ^ 32) (2 ^ 32 - 1) = c % 2 ^ 32 := by
    have : c % 2 ^ 32 < 2 ^ 32 := Nat.mod_lt _ (by norm_num)
    omega
  have hhead : scan_all [.lit '(', .hex 32, .lit ')', .space]
      (checksum_record_line c raw) = some ([.num (c % 2 ^ 32)], skip_space raw) := by
    have hline : checksum_record_line c raw = '(' :: (x :: xs ++ ')' :: ' ' :: raw) := by
      simp [checksum_record_line, hx]
    have hsk : skip_space (x :: xs ++ ')' :: ' ' :: raw) = x :: xs ++ ')' :: ' ' :: raw := by
      simp [skip_space, hsp]
    have hsk2 : skip_space (' ' :: raw) = skip_space raw := by
      have : isspace ' ' = true := rfl
      simp [skip_space, this]
    rw [hline]
    simp only [scan_all, scan_step, if_true, hsk]
    simp only [List.cons_append] at hsc ⊢
    simp only [hv, hsc, hmin, if_true, hsk2, Option.toList, List.nil_append,
      List.singleton_append]
  have hfmt : checksum_line_format = [.lit '(', .hex 32, .lit ')', .space] ++
      (range_format ++ []) := rfl
  unfold sscanf
  rw [hfmt, sscanf_aux_append _ _ _ _ _ _ hhead]
  rw [← scan_all_range_skip] at h
  rw [sscanf_aux_append _ _ _ _ _ _ h]
  simp [sscanf_aux]

theorem fgets_aux_line (k : Nat) (pre rest : List Char)
    (hnl : ∀ ch ∈ pre, ch ≠ '\n') (hlen : pre.length < k) :
    fgets_aux k (pre ++ '\n' :: rest) = (pre ++ ['\n'], rest) := by
  induction pre generalizing k with
  | nil =>
    obtain ⟨k, rfl⟩ : ∃ j, k = j + 1 := ⟨k - 1, by simp at hlen; omega⟩
    simp [fgets_aux]
  | cons c pre ih =>
    obtain ⟨k, rfl⟩ : ∃ j, k = j + 1 := ⟨k - 1, by simp at hlen; omega⟩
    have hc : c ≠ '\n' := hnl c (by simp)
    have := ih k (fun ch h => hnl ch (by simp [h])) (by simp at hlen; omega)
    simp [fgets_aux, hc, this]

theorem fgets_aux_no_inner_newline (k : Nat) (s : List Char) :
    ∀ ch ∈ (fgets_aux k s).1.dropLast, ch ≠ '\n' := by
  induction k generalizing s with
  | zero => simp [fgets_aux]
  | succ k ih =>
    cases s with
    | nil => simp [fgets_aux]
    | cons c s =>
      by_cases hc : c = '\n'
      · simp [fgets_aux, hc]
      · simp only [fgets_aux, hc, if_false]
        intro ch hch
        cases hl : (fgets_aux k s).1 with
        | nil =>
          rw [hl] at hch
          simp at hch
        | cons y ys =>
          rw [hl] at hch
          simp only [List.cons, List.dropLast_cons₂, List.mem_cons] at hch
          rcases hch with h | h
          · rw [h]; exact hc
          · have := ih s ch
            rw [hl] at this
            exact this h

theorem checksum_loop_lt (mem : Option (List Nat)) (n i c r : Nat)
    (hc : c < 2 ^ 32) (h : checksum_loop mem n i c = .ok r) : r < 2 ^ 32 := by
  induction n generalizing i c with
  | zero =>
    simp only [checksum_loop, Except.ok.injEq] at h
    omega
  | succ n ih =>
    rw [checksum_loop] at h
    split at h
    · cases h
    · exact ih _ _ (Nat.mod_lt _ (by norm_num)) h

theorem segment_checksum_lt (L : SyscallbufLayout) (t : Tracee) (data : map_iterator_data)
    (r : Nat) (h : segment_checksum L t data = .ok r) : r < 2 ^ 32 :=
  checksum_loop_lt _ _ _ _ _ (by norm_num) h

/-! ### Storing, then validating an unchanged address space -/

theorem fmt_x_length_no_newline (c : Nat) :
    (fmt_x c).length ≤ 8 ∧ ∀ ch ∈ fmt_x c, ch ≠ '\n' := by
  obtain ⟨x, xs, hx, hlen, hdig, _⟩ := fmt_x_spec c
  rw [hx]
  refine ⟨hlen, fun ch hch => ?_⟩
  obtain ⟨d, _, hd⟩ := hdig ch hch
  rw [hd]
  exact hex_char_ne_newline d

/-- A record line that fits the 1024-byte buffer is read back whole. -/
theorem fgets_record_line (c : Nat) (raw rest : List Char)
    (hlen : raw.length ≤ 1012) (hlast : raw.getLast? = some '\n')
    (hinner : ∀ ch ∈ raw.dropLast, ch ≠ '\n') :
    fgets 1024 (checksum_record_line c raw ++ rest) =
      some (checksum_record_line c raw, rest) := by
  obtain ⟨hfl, hfn⟩ := fmt_x_length_no_newline c
  have hraw : raw = raw.dropLast ++ ['\n'] := by
    have := List.dropLast_append_getLast? '\n' (by rw [hlast]; simp)
    exact this.symm
  have hdl : raw.dropLast.length + 1 = raw.length := by
    conv_rhs => rw [hraw]
    simp
  have hrec : checksum_record_line c raw ++ rest =
      ('(' :: fmt_x c ++ [')', ' '] ++ raw.dropLast) ++ '\n' :: rest := by
    unfold checksum_record_line
    conv_lhs => rw [hraw]
    simp
  have hrec2 : checksum_record_line c raw =
      ('(' :: fmt_x c ++ [')', ' '] ++ raw.dropLast) ++ ['\n'] := by
    unfold checksum_record_line
    conv_lhs => rw [hraw]
    simp
  have hfg := fgets_aux_line 1023 ('(' :: fmt_x c ++ [')', ' '] ++ raw.dropLast) rest
    (by
      intro ch hch
      simp only [List.cons_append, List.append_assoc, List.mem_cons, List.mem_append,
        List.mem_nil_iff, or_false] at hch
      rcases hch with h | h | h | h | h
      · rw [h]; decide
      · exact hfn ch h
      · rw [h]; decide
      · rw [h]; decide
      · exact hinner ch (by simpa using h))
    (by simp; omega)
  rw [hrec]
  unfold fgets
  simp only [List.cons_append]
  simp only [List.cons_append] at hfg
  rw [show (1024 - 1 : Nat) = 1023 from rfl, hfg, hrec2]
  simp

/-- The step of the validation on the record line that storing wrote for the
same segment with the same bytes. -/
theorem validate_own_record (L : SyscallbufLayout) (scratch_table : List Nat) (t : Tracee)
    (data : map_iterator_data) (c : Nat) (rest rest0 : List Char)
    (hsum : segment_checksum L t data = .ok c)
    (hrange : scan_all range_format data.raw_map_line =
      some ([.num data.info.start_addr, .num data.info.end_addr], rest0))
    (hlen : data.raw_map_line.length ≤ 1012)
    (hlast : data.raw_map_line.getLast? = some '\n')
    (hinner : ∀ ch ∈ data.raw_map_line.dropLast, ch ≠ '\n') :
    checksum_iterator L scratch_table t
        { mode := .VALIDATE_CHECKSUMS,
          checksums_file := checksum_record_line c data.raw_map_line ++ rest } data =
      .ok ({ mode := .VALIDATE_CHECKSUMS, checksums_file := rest }, CONTINUE_ITERATING) := by
  have hc := segment_checksum_lt L t data c hsum
  have hparse := sscanf_record_line c _ _ _ _ hrange
  rw [Nat.mod_eq_of_lt hc] at hparse
  unfold checksum_iterator
  rw [hsum]
  simp only [fgets_record_line c _ rest hlen hlast hinner, validate_checksum_line, hparse,
    assert_exec, notify_checksum_error]
  simp

theorem store_step (L : SyscallbufLayout) (scratch_table : List Nat) (t : Tracee)
    (data : map_iterator_data) (out : List Char)
    (r : checksum_iterator_data × Int)
    (h : checksum_iterator L scratch_table t
      { mode := .STORE_CHECKSUMS, checksums_file := out } data = .ok r) :
    ∃ c, segment_checksum L t data = .ok c ∧
      r = ({ mode := .STORE_CHECKSUMS,
             checksums_file := out ++ checksum_record_line c data.raw_map_line },
           CONTINUE_ITERATING) := by
  unfold checksum_iterator at h
  cases hs : segment_checksum L t data with
  | error e => rw [hs] at h; cases h
  | ok c =>
    rw [hs] at h
    simp only [Except.ok.injEq] at h
    exact ⟨c, rfl, by rw [← h]; rfl⟩

theorem fgets_no_inner_newline (size : Nat) (text line rest : List Char)
    (h : fgets size text = some (line, rest)) : ∀ ch ∈ line.dropLast, ch ≠ '\n' := by
  cases text with
  | nil => simp [fgets] at h
  | cons x xs =>
    simp only [fgets, Option.some.injEq] at h
    have := fgets_aux_no_inner_newline (size - 1) (x :: xs)
    rw [h] at this
    exact this

/-- The enumeration loop in both modes over the same maps text: what storing
appends is what validating consumes, when every line fits the record
buffer. -/
theorem store_then_validate_loop (L : SyscallbufLayout) (scratch_table : List Nat)
    (t : Tracee) (filt : read_segment_filter_t) (fuel : Nat) :
    ∀ (maps out : List Char) (c1 : checksum_iterator_data),
      (∀ l ∈ fgets_lines PATH_MAX fuel maps, l.length ≤ 1012 ∧ l.getLast? = some '\n') →
      iterate_memory_map_loop t (checksum_iterator L scratch_table t) filt fuel maps
        { mode := .STORE_CHECKSUMS, checksums_file := out } = .ok c1 →
      ∃ W, c1 = { mode := .STORE_CHECKSUMS, checksums_file := out ++ W } ∧
        ∀ extra, iterate_memory_map_loop t (checksum_iterator L scratch_table t) filt fuel maps
          { mode := .VALIDATE_CHECKSUMS, checksums_file := W ++ extra } =
            .ok { mode := .VALIDATE_CHECKSUMS, checksums_file := extra } := by
  induction fuel with
  | zero =>
    intro maps out c1 _ h
    simp [iterate_memory_map_loop] at h
  | succ fuel ih =>
    intro maps out c1 hfit h
    rw [iterate_memory_map_loop] at h
    cases hfg : fgets PATH_MAX maps with
    | none =>
      rw [hfg] at h
      simp only [Except.ok.injEq] at h
      refine ⟨[], by rw [← h]; simp, fun extra => ?_⟩
      rw [iterate_memory_map_loop, hfg]
      simp
    | some lr =>
      obtain ⟨line, rest⟩ := lr
      rw [hfg] at h
      simp only at h
      have hlines : fgets_lines PATH_MAX (fuel + 1) maps =
          line :: fgets_lines PATH_MAX fuel rest := by
        rw [fgets_lines, hfg]
      rw [hlines] at hfit
      obtain ⟨hlen, hlast⟩ := hfit line (by simp)
      have hinner := fgets_no_inner_newline _ _ _ _ hfg
      cases hp : parse_map_line line with
      | error e => rw [hp] at h; cases h
      | ok data0 =>
        rw [hp] at h
        simp only at h
        obtain ⟨hraw, rest0, hrange⟩ := range_of_parse_map_line line data0 hp
        cases hw : caller_wants_segment_read data0.info filt with
        | error e => rw [hw] at h; cases h
        | ok wants =>
          rw [hw] at h
          simp only at h
          generalize hdata : (if wants ≠ 0 then read_segment t data0 else data0) = data at h
          have hinfo : data.info = data0.info ∧ data.raw_map_line = data0.raw_map_line := by
            rw [← hdata]
            split <;> exact ⟨rfl, rfl⟩
          cases hit : checksum_iterator L scratch_table t
              { mode := .STORE_CHECKSUMS, checksums_file := out } data with
          | error e => rw [hit] at h; cases h
          | ok r =>
            rw [hit] at h
            obtain ⟨c, hsum, hr⟩ := store_step L scratch_table t data out r hit
            subst hr
            have hne : ¬ (CONTINUE_ITERATING = STOP_ITERATING) := by decide
            simp only [hne, if_false] at h
            obtain ⟨W, hW, hval⟩ := ih rest _ c1
              (fun l hl => hfit l (by simp [hl])) h
            refine ⟨checksum_record_line c data.raw_map_line ++ W, ?_, fun extra => ?_⟩
            · rw [hW]; simp
            · rw [iterate_memory_map_loop, hfg]
              simp only [hp, hw, hdata]
              have hstep := validate_own_record L scratch_table t data c (W ++ extra) rest0 hsum
                (by rw [hinfo.1, hinfo.2, hraw]; exact hrange)
                (by rw [hinfo.2, hraw]; exact hlen)
                (by rw [hinfo.2, hraw]; exact hlast)
                (by rw [hinfo.2, hraw]; exact hinner)
              rw [List.append_assoc, hstep]
              simp only [hne, if_false]
              exact hval extra

/-- Storing and then validating the same address space with the same
contents validates every record and leaves nothing unread, for every maps
text whose lines end in a newline and have at most 1012 characters (so that a
record line fits the 1024-byte buffer of the validation). -/
theorem round_trip_when_lines_fit (L : SyscallbufLayout) (fs : FileSystem)
    (scratch_table : List Nat) (t : Tracee) (maps F : List Char)
    (hfit : ∀ l ∈ fgets_lines PATH_MAX (maps.length + 1) maps,
      l.length ≤ 1012 ∧ l.getLast? = some '\n')
    (hstore : iterate_checksums L fs scratch_table t maps .STORE_CHECKSUMS [] = .ok F) :
    iterate_checksums L fs scratch_table t maps .VALIDATE_CHECKSUMS F = .ok [] := by
  unfold iterate_checksums iterate_memory_map at hstore ⊢
  simp only at hstore ⊢
  cases hl : iterate_memory_map_loop t (checksum_iterator L scratch_table t)
      (.fn (checksum_segment_filter fs)) (maps.length + 1) maps
      { mode := .STORE_CHECKSUMS, checksums_file := [] } with
  | error e => rw [hl] at hstore; cases hstore
  | ok c1 =>
    rw [hl] at hstore
    simp only [Except.ok.injEq] at hstore
    obtain ⟨W, hW, hval⟩ := store_then_validate_loop L scratch_table t _ _ maps [] c1 hfit hl
    have hF : F = W := by rw [← hstore, hW]; simp
    have := hval []
    rw [List.append_nil, ← hF] at this
    rw [this]

/-! ### The enumeration loop never runs out of fuel -/

theorem fgets_aux_rest_le (k : Nat) (s : List Char) : (fgets_aux k s).2.length ≤ s.length := by
  induction k generalizing s with
  | zero => simp [fgets_aux]
  | succ k ih =>
    cases s with
    | nil => simp [fgets_aux]
    | cons c s =>
      by_cases hc : c = '\n'
      · simp [fgets_aux, hc]
      · simp only [fgets_aux, hc, if_false, List.length_cons]
        have := ih s
        omega

theorem fgets_rest_lt (text line rest : List Char)
    (h : fgets PATH_MAX text = some (line, rest)) : rest.length < text.length := by
  cases text with
  | nil => simp [fgets] at h
  | cons c s =>
    simp only [fgets, Option.some.injEq] at h
    have hk : PATH_MAX - 1 = 4094 + 1 := rfl
    rw [hk] at h
    by_cases hc : c = '\n'
    · simp only [fgets_aux, hc, if_true, Prod.mk.injEq] at h
      rw [← h.2]
      simp
    · simp only [fgets_aux, hc, if_false, Prod.mk.injEq] at h
      have := fgets_aux_rest_le 4094 s
      rw [h.2] at this
      simp only [List.length_cons]
      omega

/-- With more fuel than the text has characters the loop does not depend on
the fuel: the fuel `maps_file.length + 1` of `iterate_memory_map` is never
used up. -/
theorem iterate_memory_map_loop_fuel {σ : Type} (t : Tracee)
    (it : σ → map_iterator_data → Except String (σ × Int))
    (filt : read_segment_filter_t) (fuel1 : Nat) :
    ∀ (fuel2 : Nat) (maps : List Char) (st : σ),
      maps.length < fuel1 → maps.length < fuel2 →
      iterate_memory_map_loop t it filt fuel1 maps st =
        iterate_memory_map_loop t it filt fuel2 maps st := by
  induction fuel1 with
  | zero => intro fuel2 maps st h1; omega
  | succ fuel1 ih =>
    intro fuel2 maps st h1 h2
    obtain ⟨fuel2, rfl⟩ : ∃ j, fuel2 = j + 1 := ⟨fuel2 - 1, by omega⟩
    rw [iterate_memory_map_loop, iterate_memory_map_loop]
    cases hfg : fgets PATH_MAX maps with
    | none => rfl
    | some lr =>
      obtain ⟨line, rest⟩ := lr
      have hlt := fgets_rest_lt maps line rest hfg
      simp only
      cases parse_map_line line with
      | error e => rfl
      | ok data0 =>
        simp only
        cases caller_wants_segment_read data0.info filt with
        | error e => rfl
        | ok wants =>
          simp only
          cases it st (if wants ≠ 0 then read_segment t data0 else data0) with
          | error e => rfl
          | ok r =>
            obtain ⟨st1, act⟩ := r
            simp only
            split
            · rfl
            · exact ih fuel2 rest st1 (by omega) (by omega)

/-- The round trip on `sample_maps`: its three lines fit, storing writes
`sample_checksums`, and validating reads all of it back. -/
theorem round_trip_sample :
    iterate_checksums sample_layout root_fs [] zero_tracee sample_maps
      .VALIDATE_CHECKSUMS sample_checksums = .ok [] :=
  round_trip_when_lines_fit sample_layout root_fs [] zero_tracee sample_maps
    sample_checksums (by decide!) (by decide!)

/-! ### Claims about the validation of one record -/

/-- C11: in VALIDATE mode, for a segment whose start address is a registered
scratch base and whose record holds the live address range, the iterator
reports nothing and continues, consuming the record line, whatever the
recorded checksum and the live checksum are. -/
theorem scratch_segment_not_compared (L : SyscallbufLayout) (scratch_table : List Nat)
    (t : Tracee) (c : checksum_iterator_data) (data : map_iterator_data)
    (line rest : List Char) (live rec_checksum : Nat)
    (hmode : c.mode = .VALIDATE_CHECKSUMS)
    (hlive : segment_checksum L t data = .ok live)
    (hfile : fgets 1024 c.checksums_file = some (line, rest))
    (hline : sscanf line checksum_line_format =
      (3, [.num rec_checksum, .num data.info.start_addr, .num data.info.end_addr]))
    (hscratch : is_start_of_scratch_region scratch_table data.info.start_addr = true) :
    checksum_iterator L scratch_table t c data =
      .ok ({ c with checksums_file := rest }, CONTINUE_ITERATING) := by
  unfold checksum_iterator
  rw [hlive]
  simp only [hmode, hfile, validate_checksum_line, hline, assert_exec, hscratch]
  simp

/-- Witness for C11: the segment of `sample_data` registered as scratch,
validated against a record whose checksum 0x1234 is not the live one. -/
theorem scratch_segment_not_compared_witness :
    checksum_iterator sample_layout [0x08048000] zero_tracee
        { mode := .VALIDATE_CHECKSUMS,
          checksums_file := checksum_record_line 0x1234 sample_raw_line }
        sample_data =
      .ok ({ mode := .VALIDATE_CHECKSUMS, checksums_file := [] }, CONTINUE_ITERATING) :=
  scratch_segment_not_compared sample_layout [0x08048000] zero_tracee
    { mode := .VALIDATE_CHECKSUMS,
      checksums_file := checksum_record_line 0x1234 sample_raw_line }
    sample_data (checksum_record_line 0x1234 sample_raw_line) [] 0xc0a0806 0x1234
    rfl (by decide) (by decide) (by decide) (by decide)

/-- C12 fails as stated: in STORE mode the iterator writes the record line of
a segment whose start address is a registered scratch base. -/
theorem store_writes_scratch_record :
    is_start_of_scratch_region [0x08048000] sample_data.info.start_addr = true ∧
    checksum_iterator sample_layout [0x08048000] zero_tracee
        { mode := .STORE_CHECKSUMS, checksums_file := [] } sample_data =
      .ok ({ mode := .STORE_CHECKSUMS,
             checksums_file :=
               "(c0a0806) 08048000-08048008 rw-p 00000000 08:01 7 /tmp/data\n".toList },
           CONTINUE_ITERATING) := by
  decide

/-- C12 (amended): in STORE mode the iterator does not consult the scratch
registry: for every scratch table, also one that holds the start address of
the segment, it appends the record line `(checksum) line` of the segment and
continues. -/
theorem store_writes_every_record (L : SyscallbufLayout) (scratch_table : List Nat)
    (t : Tracee) (c : checksum_iterator_data) (data : map_iterator_data) (checksum : Nat)
    (hmode : c.mode = .STORE_CHECKSUMS)
    (hsum : segment_checksum L t data = .ok checksum) :
    checksum_iterator L scratch_table t c data =
      .ok ({ c with checksums_file :=
              c.checksums_file ++ checksum_record_line checksum data.raw_map_line },
           CONTINUE_ITERATING) := by
  unfold checksum_iterator
  rw [hsum]
  simp only [hmode]
  rfl

/-- Witness for C12 (amended): the scratch-registered `sample_data`. -/
theorem store_writes_every_record_witness :
    checksum_iterator sample_layout [0x08048000] zero_tracee
        { mode := .STORE_CHECKSUMS, checksums_file := [] } sample_data =
      .ok ({ mode := .STORE_CHECKSUMS,
             checksums_file := [] ++ checksum_record_line 0xc0a0806 sample_data.raw_map_line },
           CONTINUE_ITERATING) :=
  store_writes_every_record sample_layout [0x08048000] zero_tracee
    { mode := .STORE_CHECKSUMS, checksums_file := [] } sample_data 0xc0a0806 rfl (by decide)

/-- C13: in VALIDATE mode, when the address range parsed from the record
differs from the live range of the segment, the iterator aborts with the
range message, for every scratch table (registered or not) and every pair of
recorded and live checksums: the range assertion comes first. -/
theorem range_change_aborts (L : SyscallbufLayout) (scratch_table : List Nat)
    (t : Tracee) (c : checksum_iterator_data) (data : map_iterator_data)
    (line rest : List Char) (live rec_checksum rec_start_addr rec_end_addr : Nat)
    (hmode : c.mode = .VALIDATE_CHECKSUMS)
    (hlive : segment_checksum L t data = .ok live)
    (hfile : fgets 1024 c.checksums_file = some (line, rest))
    (hline : sscanf line checksum_line_format =
      (3, [.num rec_checksum, .num rec_start_addr, .num rec_end_addr]))
    (hdiff : rec_start_addr ≠ data.info.start_addr ∨ rec_end_addr ≠ data.info.end_addr) :
    checksum_iterator L scratch_table t c data =
      .error "Segment %p-%p changed to %p-%p??" := by
  unfold checksum_iterator
  rw [hlive]
  simp only [hmode, hfile, validate_checksum_line, hline, assert_exec]
  rcases hdiff with h | h <;> simp [h]

/-- Witness for C13: the record of `08048000-08048008` read for a live
segment that now ends at `08049000`, its start registered as scratch and its
checksum equal to the recorded one. -/
theorem range_change_aborts_witness :
    checksum_iterator sample_layout [0x08048000] zero_tracee
        { mode := .VALIDATE_CHECKSUMS,
          checksums_file := checksum_record_line 0xc0a0806 sample_raw_line }
        { sample_data with info := { sample_info with end_addr := 0x08049000 } } =
      .error "Segment %p-%p changed to %p-%p??" :=
  range_change_aborts sample_layout [0x08048000] zero_tracee
    { mode := .VALIDATE_CHECKSUMS,
      checksums_file := checksum_record_line 0xc0a0806 sample_raw_line }
    { sample_data with info := { sample_info with end_addr := 0x08049000 } }
    (checksum_record_line 0xc0a0806 sample_raw_line) [] 0xc0a0806 0xc0a0806
    0x08048000 0x08048008 rfl (by decide) (by decide) (by decide) (by decide)

/-! ### Claims about the mutability classifier -/

/-- C14 fails as stated: for a private, writable, non-executable mapping of a
root-owned file of mode 0644 that the host cannot write, the table gives
skip (rule 4), and the code aborts on `assert(!(prot & PROT_WRITE))`. -/
theorem rule4_assertion_aborts :
    should_copy_table false true (PROT_READ ||| PROT_WRITE) 0o644 0 false = .skip ∧
    should_copy_mmap_region root_data_fs "/usr/share/data".toList
        { st_mode := 0o644, st_uid := 0 } (PROT_READ ||| PROT_WRITE) MAP_PRIVATE =
      .error "assert(!(prot & PROT_WRITE))" := by
  decide

/-- C14 (amended): `should_copy_mmap_region` is the eight-rule first-match
table on every input, except where rule 4 is reached with `PROT_WRITE` set:
there the assertion of rule 4 aborts instead of returning false. -/
theorem should_copy_is_table (fs : FileSystem) (filename : List Char)
    (st : stat_t) (prot flags : Nat) :
    should_copy_mmap_region fs filename st prot flags =
      if rule4_writable (fs.is_tmpfs filename) (decide (flags &&& MAP_PRIVATE ≠ 0)) prot
          st.st_mode st.st_uid (fs.access_w_ok filename) then
        .error "assert(!(prot & PROT_WRITE))"
      else
        (should_copy_table (fs.is_tmpfs filename) (decide (flags &&& MAP_PRIVATE ≠ 0)) prot
          st.st_mode st.st_uid (fs.access_w_ok filename)).result := by
  unfold should_copy_mmap_region should_copy_table rule4_writable is_tmp_file
  have hcomm1 : 0o111 &&& st.st_mode = st.st_mode &&& 0o111 := Nat.land_comm _ _
  have hcomm2 : 0o222 &&& st.st_mode = st.st_mode &&& 0o222 := Nat.land_comm _ _
  simp only [hcomm1, hcomm2]
  cases fs.is_tmpfs filename <;> cases fs.access_w_ok filename <;>
    by_cases h1 : flags &&& MAP_PRIVATE = 0 <;>
    by_cases h2 : prot &&& PROT_EXEC = 0 <;>
    by_cases h3 : st.st_mode &&& 0o111 = 0 <;>
    by_cases h4 : st.st_uid = 0 <;>
    by_cases h5 : prot &&& PROT_WRITE = 0 <;>
    by_cases h6 : st.st_mode &&& 0o222 = 0 <;>
    simp [h1, h2, h3, h4, h5, h6, CopyDecision.result]

/-- C15 fails as stated: a root-owned file that the host cannot write gets
true when it is on tmpfs, and a private writable mapping of such a file (not
executable) trips the assertion of rule 4. -/
theorem root_owned_not_always_skipped :
    should_copy_mmap_region root_tmpfs "/run/lock/f".toList
        { st_mode := 0o644, st_uid := 0 } PROT_READ MAP_SHARED = .ok 1 ∧
    should_copy_mmap_region root_data_fs "/usr/share/data".toList
        { st_mode := 0o644, st_uid := 0 } (PROT_READ ||| PROT_WRITE) MAP_PRIVATE =
      .error "assert(!(prot & PROT_WRITE))" := by
  decide

/-- C15 (amended): for a root-owned file that the host cannot write and that
is not on tmpfs, the result is false (0) for every sharing mode and every
protection, except that a `PROT_WRITE` mapping not caught by rules 2 and 3
(private with `PROT_EXEC`, private of an executable file) trips the assertion
of rule 4. -/
theorem root_owned_unwritable_skipped (fs : FileSystem) (filename : List Char)
    (st : stat_t) (prot flags : Nat)
    (huid : st.st_uid = 0) (hw : fs.access_w_ok filename = false)
    (htmp : fs.is_tmpfs filename = false) :
    should_copy_mmap_region fs filename st prot flags =
      if prot &&& PROT_WRITE ≠ 0 ∧
          ¬ (flags &&& MAP_PRIVATE ≠ 0 ∧
            (prot &&& PROT_EXEC ≠ 0 ∨ st.st_mode &&& 0o111 ≠ 0)) then
        .error "assert(!(prot & PROT_WRITE))"
      else .ok 0 := by
  unfold should_copy_mmap_region is_tmp_file
  have hcomm1 : 0o111 &&& st.st_mode = st.st_mode &&& 0o111 := Nat.land_comm _ _
  simp only [hcomm1, htmp, hw, huid]
  by_cases h1 : flags &&& MAP_PRIVATE = 0 <;>
    by_cases h2 : prot &&& PROT_EXEC = 0 <;>
    by_cases h3 : st.st_mode &&& 0o111 = 0 <;>
    by_cases h5 : prot &&& PROT_WRITE = 0 <;>
    simp [h1, h2, h3, h5]

/-- Witness for C15 (amended): a shared read-only mapping and a private
executable mapping of a root-owned file of mode 0755. -/
theorem root_owned_unwritable_skipped_witness :
    should_copy_mmap_region root_fs "/lib/libc.so".toList
        { st_mode := 0o755, st_uid := 0 } PROT_READ MAP_SHARED = .ok 0 ∧
    should_copy_mmap_region root_fs "/lib/libc.so".toList
        { st_mode := 0o755, st_uid := 0 } (PROT_READ ||| PROT_WRITE) MAP_PRIVATE = .ok 0 :=
  ⟨(root_owned_unwritable_skipped root_fs "/lib/libc.so".toList
      { st_mode := 0o755, st_uid := 0 } PROT_READ MAP_SHARED rfl rfl rfl).trans (by decide),
   (root_owned_unwritable_skipped root_fs "/lib/libc.so".toList
      { st_mode := 0o755, st_uid := 0 } (PROT_READ ||| PROT_WRITE) MAP_PRIVATE
      rfl rfl rfl).trans (by decide)⟩

/-! ### Claims about the segment locator -/

theorem addr_in_segment_ne_zero (addr : Nat) (info : mapped_segment_info) :
    addr_in_segment addr info ≠ 0 ↔ segment_contains addr info = true := by
  unfold addr_in_segment segment_contains
  by_cases h : info.start_addr ≤ addr ∧ addr < info.end_addr <;> simp [h]

/-- The locating loop against the collecting loop over the same text: the
locator ends with the first collected segment that contains the address, or
with its initial descriptor. -/
theorem find_loop_eq (t : Tracee) (info0 : mapped_segment_info) (fuel : Nat) :
    ∀ (maps : List Char) (acc segs : List mapped_segment_info),
      iterate_memory_map_loop t collect_iterator .kNeverReadSegment fuel maps acc = .ok segs →
      ∃ new, segs = acc ++ new ∧
        iterate_memory_map_loop t find_segment_iterator .kNeverReadSegment fuel maps info0 =
          .ok (match new.find? (segment_contains info0.start_addr) with
            | some info => info
            | none => info0) := by
  induction fuel with
  | zero =>
    intro maps acc segs h
    simp [iterate_memory_map_loop] at h
  | succ fuel ih =>
    intro maps acc segs h
    rw [iterate_memory_map_loop] at h
    rw [iterate_memory_map_loop]
    cases hfg : fgets PATH_MAX maps with
    | none =>
      rw [hfg] at h
      simp only [Except.ok.injEq] at h
      exact ⟨[], by simp [h], by simp⟩
    | some lr =>
      obtain ⟨line, rest⟩ := lr
      rw [hfg] at h
      simp only at h ⊢
      cases hp : parse_map_line line with
      | error e => rw [hp] at h; cases h
      | ok data0 =>
        rw [hp] at h
        have hne : ¬ (CONTINUE_ITERATING = STOP_ITERATING) := by decide
        simp only [caller_wants_segment_read, ne_eq, not_true_eq_false, if_false,
          collect_iterator, hne] at h ⊢
        obtain ⟨new, hnew, hfind⟩ := ih rest _ segs h
        refine ⟨data0.info :: new, by rw [hnew]; simp, ?_⟩
        by_cases hin : segment_contains info0.start_addr data0.info = true
        · have h1 := (addr_in_segment_ne_zero info0.start_addr data0.info).mpr hin
          have hit : find_segment_iterator info0 data0 = .ok (data0.info, STOP_ITERATING) := by
            unfold find_segment_iterator
            exact if_pos h1
          rw [hit]
          simp [hin, List.find?]
        · have h0 : ¬ (addr_in_segment info0.start_addr data0.info ≠ 0) :=
            fun h => hin ((addr_in_segment_ne_zero _ _).mp h)
          have hit : find_segment_iterator info0 data0 = .ok (info0, CONTINUE_ITERATING) := by
            unfold find_segment_iterator
            exact if_neg h0
          rw [hit]
          simp only [hne, if_false]
          rw [hfind]
          simp [List.find?, hin]

/-- C16: for a maps file that enumerates the segments `segs`, the locator
returns nonzero exactly when some enumerated segment has
`start <= address < end`; when it does, the descriptor it leaves is the first
such segment in enumeration order; otherwise it returns 0; and an address
equal to the end of a segment is not inside that segment. -/
theorem find_segment_containing_first (t : Tracee) (maps : List Char) (addr : Nat)
    (segs : List mapped_segment_info)
    (henum : enumerate_segments t maps = .ok segs) :
    ∃ found info, find_segment_containing t maps addr = .ok (found, info) ∧
      (found ≠ 0 ↔ ∃ s ∈ segs, s.start_addr ≤ addr ∧ addr < s.end_addr) ∧
      (found ≠ 0 → found = 1 ∧ segs.find? (segment_contains addr) = some info) ∧
      (∀ s ∈ segs, addr = s.end_addr → addr_in_segment addr s = 0) := by
  unfold enumerate_segments iterate_memory_map at henum
  obtain ⟨new, hnew, hfind⟩ := find_loop_eq t
    { zero_segment_info with start_addr := addr } _ maps [] segs henum
  simp only [List.nil_append] at hnew
  subst hnew
  have hlast : ∀ s ∈ segs, addr = s.end_addr → addr_in_segment addr s = 0 := by
    intro s _ he
    unfold addr_in_segment
    have : ¬ (s.start_addr ≤ addr ∧ addr < s.end_addr) := by omega
    simp [this]
  unfold find_segment_containing iterate_memory_map
  rw [hfind]
  cases hf : segs.find? (segment_contains addr) with
  | none =>
    refine ⟨0, { zero_segment_info with start_addr := addr }, ?_, ?_, ?_, hlast⟩
    · simp [addr_in_segment, zero_segment_info]
    · simp only [ne_eq, not_true_eq_false, false_iff, not_exists, not_and]
      intro s hs hle
      have := List.find?_eq_none.mp hf s hs
      simp only [segment_contains, decide_eq_true_eq] at this
      omega
    · intro h; exact absurd rfl h
  | some info =>
    have hc := List.find?_some hf
    have hmem := List.mem_of_find?_eq_some hf
    have hc2 : info.start_addr ≤ addr ∧ addr < info.end_addr := by
      simpa [segment_contains] using hc
    refine ⟨1, info, ?_, ?_, ?_, hlast⟩
    · simp [addr_in_segment, hc2]
    · simp only [ne_eq, one_ne_zero, not_false_eq_true, true_iff]
      exact ⟨info, hmem, hc2⟩
    · intro _; exact ⟨rfl, rfl⟩

/-- Witness for C16: in `sample_maps` the address 0x08049004 is inside the
second segment only, and the locator returns 1 with that segment. -/
theorem find_segment_containing_first_witness :
    (∃ found info, find_segment_containing zero_tracee sample_maps 0x08049004 =
        .ok (found, info) ∧
      (found ≠ 0 ↔ ∃ s ∈ sample_segments, s.start_addr ≤ 0x08049004 ∧ 0x08049004 < s.end_addr) ∧
      (found ≠ 0 → found = 1 ∧
        sample_segments.find? (segment_contains 0x08049004) = some info) ∧
      (∀ s ∈ sample_segments, 0x08049004 = s.end_addr → addr_in_segment 0x08049004 s = 0)) ∧
    (find_segment_containing zero_tracee sample_maps 0x08049004).map (·.1) = .ok 1 ∧
    (find_segment_containing zero_tracee sample_maps 0x08049008).map (·.1) = .ok 0 :=
  ⟨find_segment_containing_first zero_tracee sample_maps 0x08049004 sample_segments
      (by decide!),
   by decide!, by decide!⟩

/-! ### The fields parsed from a maps line -/

theorem sscanf_aux_count (ds : List ScanDir) (inp : List Char) (acc : List ScanVal) :
    (sscanf_aux ds inp acc).1 = ((sscanf_aux ds inp acc).2.length : Int) ∨
    (sscanf_aux ds inp acc).1 = -1 := by
  induction ds generalizing inp acc with
  | nil => left; simp [sscanf_aux]
  | cons d ds ih =>
    unfold sscanf_aux
    split
    · exact ih _ _
    · exact ih _ _
    · left; rfl
    · unfold scan_input_failure
      split
      · right; rfl
      · left; rfl

theorem scan_step_fits (d : ScanDir) (inp rest : List Char) (v : ScanVal)
    (h : scan_step d inp = .ok rest (some v)) : d.fits v := by
  cases d with
  | space => simp [scan_step] at h
  | lit c =>
    simp only [scan_step] at h
    split at h
    · cases h
    · split at h
      · simp at h
      · cases h
  | hex bits =>
    simp only [scan_step] at h
    split at h
    · cases h
    · split at h
      · cases h
      · simp only [ScanStep.ok.injEq, Option.some.injEq] at h
        rw [← h.2]; trivial
  | dec bits =>
    simp only [scan_step] at h
    split at h
    · cases h
    · split at h
      · cases h
      · simp only [ScanStep.ok.injEq, Option.some.injEq] at h
        rw [← h.2]; trivial
  | str width =>
    simp only [scan_step] at h
    split at h
    · cases h
    · split at h
      · simp only [ScanStep.ok.injEq, Option.some.injEq] at h
        rw [← h.2]; trivial
      · simp only [ScanStep.ok.injEq, Option.some.injEq] at h
        rw [← h.2]; trivial

/-- The values assigned by a satisfied format have the kinds of its
conversions, in order. -/
theorem scan_all_fits (ds : List ScanDir) (inp rest : List Char) (vals : List ScanVal)
    (h : scan_all ds inp = some (vals, rest)) :
    List.Forall₂ ScanDir.fits (ds.filter ScanDir.is_conv) vals := by
  induction ds generalizing inp vals with
  | nil =>
    simp only [scan_all, Option.some.injEq, Prod.mk.injEq] at h
    rw [← h.1]
    exact List.Forall₂.nil
  | cons d ds ih =>
    unfold scan_all at h
    split at h
    · next r v hstep =>
      split at h
      · next vals1 r1 hall =>
        simp only [Option.some.injEq, Prod.mk.injEq] at h
        have hv := scan_step_val d inp r v hstep
        have hrec := ih r vals1 (by rw [hall, h.2])
        rw [← h.1]
        cases v with
        | none =>
          simp only [Option.isSome_none] at hv
          simp only [List.filter, ← hv, Option.toList, List.nil_append]
          exact hrec
        | some w =>
          simp only [Option.isSome_some] at hv
          simp only [List.filter, ← hv, Option.toList, List.singleton_append]
          exact List.Forall₂.cons (scan_step_fits d inp r w hstep) hrec
      · cases h
    · cases h

theorem fits_num (d : ScanDir) (v : ScanVal) (h : d.fits v)
    (hd : (∃ b, d = .hex b) ∨ (∃ b, d = .dec b)) : ∃ n, v = .num n := by
  rcases hd with ⟨b, rfl⟩ | ⟨b, rfl⟩ <;> cases v <;> first | exact ⟨_, rfl⟩ | exact absurd h id

theorem fits_str (w : Option Nat) (v : ScanVal) (h : (ScanDir.str w).fits v) :
    ∃ s, v = .str s := by
  cases v
  · exact absurd h id
  · exact ⟨_, rfl⟩

/-- The seven values of the head of the maps format. -/
theorem maps_head_shape (inp rest : List Char) (vals : List ScanVal)
    (h : scan_all maps_head_format inp = some (vals, rest)) :
    ∃ s e fl off maj mi ino, vals =
      [.num s, .num e, .str fl, .num off, .num maj, .num mi, .num ino] := by
  have hf := scan_all_fits _ _ _ _ h
  have hfilter : maps_head_format.filter ScanDir.is_conv =
      [.hex 32, .hex 32, .str (some 31), .hex 64, .hex 32, .hex 32, .dec 64] := by decide
  rw [hfilter] at hf
  rcases hf with _ | ⟨h1, hf⟩
  rcases hf with _ | ⟨h2, hf⟩
  rcases hf with _ | ⟨h3, hf⟩
  rcases hf with _ | ⟨h4, hf⟩
  rcases hf with _ | ⟨h5, hf⟩
  rcases hf with _ | ⟨h6, hf⟩
  rcases hf with _ | ⟨h7, hf⟩
  cases hf
  obtain ⟨s, rfl⟩ := fits_num _ _ h1 (Or.inl ⟨_, rfl⟩)
  obtain ⟨e, rfl⟩ := fits_num _ _ h2 (Or.inl ⟨_, rfl⟩)
  obtain ⟨fl, rfl⟩ := fits_str _ _ h3
  obtain ⟨off, rfl⟩ := fits_num _ _ h4 (Or.inl ⟨_, rfl⟩)
  obtain ⟨maj, rfl⟩ := fits_num _ _ h5 (Or.inl ⟨_, rfl⟩)
  obtain ⟨mi, rfl⟩ := fits_num _ _ h6 (Or.inl ⟨_, rfl⟩)
  obtain ⟨ino, rfl⟩ := fits_num _ _ h7 (Or.inr ⟨_, rfl⟩)
  exact ⟨s, e, fl, off, maj, mi, ino, rfl⟩

/-- A line with 7 or 8 fields parsed gives a descriptor. -/
theorem parse_map_line_of_nparsed (line : List Char)
    (h : nparsed line = 7 ∨ nparsed line = 8) : ∃ data, parse_map_line line = .ok data := by
  have hsplit : maps_line_format = maps_head_format ++ [.space, .str none] := rfl
  have hcount := sscanf_aux_count maps_line_format line []
  have hlen : 7 ≤ (sscanf_aux maps_line_format line []).2.length := by
    unfold nparsed sscanf at h
    rcases h with h | h <;> rw [h] at hcount <;> omega
  obtain ⟨vals, rest, hall⟩ := scan_all_of_sscanf_aux maps_head_format [.space, .str none]
    line [] (by decide) (by rw [← hsplit]; simpa [conv_count, maps_head_format, ScanDir.is_conv] using hlen)
  obtain ⟨s, e, fl, off, maj, mi, ino, rfl⟩ := maps_head_shape _ _ _ hall
  have hrun := sscanf_aux_append maps_head_format [.space, .str none] line rest [] _ hall
  rw [← hsplit] at hrun
  simp only [List.nil_append] at hrun
  unfold parse_map_line sscanf
  rw [hrun]
  simp only [sscanf_aux, scan_step]
  cases hsk : skip_space (skip_space rest) with
  | nil =>
    simp only [scan_input_failure]
    exact ⟨_, rfl⟩
  | cons x xs =>
    simp only [List.cons_append, List.nil_append, List.length_cons, List.length_nil]
    exact ⟨_, rfl⟩

/-- A line with neither 7 nor 8 fields parsed aborts the enumeration. -/
theorem parse_map_line_error_of_nparsed (line : List Char)
    (h7 : nparsed line ≠ 7) (h8 : nparsed line ≠ 8) :
    parse_map_line line = .error "Only parsed %d fields of segment info" := by
  unfold nparsed at h7 h8
  unfold parse_map_line
  split
  · next heq => rw [heq] at h8; exact absurd rfl h8
  · next heq => rw [heq] at h7; exact absurd rfl h7
  · rfl

theorem parse_map_line_size (line : List Char) (data : map_iterator_data)
    (h : parse_map_line line = .ok data) :
    data.size_bytes = to_i32 ((data.info.end_addr : Int) - (data.info.start_addr : Int)) := by
  unfold parse_map_line at h
  split at h
  · cases h; rfl
  · cases h; rfl
  · cases h

/-! ### Claims about the enumerator -/

theorem iterate_memory_map_calls_snd {σ : Type} (t : Tracee)
    (it : σ → map_iterator_data → Except String (σ × Int))
    (filt : read_segment_filter_t) (fuel : Nat) :
    ∀ (maps : List Char) (st : σ),
      (iterate_memory_map_calls t it filt fuel maps st).2 =
        iterate_memory_map_loop t it filt fuel maps st := by
  induction fuel with
  | zero => intro maps st; rfl
  | succ fuel ih =>
    intro maps st
    rw [iterate_memory_map_calls, iterate_memory_map_loop]
    cases fgets PATH_MAX maps with
    | none => rfl
    | some lr =>
      obtain ⟨line, rest⟩ := lr
      simp only
      cases parse_map_line line with
      | error e => rfl
      | ok data0 =>
        simp only
        cases caller_wants_segment_read data0.info filt with
        | error e => rfl
        | ok wants =>
          simp only
          cases it st (if wants ≠ 0 then read_segment t data0 else data0) with
          | error e => rfl
          | ok r =>
            obtain ⟨st1, act⟩ := r
            simp only
            split
            · rfl
            · exact ih rest st1

theorem call_of_line_step (t : Tracee) (line : List Char) (data0 : map_iterator_data)
    (wants : Int) (hp : parse_map_line line = .ok data0) :
    call_of_line line (if wants ≠ 0 then read_segment t data0 else data0) := by
  have hsize := parse_map_line_size line data0 hp
  have hraw := (range_of_parse_map_line line data0 hp).1
  refine ⟨data0, hp, ?_, ?_, ?_⟩ <;> split <;> first | rfl | exact hsize | exact hraw

/-- Every line well-formed and the callback continuing: one call per line. -/
theorem calls_all_lines {σ : Type} (t : Tracee)
    (it : σ → map_iterator_data → Except String (σ × Int))
    (filt : read_segment_filter_t)
    (hcont : ∀ s d, ∃ s1, it s d = .ok (s1, CONTINUE_ITERATING))
    (hfilt : ∀ info, ∃ w, caller_wants_segment_read info filt = .ok w) (fuel : Nat) :
    ∀ (maps : List Char) (st : σ), maps.length < fuel →
      (∀ l ∈ fgets_lines PATH_MAX fuel maps, nparsed l = 7 ∨ nparsed l = 8) →
      ∃ calls st1, iterate_memory_map_calls t it filt fuel maps st = (calls, .ok st1) ∧
        List.Forall₂ call_of_line (fgets_lines PATH_MAX fuel maps) calls := by
  induction fuel with
  | zero => intro maps st h; omega
  | succ fuel ih =>
    intro maps st hlen hwf
    rw [iterate_memory_map_calls, fgets_lines]
    rw [fgets_lines] at hwf
    cases hfg : fgets PATH_MAX maps with
    | none => exact ⟨[], st, rfl, List.Forall₂.nil⟩
    | some lr =>
      obtain ⟨line, rest⟩ := lr
      rw [hfg] at hwf
      simp only at hwf ⊢
      obtain ⟨data0, hp⟩ := parse_map_line_of_nparsed line (hwf line (by simp))
      obtain ⟨w, hw⟩ := hfilt data0.info
      obtain ⟨s1, hit⟩ := hcont st (if w ≠ 0 then read_segment t data0 else data0)
      have hne : ¬ (CONTINUE_ITERATING = STOP_ITERATING) := by decide
      have hlt := fgets_rest_lt maps line rest hfg
      obtain ⟨calls, st2, hrec, hall⟩ := ih rest s1 (by omega)
        (fun l hl => hwf l (by simp [hl]))
      refine ⟨(if w ≠ 0 then read_segment t data0 else data0) :: calls, st2, ?_, ?_⟩
      · simp only [hp, hw, hit, hne, if_false, hrec]
      · exact List.Forall₂.cons (call_of_line_step t line data0 w hp) hall

/-- A malformed line after well-formed ones: the enumeration aborts at it,
after one call for each line before it. -/
theorem calls_until_malformed {σ : Type} (t : Tracee)
    (it : σ → map_iterator_data → Except String (σ × Int))
    (filt : read_segment_filter_t)
    (hcont : ∀ s d, ∃ s1, it s d = .ok (s1, CONTINUE_ITERATING))
    (hfilt : ∀ info, ∃ w, caller_wants_segment_read info filt = .ok w)
    (bad : List Char) (post : List (List Char))
    (h7 : nparsed bad ≠ 7) (h8 : nparsed bad ≠ 8) (pre : List (List Char)) :
    ∀ (fuel : Nat) (maps : List Char) (st : σ),
      fgets_lines PATH_MAX fuel maps = pre ++ bad :: post →
      (∀ l ∈ pre, nparsed l = 7 ∨ nparsed l = 8) →
      ∃ calls, iterate_memory_map_calls t it filt fuel maps st =
          (calls, .error "Only parsed %d fields of segment info") ∧
        List.Forall₂ call_of_line pre calls := by
  induction pre with
  | nil =>
    intro fuel maps st hlines _
    cases fuel with
    | zero => simp [fgets_lines] at hlines
    | succ fuel =>
      rw [fgets_lines] at hlines
      rw [iterate_memory_map_calls]
      cases hfg : fgets PATH_MAX maps with
      | none => rw [hfg] at hlines; simp at hlines
      | some lr =>
        obtain ⟨line, rest⟩ := lr
        rw [hfg] at hlines
        simp only [List.nil_append, List.cons.injEq] at hlines
        obtain ⟨hl, _⟩ := hlines
        subst hl
        simp only [parse_map_line_error_of_nparsed line h7 h8]
        exact ⟨[], rfl, List.Forall₂.nil⟩
  | cons l pre ih =>
    intro fuel maps st hlines hwf
    cases fuel with
    | zero => simp [fgets_lines] at hlines
    | succ fuel =>
      rw [fgets_lines] at hlines
      rw [iterate_memory_map_calls]
      cases hfg : fgets PATH_MAX maps with
      | none => rw [hfg] at hlines; simp at hlines
      | some lr =>
        obtain ⟨line, rest⟩ := lr
        rw [hfg] at hlines
        simp only [List.cons_append, List.cons.injEq] at hlines
        obtain ⟨hl, hrest⟩ := hlines
        subst hl
        obtain ⟨data0, hp⟩ := parse_map_line_of_nparsed line (hwf line (by simp))
        obtain ⟨w, hw⟩ := hfilt data0.info
        obtain ⟨s1, hit⟩ := hcont st (if w ≠ 0 then read_segment t data0 else data0)
        have hne : ¬ (CONTINUE_ITERATING = STOP_ITERATING) := by decide
        obtain ⟨calls, hrec, hall⟩ := ih fuel rest s1 hrest
          (fun l hl => hwf l (by simp [hl]))
        refine ⟨(if w ≠ 0 then read_segment t data0 else data0) :: calls, ?_, ?_⟩
        · simp only [hp, hw, hit, hne, if_false, hrec]
        · exact List.Forall₂.cons (call_of_line_step t line data0 w hp) hall

/-- C17: with a callback that always continues (and a read filter that does
not abort), the enumeration of a maps file whose N lines all parse 7 or 8
fields invokes the callback exactly N times, once per line in line order,
each time with the descriptor parsed from that line and the size
`end - start`; and when a line parses neither 7 nor 8 fields the enumeration
aborts at it, the callback having been invoked for the lines before it
only. -/
theorem enumeration_calls_per_line {σ : Type} (t : Tracee)
    (it : σ → map_iterator_data → Except String (σ × Int))
    (filt : read_segment_filter_t) (maps : List Char) (st : σ)
    (hcont : ∀ s d, ∃ s1, it s d = .ok (s1, CONTINUE_ITERATING))
    (hfilt : ∀ info, ∃ w, caller_wants_segment_read info filt = .ok w) :
    (iterate_memory_map_calls t it filt (maps.length + 1) maps st).2 =
      iterate_memory_map t maps it st filt ∧
    ((∀ l ∈ fgets_lines PATH_MAX (maps.length + 1) maps, nparsed l = 7 ∨ nparsed l = 8) →
      ∃ calls st1,
        iterate_memory_map_calls t it filt (maps.length + 1) maps st = (calls, .ok st1) ∧
        calls.length = (fgets_lines PATH_MAX (maps.length + 1) maps).length ∧
        List.Forall₂ call_of_line (fgets_lines PATH_MAX (maps.length + 1) maps) calls) ∧
    (∀ pre bad post, fgets_lines PATH_MAX (maps.length + 1) maps = pre ++ bad :: post →
      (∀ l ∈ pre, nparsed l = 7 ∨ nparsed l = 8) → nparsed bad ≠ 7 → nparsed bad ≠ 8 →
      ∃ calls,
        iterate_memory_map_calls t it filt (maps.length + 1) maps st =
          (calls, .error "Only parsed %d fields of segment info") ∧
        calls.length = pre.length ∧ List.Forall₂ call_of_line pre calls) := by
  refine ⟨iterate_memory_map_calls_snd t it filt _ maps st, fun hwf => ?_,
    fun pre bad post hlines hwf h7 h8 => ?_⟩
  · obtain ⟨calls, st1, h1, h2⟩ :=
      calls_all_lines t it filt hcont hfilt _ maps st (by omega) hwf
    exact ⟨calls, st1, h1, h2.length_eq.symm, h2⟩
  · obtain ⟨calls, h1, h2⟩ :=
      calls_until_malformed t it filt hcont hfilt bad post h7 h8 pre _ maps st hlines hwf
    exact ⟨calls, h1, h2.length_eq.symm, h2⟩

/-- Witness for C17: the three well-formed lines of `sample_maps` give three
calls, and in `malformed_maps` the enumeration aborts at the second line
after one call. -/
theorem enumeration_calls_per_line_witness :
    (∃ calls st1,
      iterate_memory_map_calls zero_tracee collect_iterator .kNeverReadSegment
          (sample_maps.length + 1) sample_maps [] = (calls, .ok st1) ∧
      calls.length = (fgets_lines PATH_MAX (sample_maps.length + 1) sample_maps).length ∧
      List.Forall₂ call_of_line
        (fgets_lines PATH_MAX (sample_maps.length + 1) sample_maps) calls) ∧
    (∃ calls,
      iterate_memory_map_calls zero_tracee collect_iterator .kNeverReadSegment
          (malformed_maps.length + 1) malformed_maps [] =
        (calls, .error "Only parsed %d fields of segment info") ∧
      calls.length =
        ["08048000-08048010 r-xp 00000000 08:01 7 /bin/cat\n".toList].length ∧
      List.Forall₂ call_of_line
        ["08048000-08048010 r-xp 00000000 08:01 7 /bin/cat\n".toList] calls) :=
  ⟨(enumeration_calls_per_line zero_tracee collect_iterator .kNeverReadSegment
      sample_maps [] (fun _ _ => ⟨_, rfl⟩) (fun _ => ⟨0, rfl⟩)).2.1 (by decide!),
   (enumeration_calls_per_line zero_tracee collect_iterator .kNeverReadSegment
      malformed_maps [] (fun _ _ => ⟨_, rfl⟩) (fun _ => ⟨0, rfl⟩)).2.2
      ["08048000-08048010 r-xp 00000000 08:01 7 /bin/cat\n".toList]
      "garbage\n".toList
      ["bffdf000-bffdf004 rw-p 00000000 00:00 0 \n".toList]
      (by decide!) (by decide!) (by decide!) (by decide!)⟩

/-! ### The session invariant -/

theorem wait_remote_syscall_tid (K : Kernel) (t t1 : task) (syscallno : Int) (r : Nat)
    (h : wait_remote_syscall K t syscallno = .ok (t1, r)) : t1.tid = t.tid := by
  unfold wait_remote_syscall assert_exec at h
  simp only at h
  split at h
  · cases h
  · simp only [Except.ok.injEq, Prod.mk.injEq] at h
    rw [← h.1]
    rfl

theorem advance_to_syscall_entry_tid (K : Kernel) (t : task) :
    (advance_to_syscall_entry K t).tid = t.tid := by
  unfold advance_to_syscall_entry
  simp only
  split <;> rfl

theorem remote_syscall_at_entry_frame (K : Kernel) (WAIT : Int) (t t1 : task)
    (state state1 : current_state_buffer) (wait syscallno : Int) (r : Nat)
    (h : remote_syscall_at_entry K WAIT t state wait syscallno = .ok (t1, state1, r)) :
    state1 = state ∧ t1.tid = t.tid := by
  unfold remote_syscall_at_entry at h
  split at h
  · cases h
  · split at h
    · cases h
    · split at h
      · split at h
        · cases h
        · next t2 ret hw =>
          simp only [Except.ok.injEq, Prod.mk.injEq] at h
          have := wait_remote_syscall_tid K _ _ _ _ hw
          rw [← h.1, ← h.2.1, this]
          exact ⟨rfl, rfl⟩
      · simp only [Except.ok.injEq, Prod.mk.injEq] at h
        rw [← h.1, ← h.2.1]
        exact ⟨rfl, rfl⟩

theorem remote_syscall_frame (K : Kernel) (WAIT : Int) (t t1 : task)
    (state state1 : current_state_buffer) (wait syscallno : Int)
    (a1 a2 a3 a4 a5 a6 r : Nat)
    (h : remote_syscall K WAIT t state wait syscallno a1 a2 a3 a4 a5 a6 = .ok (t1, state1, r)) :
    state1 = state ∧ t1.tid = t.tid := by
  unfold remote_syscall at h
  split at h
  · cases h
  · obtain ⟨h1, h2⟩ := remote_syscall_at_entry_frame K WAIT _ _ _ _ _ _ _ h
    rw [advance_to_syscall_entry_tid] at h2
    exact ⟨h1, h2⟩

theorem run_op_inv (K : Kernel) (WAIT : Int) (tid : Int) (regs0 : user_regs_struct)
    (code : List Nat) (s s1 : Session) (op : SessionOp)
    (hinv : session_inv tid regs0 code s) (h : run_op K WAIT s op = .ok s1) :
    session_inv tid regs0 code s1 := by
  obtain ⟨h1, h2, h3, h4, h5, h6, h7⟩ := hinv
  cases op with
  | syscall wait syscallno a1 a2 a3 a4 a5 a6 =>
    simp only [run_op] at h
    split at h
    · cases h
    · next t st r hr =>
      obtain ⟨e1, e2⟩ := remote_syscall_frame K WAIT _ _ _ _ _ _ _ _ _ _ _ _ _ hr
      simp only [Except.ok.injEq] at h
      subst h
      subst e1
      exact ⟨e2.trans h1, h2, h3, h4, h5, h6, h7⟩
  | wait_syscall syscallno =>
    simp only [run_op] at h
    split at h
    · cases h
    · next t r hr =>
      have e2 := wait_remote_syscall_tid K _ _ _ _ hr
      simp only [Except.ok.injEq] at h
      subst h
      exact ⟨e2.trans h1, h2, h3, h4, h5, h6, h7⟩
  | push str =>
    simp only [run_op, Except.ok.injEq] at h
    subst h
    refine ⟨h1, h2, h3, h4, h5, ?_, ?_⟩
    · simp only [push_tmp_str]
      rw [h6]
    · simp only [push_tmp_str, esp_chain]
      exact h7
  | pop =>
    simp only [run_op] at h
    split at h
    · cases h
    · next mem rest hst =>
      rw [hst] at h7
      split at h
      · cases h
      · next t st hp =>
        simp only [Except.ok.injEq] at h
        subst h
        unfold pop_tmp_mem at hp
        split at hp
        · cases hp
        · next hsp =>
          simp only [Except.ok.injEq, Prod.mk.injEq] at hp
          obtain ⟨hp1, hp2⟩ := hp
          subst hp1 hp2
          simp only [ne_eq, Decidable.not_not] at hsp
          refine ⟨h1, h2, h3, h4, h5, ?_, ?_⟩
          · simp only
            rw [h6]
          · simp only [esp_chain] at h7
            simp only [← hsp]
            exact h7

theorem run_ops_inv (K : Kernel) (WAIT : Int) (tid : Int) (regs0 : user_regs_struct)
    (code : List Nat) (ops : List SessionOp) :
    ∀ (s s1 : Session), session_inv tid regs0 code s → run_ops K WAIT ops s = .ok s1 →
      session_inv tid regs0 code s1 := by
  induction ops with
  | nil =>
    intro s s1 hinv h
    simp only [run_ops, Except.ok.injEq] at h
    rw [← h]; exact hinv
  | cons op ops ih =>
    intro s s1 hinv h
    rw [run_ops] at h
    split at h
    · cases h
    · next s2 hop => exact ih s2 s1 (run_op_inv K WAIT tid regs0 code s s2 op hinv hop) h

theorem prepare_inv (t : task) :
    session_inv t.tid t.child.regs [t.child.mem t.child.regs.eip, t.child.mem (t.child.regs.eip + 1)]
      { t := (prepare_remote_syscalls t).1, state := (prepare_remote_syscalls t).2,
        stack := [] } := by
  refine ⟨rfl, rfl, rfl, rfl, ?_, rfl, rfl⟩
  simp [prepare_remote_syscalls, read_child_data, read_child_registers, List.range_succ]

/-! ### Claims about the session -/

/-- C18: `prepare_remote_syscalls` replaces the two bytes at the instruction
pointer by `0xcd 0x80` and changes no other tracee memory and no register;
and after any steps of the session (remote syscalls, deferred waits, pushes
and pops) that run without abort and leave no push outstanding,
`finish_remote_syscalls` returns normally, its last register write is the
snapshot captured at prepare, and the two bytes at the instruction pointer
are the original ones. -/
theorem session_round_trip (K : Kernel) (WAIT : Int) (t : task)
    (ops : List SessionOp) (s : Session)
    (hrun : run_ops K WAIT ops
      { t := (prepare_remote_syscalls t).1, state := (prepare_remote_syscalls t).2,
        stack := [] } = .ok s)
    (hbal : s.stack = []) :
    ((prepare_remote_syscalls t).1.child.mem t.child.regs.eip = 0xcd ∧
     (prepare_remote_syscalls t).1.child.mem (t.child.regs.eip + 1) = 0x80 ∧
     (∀ a, a ≠ t.child.regs.eip → a ≠ t.child.regs.eip + 1 →
       (prepare_remote_syscalls t).1.child.mem a = t.child.mem a) ∧
     (prepare_remote_syscalls t).1.child.regs = t.child.regs ∧
     (prepare_remote_syscalls t).2.regs = t.child.regs) ∧
    ∃ t1, finish_remote_syscalls s.t s.state = .ok t1 ∧
      t1.child.regs = t.child.regs ∧
      t1.reg_writes.getLast? = some t.child.regs ∧
      t1.child.mem t.child.regs.eip = t.child.mem t.child.regs.eip ∧
      t1.child.mem (t.child.regs.eip + 1) = t.child.mem (t.child.regs.eip + 1) := by
  constructor
  · refine ⟨?_, ?_, ?_, rfl, rfl⟩
    · simp [prepare_remote_syscalls, write_child_data, read_child_registers]
    · simp [prepare_remote_syscalls, write_child_data, read_child_registers]
    · intro a h1 h2
      simp only [prepare_remote_syscalls, write_child_data, read_child_registers]
      have : ¬ (t.child.regs.eip ≤ a ∧ a < t.child.regs.eip + 2) := by omega
      simp [this]
  · obtain ⟨h1, h2, h3, h4, h5, h6, h7⟩ :=
      run_ops_inv K WAIT _ _ _ ops _ s (prepare_inv t) hrun
    rw [hbal] at h7
    simp only [esp_chain] at h7
    have hregs : s.state.regs = t.child.regs := by
      rw [h6, h7]
    have htid : ¬ (s.t.tid ≠ s.state.pid) := by rw [h1, h2]; simp
    refine ⟨_, by unfold finish_remote_syscalls; rw [if_neg htid], ?_, ?_, ?_, ?_⟩
    · simp only [write_child_registers, hregs]
    · simp only [write_child_registers, hregs]
      exact List.getLast?_concat _
    · simp [write_child_registers, write_child_data, h3, h4, h5]
    · simp [write_child_registers, write_child_data, h3, h4, h5]

theorem exists_of_ended_balanced (r : Except String Session) (h : ended_balanced r = true) :
    ∃ s, r = .ok s ∧ s.stack = [] := by
  cases r with
  | error e => simp [ended_balanced] at h
  | ok s =>
    refine ⟨s, rfl, ?_⟩
    simpa [ended_balanced, List.isEmpty_iff] using h

/-- Witness for C18: the session `sample_ops` on `sample_task` with
`toy_kernel` runs to its end with no push outstanding, and the close restores
the registers and the two bytes. -/
theorem session_round_trip_witness :
    ∃ s, run_ops toy_kernel 1 sample_ops
        { t := (prepare_remote_syscalls sample_task).1,
          state := (prepare_remote_syscalls sample_task).2, stack := [] } = .ok s ∧
      s.stack = [] ∧
      ∃ t1, finish_remote_syscalls s.t s.state = .ok t1 ∧
        t1.child.regs = sample_task.child.regs ∧
        t1.reg_writes.getLast? = some sample_task.child.regs ∧
        t1.child.mem sample_task.child.regs.eip =
          sample_task.child.mem sample_task.child.regs.eip ∧
        t1.child.mem (sample_task.child.regs.eip + 1) =
          sample_task.child.mem (sample_task.child.regs.eip + 1) := by
  obtain ⟨s, hs, hb⟩ := exists_of_ended_balanced
    (run_ops toy_kernel 1 sample_ops
      { t := (prepare_remote_syscalls sample_task).1,
        state := (prepare_remote_syscalls sample_task).2, stack := [] }) (by decide!)
  exact ⟨s, hs, hb, (session_round_trip toy_kernel 1 sample_task sample_ops s hs hb).2⟩

/-- Counterexample for C19: on `sample_task`, after `prepare` and one
`push_tmp_str` that is never popped, the session's stack pointer is below its
opening value, and `finish_remote_syscalls` returns normally and writes the
lowered stack pointer to the tracee. -/
theorem finish_accepts_unmatched_push :
    (push_tmp_str (prepare_remote_syscalls sample_task).1
        (prepare_remote_syscalls sample_task).2 [97]).2.1.regs.esp = 0x1ffe ∧
    (prepare_remote_syscalls sample_task).2.regs.esp = 0x2000 ∧
    ∃ t1, finish_remote_syscalls
        (push_tmp_str (prepare_remote_syscalls sample_task).1
          (prepare_remote_syscalls sample_task).2 [97]).1
        (push_tmp_str (prepare_remote_syscalls sample_task).1
          (prepare_remote_syscalls sample_task).2 [97]).2.1 = .ok t1 ∧
      t1.child.regs.esp = 0x1ffe := by
  refine ⟨by decide, by decide, _, rfl, by decide⟩

/-- C19 (amended): `finish_remote_syscalls` makes no stack-pointer check: it
aborts exactly when the task id differs from the session's pid, and otherwise
writes the session registers, whatever their `esp`, to the tracee. The
stack-pointer assertion is in `pop_tmp_mem`, which aborts exactly when the
record's saved stack pointer is not `len` above the session's. -/
theorem finish_checks_pid_only (t : task) (state : current_state_buffer) (mem : restore_mem) :
    (t.tid ≠ state.pid →
      finish_remote_syscalls t state = .error "assert(tid == state->pid)") ∧
    (t.tid = state.pid →
      ∃ t1, finish_remote_syscalls t state = .ok t1 ∧ t1.child.regs = state.regs) ∧
    (mem.saved_sp ≠ (state.regs.esp + mem.len) % 2 ^ 32 →
      pop_tmp_mem t state mem =
        .error "assert(mem->saved_sp == (byte*)state->regs.esp + mem->len)") ∧
    (mem.saved_sp = (state.regs.esp + mem.len) % 2 ^ 32 →
      ∃ r, pop_tmp_mem t state mem = .ok r) := by
  refine ⟨?_, ?_, ?_, ?_⟩
  · intro h
    unfold finish_remote_syscalls
    rw [if_pos h]
  · intro h
    refine ⟨write_child_registers
      (write_child_data t state.code_size state.start_addr state.code_buffer) state.regs,
      ?_, rfl⟩
    unfold finish_remote_syscalls
    rw [if_neg (by simpa using h)]
  · intro h
    unfold pop_tmp_mem
    rw [if_pos h]
  · intro h
    unfold pop_tmp_mem
    rw [if_neg (by simpa using h)]
    exact ⟨_, rfl⟩

/-- Witness for C19: the session of `sample_task` with one unmatched push has
the task's own pid, so its close returns normally. -/
theorem finish_checks_pid_only_witness :
    (push_tmp_str (prepare_remote_syscalls sample_task).1
        (prepare_remote_syscalls sample_task).2 [97]).1.tid =
      (push_tmp_str (prepare_remote_syscalls sample_task).1
        (prepare_remote_syscalls sample_task).2 [97]).2.1.pid ∧
    ∃ t1, finish_remote_syscalls
        (push_tmp_str (prepare_remote_syscalls sample_task).1
          (prepare_remote_syscalls sample_task).2 [97]).1
        (push_tmp_str (prepare_remote_syscalls sample_task).1
          (prepare_remote_syscalls sample_task).2 [97]).2.1 = .ok t1 ∧
      t1.child.regs =
        (push_tmp_str (prepare_remote_syscalls sample_task).1
          (prepare_remote_syscalls sample_task).2 [97]).2.1.regs :=
  ⟨by decide, (finish_checks_pid_only _ _ ⟨0, [], 0, 0⟩).2.1 (by decide)⟩

/-! ### Pushes and pops -/

theorem strlen_le_length (str : List Nat) : strlen str ≤ str.length := by
  induction str with
  | nil => simp [strlen]
  | cons c cs ih =>
    simp only [strlen, List.length_cons]
    split <;> omega

theorem restore_after_write (mem : Nat → Nat) (addr len : Nat) (data : List Nat) :
    (fun a => if addr ≤ a ∧ a < addr + len
        then ((List.range len).map (fun i => mem (addr + i))).getD (a - addr) 0
        else (if addr ≤ a ∧ a < addr + len then data.getD (a - addr) 0 else mem a)) = mem := by
  funext a
  by_cases h : addr ≤ a ∧ a < addr + len
  · rw [if_pos h]
    have hlt : a - addr < len := by omega
    rw [List.getD_eq_getElem _ _ (by simpa using hlt)]
    simp only [List.getElem_map, List.getElem_range]
    congr 1
    omega
  · rw [if_neg h, if_neg h]

theorem push_keeps_inv (K : Kernel) (WAIT : Int) (mem0 : Nat → Nat) (regs0 : user_regs_struct)
    (s : Session) (str : List Nat) (hinv : push_pop_inv mem0 regs0 s) :
    ∃ s1, run_op K WAIT s (.push str) = .ok s1 ∧
      s1.stack = (push_tmp_str s.t s.state str).2.2.1 :: s.stack ∧
      push_pop_inv mem0 regs0 s1 := by
  obtain ⟨h1, h2, h3, h4⟩ := hinv
  refine ⟨_, rfl, rfl, ?_, ?_, ?_, ?_⟩
  · simp only [push_tmp_str]
    exact Nat.mod_lt _ (by norm_num)
  · simp only [push_tmp_str, stack_valid]
    refine ⟨?_, h2⟩
    have hl : (strlen str + 1) % 2 ^ 32 < 2 ^ 32 := Nat.mod_lt _ (by norm_num)
    generalize (strlen str + 1) % 2 ^ 32 = len at hl
    omega
  · simp only [push_tmp_str, unwind, write_child_data, write_child_registers, read_child_data]
    rw [restore_after_write]
    exact h3
  · simp only [push_tmp_str]
    rw [h4]

theorem pop_keeps_inv (K : Kernel) (WAIT : Int) (mem0 : Nat → Nat) (regs0 : user_regs_struct)
    (s : Session) (r : restore_mem) (rest : List restore_mem) (hst : s.stack = r :: rest)
    (hinv : push_pop_inv mem0 regs0 s) :
    ∃ s1, run_op K WAIT s .pop = .ok s1 ∧ s1.stack = rest ∧
      pop_tmp_mem s.t s.state r = .ok (s1.t, s1.state) ∧
      s1.t.child.regs = s1.state.regs ∧
      s1.state.regs.esp = r.saved_sp ∧ push_pop_inv mem0 regs0 s1 := by
  obtain ⟨h1, h2, h3, h4⟩ := hinv
  rw [hst] at h2 h3
  simp only [stack_valid] at h2
  obtain ⟨hv, h2⟩ := h2
  have hpop : pop_tmp_mem s.t s.state r =
      .ok (write_child_registers (write_child_data s.t r.len r.addr r.data)
            { s.state.regs with esp := (s.state.regs.esp + r.len) % 2 ^ 32 },
           { s.state with
             regs := { s.state.regs with esp := (s.state.regs.esp + r.len) % 2 ^ 32 } }) := by
    unfold pop_tmp_mem
    rw [if_neg (by simpa using hv)]
  refine ⟨{ t := write_child_registers (write_child_data s.t r.len r.addr r.data)
              { s.state.regs with esp := (s.state.regs.esp + r.len) % 2 ^ 32 },
            state := { s.state with
              regs := { s.state.regs with esp := (s.state.regs.esp + r.len) % 2 ^ 32 } },
            stack := rest },
    by simp only [run_op, hst, hpop], rfl, hpop, rfl, hv.symm, ?_, ?_, ?_, ?_⟩
  · exact Nat.mod_lt _ (by norm_num)
  · simp only
    rw [← hv]
    exact h2
  · simp only [write_child_registers, write_child_data]
    exact h3
  · simp only
    rw [h4]

theorem run_lifo_nested (K : Kernel) (WAIT : Int) (mem0 : Nat → Nat) (regs0 : user_regs_struct)
    (base : List restore_mem) (ops : List SessionOp) :
    ∀ (s : Session) (top : List restore_mem), lifo_nested top.length ops = true →
      s.stack = top ++ base → push_pop_inv mem0 regs0 s →
      ∃ s1, run_ops K WAIT ops s = .ok s1 ∧ s1.stack = base ∧ push_pop_inv mem0 regs0 s1 := by
  induction ops with
  | nil =>
    intro s top hn hst hinv
    simp only [lifo_nested, beq_iff_eq, List.length_eq_zero] at hn
    subst hn
    exact ⟨s, rfl, by simpa using hst, hinv⟩
  | cons op ops ih =>
    intro s top hn hst hinv
    cases op with
    | syscall wait syscallno a1 a2 a3 a4 a5 a6 => simp [lifo_nested] at hn
    | wait_syscall syscallno => simp [lifo_nested] at hn
    | push str =>
      simp only [lifo_nested] at hn
      obtain ⟨s1, hop, hs1, hinv1⟩ := push_keeps_inv K WAIT mem0 regs0 s str hinv
      obtain ⟨s2, hrun, hs2, hinv2⟩ :=
        ih s1 ((push_tmp_str s.t s.state str).2.2.1 :: top) (by simpa using hn)
          (by rw [hs1, hst]; rfl) hinv1
      exact ⟨s2, by rw [run_ops, hop]; exact hrun, hs2, hinv2⟩
    | pop =>
      cases top with
      | nil => simp [lifo_nested] at hn
      | cons r top =>
        simp only [List.length_cons, lifo_nested] at hn
        obtain ⟨s1, hop, hs1, _, _, _, hinv1⟩ :=
          pop_keeps_inv K WAIT mem0 regs0 s r (top ++ base) (by rw [hst]; rfl) hinv
        obtain ⟨s2, hrun, hs2, hinv2⟩ := ih s1 top hn hs1 hinv1
        exact ⟨s2, by rw [run_ops, hop]; exact hrun, hs2, hinv2⟩

theorem push_stores_string (t : task) (state : current_state_buffer) (str : List Nat)
    (hlen : strlen str + 1 < 2 ^ 32) :
    read_child_data (push_tmp_str t state str).1 (strlen str + 1)
      (push_tmp_str t state str).2.2.2 = str.take (strlen str) ++ [0] := by
  have hl := strlen_le_length str
  simp only [push_tmp_str, read_child_data, write_child_data, write_child_registers,
    Nat.mod_eq_of_lt hlen]
  apply List.ext_getElem
  · simp [Nat.min_eq_left hl]
  · intro i h1 h2
    simp only [List.length_map, List.length_range] at h1
    simp only [List.getElem_map, List.getElem_range]
    rw [if_pos (by omega)]
    rw [List.getD_eq_getElem _ _ (by simp [Nat.min_eq_left hl]; omega)]
    congr 1
    omega

/-! ### Claims about pushes and pops -/

/-- C20: for a session whose stack pointer leaves room for the string,
`push_tmp_str` lowers the session stack pointer by `strlen(str) + 1`, writes
the new registers to the tracee, returns the new stack pointer and stores
there `str` with its NUL byte; after any pushes and pops nested in LIFO order
inside it (none included), `pop_tmp_mem` of the record returns normally and
leaves the session and tracee registers and the whole tracee memory as they
were before the push; and `pop_tmp_mem` of the record while a later push is
outstanding fails the stack-pointer assertion. -/
theorem push_pop_lifo (K : Kernel) (WAIT : Int) (t : task) (state : current_state_buffer)
    (str : List Nat) (hesp : state.regs.esp < 2 ^ 32)
    (hlen : strlen str + 1 ≤ state.regs.esp) :
    ((push_tmp_str t state str).2.1.regs.esp + (strlen str + 1) = state.regs.esp ∧
     (push_tmp_str t state str).2.2.2 = (push_tmp_str t state str).2.1.regs.esp ∧
     (push_tmp_str t state str).1.child.regs = (push_tmp_str t state str).2.1.regs ∧
     read_child_data (push_tmp_str t state str).1 (strlen str + 1)
       (push_tmp_str t state str).2.2.2 = str.take (strlen str) ++ [0]) ∧
    (∀ ops, lifo_nested 0 ops = true →
      ∃ s1, run_ops K WAIT ops
          { t := (push_tmp_str t state str).1, state := (push_tmp_str t state str).2.1,
            stack := [(push_tmp_str t state str).2.2.1] } = .ok s1 ∧
        s1.stack = [(push_tmp_str t state str).2.2.1] ∧
        ∃ t1 st1, pop_tmp_mem s1.t s1.state (push_tmp_str t state str).2.2.1 = .ok (t1, st1) ∧
          st1.regs = state.regs ∧ t1.child.regs = state.regs ∧
          t1.child.mem = t.child.mem) ∧
    (∀ str2, strlen str2 + 1 < 2 ^ 32 →
      pop_tmp_mem (push_tmp_str (push_tmp_str t state str).1
            (push_tmp_str t state str).2.1 str2).1
          (push_tmp_str (push_tmp_str t state str).1
            (push_tmp_str t state str).2.1 str2).2.1
          (push_tmp_str t state str).2.2.1 =
        .error "assert(mem->saved_sp == (byte*)state->regs.esp + mem->len)") := by
  have hlen32 : strlen str + 1 < 2 ^ 32 := by omega
  refine ⟨⟨?_, rfl, rfl, push_stores_string t state str hlen32⟩, ?_, ?_⟩
  · simp only [push_tmp_str, Nat.mod_eq_of_lt hlen32]
    omega
  · intro ops hn
    have hinv0 : push_pop_inv t.child.mem state.regs { t := t, state := state, stack := [] } :=
      ⟨hesp, trivial, rfl, rfl⟩
    obtain ⟨sp, hop, hsp, hinvp⟩ := push_keeps_inv K WAIT _ _ _ str hinv0
    simp only [run_op, Except.ok.injEq] at hop
    subst hop
    obtain ⟨s1, hrun, hs1, hinv1⟩ :=
      run_lifo_nested K WAIT _ _ [(push_tmp_str t state str).2.2.1] ops _ [] hn rfl hinvp
    obtain ⟨s2, _, hs2, hpop, hr2, he2, hinv2⟩ :=
      pop_keeps_inv K WAIT _ _ s1 _ [] hs1 hinv1
    obtain ⟨_, _, hm2, hregs2⟩ := hinv2
    rw [hs2] at hm2
    have hst : s2.state.regs = state.regs := by
      rw [hregs2, he2]
      rfl
    exact ⟨s1, hrun, hs1, s2.t, s2.state, hpop, hst, hr2.trans hst, hm2⟩
  · intro str2 h2
    unfold pop_tmp_mem
    rw [if_pos]
    simp only [push_tmp_str, Nat.mod_eq_of_lt hlen32, Nat.mod_eq_of_lt h2]
    omega

/-- Witness for C20: on the session opened on `sample_task`, the push of
`/tmp` lowers the stack pointer from 0x2000 by 5. -/
theorem push_pop_lifo_witness :
    (prepare_remote_syscalls sample_task).2.regs.esp < 2 ^ 32 ∧
    strlen [47, 116, 109, 112] + 1 ≤ (prepare_remote_syscalls sample_task).2.regs.esp ∧
    (push_tmp_str (prepare_remote_syscalls sample_task).1
        (prepare_remote_syscalls sample_task).2 [47, 116, 109, 112]).2.1.regs.esp +
      (strlen [47, 116, 109, 112] + 1) = (prepare_remote_syscalls sample_task).2.regs.esp :=
  ⟨by decide, by decide,
   (push_pop_lifo toy_kernel 1 (prepare_remote_syscalls sample_task).1
     (prepare_remote_syscalls sample_task).2 [47, 116, 109, 112]
     (by decide) (by decide)).1.1⟩

/-! ### Claims about one remote syscall -/

theorem advance_to_syscall_entry_reg_writes (K : Kernel) (t : task) :
    (advance_to_syscall_entry K t).reg_writes = t.reg_writes := by
  unfold advance_to_syscall_entry
  simp only
  split <;> rfl

/-- C21: a `remote_syscall` that returns has written to the tracee exactly one
register file, the session's saved registers with `eax` the syscall number and
`ebx, ecx, edx, esi, edi, ebp` the arguments `a1..a6`, and hands the session
state back unchanged; when `wait` is not `WAIT` it returns 0 straight after
resuming the tracee into the syscall, without waiting for the exit or reading
registers there; when `wait` is `WAIT` it waits for the syscall exit and
returns the `eax` the tracee has there. -/
theorem remote_syscall_effect (K : Kernel) (WAIT : Int) (t t1 : task)
    (state state1 : current_state_buffer) (wait syscallno : Int)
    (a1 a2 a3 a4 a5 a6 r : Nat)
    (h : remote_syscall K WAIT t state wait syscallno a1 a2 a3 a4 a5 a6 = .ok (t1, state1, r)) :
    t1.reg_writes = t.reg_writes ++
      [{ state.regs with eax := to_u32 syscallno, ebx := a1, ecx := a2, edx := a3,
                         esi := a4, edi := a5, ebp := a6 }] ∧
    state1 = state ∧
    (WAIT ≠ wait → r = 0 ∧
      t1 = sys_ptrace_syscall K (advance_to_syscall_entry K (write_child_registers t
            (remote_syscall_callregs state syscallno a1 a2 a3 a4 a5 a6)))) ∧
    (WAIT = wait → r = t1.child.regs.eax ∧
      t1 = sys_waitpid K (sys_ptrace_syscall K (advance_to_syscall_entry K
            (write_child_registers t
              (remote_syscall_callregs state syscallno a1 a2 a3 a4 a5 a6))))) := by
  have hw : (advance_to_syscall_entry K (write_child_registers t
        (remote_syscall_callregs state syscallno a1 a2 a3 a4 a5 a6))).reg_writes =
      t.reg_writes ++
      [{ state.regs with eax := to_u32 syscallno, ebx := a1, ecx := a2, edx := a3,
                         esi := a4, edi := a5, ebp := a6 }] := by
    rw [advance_to_syscall_entry_reg_writes]
    rfl
  unfold remote_syscall at h
  split at h
  · cases h
  · unfold remote_syscall_at_entry at h
    split at h
    · cases h
    · split at h
      · cases h
      · split at h
        · next hW =>
          split at h
          · cases h
          · next t2 ret hwait =>
            simp only [Except.ok.injEq, Prod.mk.injEq] at h
            obtain ⟨e1, e2, e3⟩ := h
            subst e1 e2 e3
            unfold wait_remote_syscall at hwait
            simp only at hwait
            split at hwait
            · cases hwait
            · simp only [Except.ok.injEq, Prod.mk.injEq] at hwait
              obtain ⟨e1, e2⟩ := hwait
              subst e1 e2
              exact ⟨hw, rfl, fun hne => absurd hW hne, fun _ => ⟨rfl, rfl⟩⟩
        · next hW =>
          simp only [Except.ok.injEq, Prod.mk.injEq] at h
          obtain ⟨e1, e2, e3⟩ := h
          subst e1 e2 e3
          exact ⟨hw, rfl, fun _ => ⟨rfl, rfl⟩, fun he => absurd he hW⟩

/-- Witness for C21: on the session opened on `sample_task`, `open`
(syscall 5) injected with `WAIT` under `toy_kernel` returns and has written
the call's register file. -/
theorem remote_syscall_effect_witness :
    (sys_waitpid toy_kernel (sys_ptrace_syscall toy_kernel (advance_to_syscall_entry toy_kernel
        (write_child_registers (prepare_remote_syscalls sample_task).1
          (remote_syscall_callregs (prepare_remote_syscalls sample_task).2 5
            0x1ffb 0 0 0 0 0))))).reg_writes =
      [{ (prepare_remote_syscalls sample_task).2.regs with
          eax := to_u32 5, ebx := 0x1ffb, ecx := 0, edx := 0, esi := 0, edi := 0, ebp := 0 }] :=
  (remote_syscall_effect toy_kernel 1 (prepare_remote_syscalls sample_task).1
    (sys_waitpid toy_kernel (sys_ptrace_syscall toy_kernel (advance_to_syscall_entry toy_kernel
        (write_child_registers (prepare_remote_syscalls sample_task).1
          (remote_syscall_callregs (prepare_remote_syscalls sample_task).2 5
            0x1ffb 0 0 0 0 0)))))
    (prepare_remote_syscalls sample_task).2 (prepare_remote_syscalls sample_task).2
    1 5 0x1ffb 0 0 0 0 0 5 (by rfl)).1

/-! ### The scratch registry as a list of bases -/

theorem is_start_of_scratch_region_iff (l : List Nat) (a : Nat) :
    is_start_of_scratch_region l a = true ↔ a ∈ l := by
  induction l with
  | nil => simp [is_start_of_scratch_region]
  | cons e rest ih =>
    unfold is_start_of_scratch_region
    by_cases h : e = a
    · simp [h]
    · rw [if_neg h, ih]
      simp [Ne.symm h]

theorem take_succ_set (l : List Nat) (x : Nat) :
    ∀ n, n < l.length → (l.set n x).take (n + 1) = l.take n ++ [x] := by
  induction l with
  | nil => intro n h; simp at h
  | cons e rest ih =>
    intro n h
    cases n with
    | zero => simp
    | succ n =>
      simp only [List.length_cons] at h
      simp only [List.set_cons_succ, List.take_succ_cons, List.cons_append, ih n (by omega)]

theorem to_i32_small (n : Nat) (h : n < 2 ^ 31) : (to_i32 (n : Int)).toNat = n := by
  unfold to_i32
  omega

/-- The invariant of the registry after `bases` were added. -/
theorem add_scratch_calls_spec (MAX_TID : Nat) (hM : MAX_TID < 2 ^ 31)
    (calls : List (Nat × Int)) :
    ∀ (st st1 : ScratchState), st.scratch_table.length = MAX_TID →
      st.scratch_table_size ≤ MAX_TID →
      add_scratch_calls MAX_TID st calls = .ok st1 →
      st1.scratch_table.length = MAX_TID ∧ st1.scratch_table_size ≤ MAX_TID ∧
      st1.scratch_table_size = st.scratch_table_size + calls.length ∧
      scratch_entries st1 = scratch_entries st ++ calls.map Prod.fst := by
  induction calls with
  | nil =>
    intro st st1 hl hs h
    simp only [add_scratch_calls, Except.ok.injEq] at h
    subst h
    simp [hl, hs]
  | cons c calls ih =>
    intro st st1 hl hs h
    obtain ⟨ptr, size⟩ := c
    simp only [add_scratch_calls, add_scratch] at h
    split at h
    · cases h
    · next st2 h2 =>
      split at h2
      · next hlt =>
        simp only [Except.ok.injEq] at h2
        subst h2
        have hmod : (st.scratch_table_size + 1) % 2 ^ 32 = st.scratch_table_size + 1 :=
          Nat.mod_eq_of_lt (by omega)
        obtain ⟨h1, h2, h3, h4⟩ := ih _ st1 (by simp [hl]) (by simp only [hmod]; omega) h
        refine ⟨h1, h2, ?_, ?_⟩
        · rw [h3]
          simp only [hmod, List.length_cons]
          omega
        · rw [h4]
          simp only [scratch_entries, hmod]
          have e1 : (to_i32 ((st.scratch_table_size + 1 : Nat) : Int)).toNat =
              st.scratch_table_size + 1 := to_i32_small _ (by omega)
          have e2 : (to_i32 (st.scratch_table_size : Int)).toNat = st.scratch_table_size :=
            to_i32_small _ (by omega)
          rw [e1, e2, take_succ_set _ _ _ (by omega)]
          simp
      · cases h2

theorem add_scratch_calls_total (MAX_TID : Nat) (hM : MAX_TID < 2 ^ 31)
    (calls : List (Nat × Int)) :
    ∀ (st : ScratchState), st.scratch_table_size + calls.length ≤ MAX_TID →
      ∃ st1, add_scratch_calls MAX_TID st calls = .ok st1 := by
  induction calls with
  | nil => intro st _; exact ⟨st, rfl⟩
  | cons c calls ih =>
    intro st hs
    obtain ⟨ptr, size⟩ := c
    simp only [List.length_cons] at hs
    have hlt : st.scratch_table_size < MAX_TID := by omega
    simp only [add_scratch_calls, add_scratch, if_pos hlt]
    apply ih
    simp only
    rw [Nat.mod_eq_of_lt (by omega)]
    omega

theorem add_scratch_calls_overflow (MAX_TID : Nat) (hM : MAX_TID < 2 ^ 31)
    (calls : List (Nat × Int)) :
    ∀ (st : ScratchState), st.scratch_table_size ≤ MAX_TID →
      MAX_TID < st.scratch_table_size + calls.length →
      add_scratch_calls MAX_TID st calls = .error "store outside scratch_table" := by
  induction calls with
  | nil => intro st h1 h2; simp only [List.length_nil] at h2; omega
  | cons c calls ih =>
    intro st h1 h2
    obtain ⟨ptr, size⟩ := c
    simp only [List.length_cons] at h2
    by_cases hlt : st.scratch_table_size < MAX_TID
    · simp only [add_scratch_calls, add_scratch, if_pos hlt]
      apply ih
      · simp only
        rw [Nat.mod_eq_of_lt (by omega)]
        omega
      · simp only
        rw [Nat.mod_eq_of_lt (by omega)]
        omega
    · simp only [add_scratch_calls, add_scratch, if_neg hlt]

/-! ### Claims about the scratch registry -/

/-- C23: after any sequence of `add_scratch` calls that fits the table
(at most `MAX_TID` calls), the calls return and
`is_start_of_scratch_region(a)` is true exactly when `a` is the base passed
to one of them; and an address for which it is true stays so after any
further `add_scratch` calls that return. -/
theorem scratch_registry_membership (MAX_TID : Nat) (calls : List (Nat × Int))
    (hM : MAX_TID < 2 ^ 31) (hcap : calls.length ≤ MAX_TID) :
    ∃ st, add_scratch_calls MAX_TID (scratch_init MAX_TID) calls = .ok st ∧
      (∀ a, is_start_of_scratch_region (scratch_entries st) a = true ↔
        ∃ c ∈ calls, c.1 = a) ∧
      (∀ more st2, add_scratch_calls MAX_TID st more = .ok st2 →
        ∀ a, is_start_of_scratch_region (scratch_entries st) a = true →
          is_start_of_scratch_region (scratch_entries st2) a = true) := by
  obtain ⟨st, hst⟩ := add_scratch_calls_total MAX_TID hM calls (scratch_init MAX_TID)
    (by simpa [scratch_init] using hcap)
  obtain ⟨h1, h2, _, h4⟩ := add_scratch_calls_spec MAX_TID hM calls (scratch_init MAX_TID) st
    (by simp [scratch_init]) (by simp [scratch_init]) hst
  refine ⟨st, hst, ?_, ?_⟩
  · intro a
    rw [is_start_of_scratch_region_iff, h4]
    simp [scratch_entries, scratch_init, to_i32]
  · intro more st2 hmore a ha
    obtain ⟨_, _, _, h5⟩ := add_scratch_calls_spec MAX_TID hM more st st2 h1 h2 hmore
    rw [is_start_of_scratch_region_iff] at ha ⊢
    rw [h5]
    exact List.mem_append_left _ ha

/-- Witness for C23: a table of 4 slots and two registered regions. -/
theorem scratch_registry_membership_witness :
    ∃ st, add_scratch_calls 4 (scratch_init 4) [(0x1000, 0x200), (0x5000, 0x200)] = .ok st ∧
      (∀ a, is_start_of_scratch_region (scratch_entries st) a = true ↔
        ∃ c ∈ [((0x1000 : Nat), (0x200 : Int)), (0x5000, 0x200)], c.1 = a) ∧
      (∀ more st2, add_scratch_calls 4 st more = .ok st2 →
        ∀ a, is_start_of_scratch_region (scratch_entries st) a = true →
          is_start_of_scratch_region (scratch_entries st2) a = true) :=
  scratch_registry_membership 4 [(0x1000, 0x200), (0x5000, 0x200)] (by decide) (by decide)

/-- C24: `add_scratch` does not compare `scratch_table_size` with `MAX_TID`:
any sequence of more than `MAX_TID` calls reaches a call that stores at index
`MAX_TID`, outside `scratch_table[MAX_TID]`. -/
theorem add_scratch_stores_outside_table (MAX_TID : Nat) (calls : List (Nat × Int))
    (hM : MAX_TID < 2 ^ 31) (hlen : MAX_TID < calls.length) :
    add_scratch_calls MAX_TID (scratch_init MAX_TID) calls =
      .error "store outside scratch_table" :=
  add_scratch_calls_overflow MAX_TID hM calls (scratch_init MAX_TID)
    (by simp [scratch_init]) (by simpa [scratch_init] using hlen)

/-- Witness for C24: a table of 2 slots and three registrations. -/
theorem add_scratch_stores_outside_table_witness :
    add_scratch_calls 2 (scratch_init 2)
        [(0x1000, 0x200), (0x5000, 0x200), (0x9000, 0x200)] =
      .error "store outside scratch_table" :=
  add_scratch_stores_outside_table 2 [(0x1000, 0x200), (0x5000, 0x200), (0x9000, 0x200)]
    (by decide) (by decide)

/-! ### Claims about the checksum filter and the loop bound -/

/-- Counterexample for C25: the private read-write mapping of the root-owned
executable file `/lib/libc.so` exists on the host, `should_copy_mmap_region`
returns 0 for it, and `checksum_segment_filter` returns 1. -/
theorem writable_library_data_checksummed :
    root_fs.stat libc_data_info.name = some { st_mode := 0o755, st_uid := 0 } ∧
    should_copy_mmap_region root_fs libc_data_info.name { st_mode := 0o755, st_uid := 0 }
      libc_data_info.prot libc_data_info.flags = .ok 0 ∧
    checksum_segment_filter root_fs libc_data_info = .ok 1 := by
  refine ⟨rfl, by decide, by decide⟩

/-- C25 (amended): for a segment whose backing file exists,
`checksum_segment_filter` aborts when `should_copy_mmap_region` aborts, and
otherwise returns 1 when `should_copy_mmap_region` returns nonzero or the
mapping has `PROT_WRITE`, and 0 when neither holds. -/
theorem filter_is_copy_or_writable (fs : FileSystem) (info : mapped_segment_info)
    (st : stat_t) (hstat : fs.stat info.name = some st) :
    (∀ e, should_copy_mmap_region fs info.name st info.prot info.flags = .error e →
      checksum_segment_filter fs info = .error e) ∧
    (∀ r, should_copy_mmap_region fs info.name st info.prot info.flags = .ok r →
      (r ≠ 0 ∨ (PROT_WRITE &&& info.prot) ≠ 0 → checksum_segment_filter fs info = .ok 1) ∧
      (r = 0 ∧ (PROT_WRITE &&& info.prot) = 0 → checksum_segment_filter fs info = .ok 0)) := by
  refine ⟨?_, ?_⟩
  · intro e he
    simp only [checksum_segment_filter, hstat, he]
  · intro r hr
    refine ⟨?_, ?_⟩
    · intro h
      simp only [checksum_segment_filter, hstat, hr]
      rw [if_pos h]
    · intro h
      simp only [checksum_segment_filter, hstat, hr]
      rw [if_neg (by simp [h.1, h.2])]

/-- Witness for C25: the data mapping of `/lib/libc.so` on `root_fs`. -/
theorem filter_is_copy_or_writable_witness :
    root_fs.stat libc_data_info.name = some { st_mode := 0o755, st_uid := 0 } ∧
    (∀ r, should_copy_mmap_region root_fs libc_data_info.name
        { st_mode := 0o755, st_uid := 0 } libc_data_info.prot libc_data_info.flags = .ok r →
      (r ≠ 0 ∨ (PROT_WRITE &&& libc_data_info.prot) ≠ 0 →
        checksum_segment_filter root_fs libc_data_info = .ok 1) ∧
      (r = 0 ∧ (PROT_WRITE &&& libc_data_info.prot) = 0 →
        checksum_segment_filter root_fs libc_data_info = .ok 0)) :=
  ⟨rfl, (filter_is_copy_or_writable root_fs libc_data_info
    { st_mode := 0o755, st_uid := 0 } rfl).2⟩

/-- C26: for the syscall-buffer segment `partly_read_syscallbuf`, of which 8
bytes were read and whose header announces 4 bytes of records, the loop bound
is 4 words, above the 2 words read, and the checksum loop reads outside the
buffer. -/
theorem syscallbuf_loop_reads_past_buffer :
    partly_read_syscallbuf.mem_len = 8 ∧
    checksum_word_count sample_layout syscallbuf_tracee partly_read_syscallbuf = 4 ∧
    segment_checksum sample_layout syscallbuf_tracee partly_read_syscallbuf =
      .error "read outside data->mem" := by
  refine ⟨rfl, by decide, by decide⟩

/-! ### What the bootstrap's remote calls write -/

theorem wait_remote_syscall_trace (K : Kernel) (t t1 : task) (syscallno : Int) (r : Nat)
    (h : wait_remote_syscall K t syscallno = .ok (t1, r)) :
    t1.desched_fd_child = t.desched_fd_child ∧ t1.reg_writes = t.reg_writes := by
  unfold wait_remote_syscall at h
  simp only at h
  split at h
  · cases h
  · simp only [Except.ok.injEq, Prod.mk.injEq] at h
    rw [← h.1]
    exact ⟨rfl, rfl⟩

theorem advance_to_syscall_entry_desched (K : Kernel) (t : task) :
    (advance_to_syscall_entry K t).desched_fd_child = t.desched_fd_child := by
  unfold advance_to_syscall_entry
  simp only
  split <;> rfl

theorem remote_syscall_trace (K : Kernel) (WAIT : Int) (t t1 : task)
    (state state1 : current_state_buffer) (wait syscallno : Int)
    (a1 a2 a3 a4 a5 a6 r : Nat)
    (h : remote_syscall K WAIT t state wait syscallno a1 a2 a3 a4 a5 a6 = .ok (t1, state1, r)) :
    t1.desched_fd_child = t.desched_fd_child ∧
    t1.reg_writes = t.reg_writes ++
      [remote_syscall_callregs state syscallno a1 a2 a3 a4 a5 a6] := by
  have hw : (advance_to_syscall_entry K (write_child_registers t
        (remote_syscall_callregs state syscallno a1 a2 a3 a4 a5 a6))).reg_writes =
      t.reg_writes ++ [remote_syscall_callregs state syscallno a1 a2 a3 a4 a5 a6] := by
    rw [advance_to_syscall_entry_reg_writes]
    rfl
  have hd : (advance_to_syscall_entry K (write_child_registers t
        (remote_syscall_callregs state syscallno a1 a2 a3 a4 a5 a6))).desched_fd_child =
      t.desched_fd_child := by
    rw [advance_to_syscall_entry_desched]
    rfl
  unfold remote_syscall at h
  split at h
  · cases h
  · unfold remote_syscall_at_entry at h
    split at h
    · cases h
    · split at h
      · cases h
      · split at h
        · split at h
          · cases h
          · next t2 ret hwait =>
            simp only [Except.ok.injEq, Prod.mk.injEq] at h
            obtain ⟨e1, _, _⟩ := h
            subst e1
            obtain ⟨w1, w2⟩ := wait_remote_syscall_trace K _ _ _ _ hwait
            exact ⟨w1.trans hd, w2.trans hw⟩
        · simp only [Except.ok.injEq, Prod.mk.injEq] at h
          obtain ⟨e1, _, _⟩ := h
          subst e1
          exact ⟨hd, hw⟩

theorem quiet_steps_refl (t : task) : quiet_steps t t :=
  ⟨rfl, [], by simp, by simp⟩

theorem quiet_steps_trans (t t1 t2 : task) (h1 : quiet_steps t t1) (h2 : quiet_steps t1 t2) :
    quiet_steps t t2 := by
  obtain ⟨d1, l1, w1, q1⟩ := h1
  obtain ⟨d2, l2, w2, q2⟩ := h2
  refine ⟨d2.trans d1, l1 ++ l2, by rw [w2, w1, List.append_assoc], ?_⟩
  intro r hr
  rcases List.mem_append.mp hr with h | h
  · exact q1 r h
  · exact q2 r h

theorem quiet_remote_syscall (K : Kernel) (WAIT : Int) (t t1 : task)
    (state state1 : current_state_buffer) (wait syscallno : Int)
    (a1 a2 a3 a4 a5 a6 r : Nat)
    (hcall : (to_u32 syscallno = to_u32 SYS_socketcall ∧ a1 = SYS_SENDMSG) → False)
    (h : remote_syscall K WAIT t state wait syscallno a1 a2 a3 a4 a5 a6 = .ok (t1, state1, r)) :
    quiet_steps t t1 := by
  obtain ⟨d, w⟩ := remote_syscall_trace K WAIT _ _ _ _ _ _ _ _ _ _ _ _ _ h
  refine ⟨d, _, w, ?_⟩
  intro x hx
  simp only [List.mem_singleton] at hx
  subst hx
  simp only [is_sendmsg_call, remote_syscall_callregs, Bool.and_eq_false_imp,
    decide_eq_true_eq, decide_eq_false_iff_not]
  intro h1 h2
  exact hcall ⟨h1, h2⟩

theorem quiet_wait_remote_syscall (K : Kernel) (t t1 : task) (syscallno : Int) (r : Nat)
    (h : wait_remote_syscall K t syscallno = .ok (t1, r)) : quiet_steps t t1 := by
  obtain ⟨d, w⟩ := wait_remote_syscall_trace K _ _ _ _ h
  exact ⟨d, [], by simpa using w, by simp⟩

theorem quiet_remote_syscall6 (K : Kernel) (WAIT : Int) (t t1 : task)
    (state state1 : current_state_buffer) (syscallno : Int)
    (a1 a2 a3 a4 a5 a6 r : Nat)
    (h : remote_syscall6 K WAIT t state syscallno a1 a2 a3 a4 a5 a6 = .ok (t1, state1, r))
    (hcall : (to_u32 syscallno = to_u32 SYS_socketcall ∧ a1 = SYS_SENDMSG) → False) :
    quiet_steps t t1 :=
  quiet_remote_syscall K WAIT t t1 state state1 WAIT syscallno a1 a2 a3 a4 a5 a6 r hcall h

theorem quiet_remote_syscall2 (K : Kernel) (WAIT : Int) (t t1 : task)
    (state state1 : current_state_buffer) (syscallno : Int) (a1 a2 r : Nat)
    (h : remote_syscall2 K WAIT t state syscallno a1 a2 = .ok (t1, state1, r))
    (hcall : (to_u32 syscallno = to_u32 SYS_socketcall ∧ a1 = SYS_SENDMSG) → False) :
    quiet_steps t t1 :=
  quiet_remote_syscall K WAIT t t1 state state1 WAIT syscallno a1 a2 0 0 0 0 r hcall h

theorem quiet_remote_syscall1 (K : Kernel) (WAIT : Int) (t t1 : task)
    (state state1 : current_state_buffer) (syscallno : Int) (a1 r : Nat)
    (h : remote_syscall1 K WAIT t state syscallno a1 = .ok (t1, state1, r))
    (hcall : (to_u32 syscallno = to_u32 SYS_socketcall ∧ a1 = SYS_SENDMSG) → False) :
    quiet_steps t t1 :=
  quiet_remote_syscall K WAIT t t1 state state1 WAIT syscallno a1 0 0 0 0 0 r hcall h

theorem connect_child_socket_quiet (C : UtilParams) (K : Kernel) (t t1 : task)
    (state state1 : current_state_buffer) (args : rrcall_init_buffers_params) (sock : Nat)
    (h : connect_child_socket C K t state args = .ok (t1, state1, sock)) :
    quiet_steps t t1 := by
  unfold connect_child_socket at h
  split at h
  · cases h
  · next ta sa child_sock h1 =>
    split at h
    · cases h
    · split at h
      · cases h
      · next tb sb rb h2 =>
        split at h
        · cases h
        · next tc rc h3 =>
          split at h
          · cases h
          · simp only [Except.ok.injEq, Prod.mk.injEq] at h
            obtain ⟨e1, _, _⟩ := h
            subst e1
            have q1 := quiet_remote_syscall2 K C.WAIT _ _ _ _ _ _ _ _ h1
              (by intro hh; exact absurd hh.2 (by decide))
            have q2 := quiet_remote_syscall K C.WAIT _ _ _ _ _ _ _ _ _ _ _ _ _
              (by intro hh; exact absurd hh.2 (by decide)) h2
            exact quiet_steps_trans t ta tc q1
              (quiet_steps_trans ta tb tc q2 (quiet_wait_remote_syscall K _ _ _ _ h3))

theorem share_shmem_fd_quiet (C : UtilParams) (K : Kernel) (H : HostCalls) (t t1 : task)
    (state state1 : current_state_buffer) (args : rrcall_init_buffers_params)
    (child_sock fd : Nat)
    (h : share_shmem_fd C K H t state args child_sock = .ok (t1, state1, fd)) :
    quiet_steps t t1 := by
  unfold share_shmem_fd at h
  split at h
  · cases h
  · split at h
    · cases h
    · next ta sa ra h1 =>
      split at h
      · cases h
      · split at h
        · cases h
        · next tb sb rb h2 =>
          simp only [Except.ok.injEq, Prod.mk.injEq] at h
          obtain ⟨e1, _, _⟩ := h
          subst e1
          have q1 := quiet_remote_syscall2 K C.WAIT _ _ _ _ _ _ _ _ h1
            (by intro hh; exact absurd hh.2 (by decide))
          have q2 := quiet_remote_syscall1 K C.WAIT _ _ _ _ _ _ _ h2
            (by intro hh; exact absurd hh.1 (by decide))
          exact quiet_steps_trans t ta tb q1 q2

theorem map_syscallbuf_quiet (C : UtilParams) (K : Kernel) (H : HostCalls) (t t1 : task)
    (state state1 : current_state_buffer) (args args1 : rrcall_init_buffers_params)
    (map_hint fd addr : Nat)
    (h : map_syscallbuf C K H t state args map_hint fd = .ok (t1, state1, args1, addr)) :
    quiet_steps t t1 := by
  unfold map_syscallbuf at h
  split at h
  · cases h
  · split at h
    · cases h
    · next ta sa ra h1 =>
      split at h
      · cases h
      · next tb sb rb h2 =>
        simp only [Except.ok.injEq, Prod.mk.injEq] at h
        obtain ⟨e1, _, _⟩ := h
        subst e1
        have q1 := quiet_remote_syscall6 K C.WAIT _ _ _ _ _ _ _ _ _ _ _ _ h1
          (by intro hh; exact absurd hh.1 (by decide))
        have q2 := quiet_remote_syscall1 K C.WAIT _ _ _ _ _ _ _ h2
          (by intro hh; exact absurd hh.1 (by decide))
        exact quiet_steps_trans t ta tb q1 q2

theorem share_desched_event_fd_skipped (C : UtilParams) (K : Kernel) (H : HostCalls)
    (t t1 : task) (state state1 : current_state_buffer) (args : rrcall_init_buffers_params)
    (child_sock : Nat) (share_desched_fd : Int)
    (hshare : C.SHARE_DESCHED_EVENT_FD ≠ share_desched_fd)
    (h : share_desched_event_fd C K H t state args child_sock share_desched_fd =
      .ok (t1, state1)) :
    t1.desched_fd_child = REPLAY_DESCHED_EVENT_FD ∧ t1.reg_writes = t.reg_writes := by
  unfold share_desched_event_fd at h
  rw [if_neg hshare] at h
  simp only [Except.ok.injEq, Prod.mk.injEq] at h
  rw [← h.1]
  exact ⟨rfl, rfl⟩

theorem share_desched_event_fd_sends (C : UtilParams) (K : Kernel) (H : HostCalls)
    (t t1 : task) (state state1 : current_state_buffer) (args : rrcall_init_buffers_params)
    (child_sock : Nat) (share_desched_fd : Int)
    (hshare : C.SHARE_DESCHED_EVENT_FD = share_desched_fd)
    (h : share_desched_event_fd C K H t state args child_sock share_desched_fd =
      .ok (t1, state1)) :
    ∃ r ∈ t1.reg_writes, is_sendmsg_call r = true := by
  unfold share_desched_event_fd at h
  rw [if_pos hshare] at h
  split at h
  · cases h
  · next ta sa ra h1 =>
    split at h
    · cases h
    · next fd remote_fdno _ =>
      split at h
      · cases h
      · next tb rb h2 =>
        split at h
        · cases h
        · simp only [Except.ok.injEq, Prod.mk.injEq] at h
          obtain ⟨e1, _⟩ := h
          subst e1
          obtain ⟨_, w1⟩ := remote_syscall_trace K C.WAIT _ _ _ _ _ _ _ _ _ _ _ _ _ h1
          obtain ⟨_, w2⟩ := wait_remote_syscall_trace K _ _ _ _ h2
          refine ⟨remote_syscall_callregs state SYS_socketcall SYS_SENDMSG args.args_vec
            0 0 0 0, ?_, ?_⟩
          · rw [w2]
            show _ ∈ ta.reg_writes
            rw [w1]
            simp
          · simp [is_sendmsg_call, remote_syscall_callregs]

theorem exists_of_returned {α : Type} (r : Except String α) (h : returned r = true) :
    ∃ x, r = .ok x := by
  cases r with
  | error e => simp [returned] at h
  | ok x => exact ⟨x, rfl⟩

/-! ### Claims about the bootstrap without a desched event fd -/

/-- C22: when `share_desched_fd` is not `SHARE_DESCHED_EVENT_FD`, an
`init_syscall_buffer` that returns leaves `desched_fd_child` equal to
`REPLAY_DESCHED_EVENT_FD`, which is -123; none of the register files it wrote
to the tracee asks for a `sendmsg`; and `is_desched_event_syscall` then
accepts every register file whose `orig_eax` is `SYS_ioctl`, whatever its
`ebx`. -/
theorem init_without_desched_sharing (C : UtilParams) (K : Kernel) (H : HostCalls)
    (t t1 : task) (state state1 : current_state_buffer)
    (args args1 : rrcall_init_buffers_params) (map_hint addr : Nat) (share_desched_fd : Int)
    (hshare : C.SHARE_DESCHED_EVENT_FD ≠ share_desched_fd)
    (h : init_syscall_buffer C K H t state args map_hint share_desched_fd =
      .ok (t1, state1, args1, addr)) :
    t1.desched_fd_child = REPLAY_DESCHED_EVENT_FD ∧ REPLAY_DESCHED_EVENT_FD = -123 ∧
    (∃ l, t1.reg_writes = t.reg_writes ++ l ∧ ∀ r ∈ l, is_sendmsg_call r = false) ∧
    (∀ regs : user_regs_struct, to_i32 regs.orig_eax = SYS_ioctl →
      is_desched_event_syscall t1 regs = 1) := by
  unfold init_syscall_buffer at h
  split at h
  · cases h
  · split at h
    · cases h
    · next ta sa child_sock h1 =>
      split at h
      · cases h
      · next tb sb h2 =>
        split at h
        · cases h
        · next tc sc fd h3 =>
          have q1 := connect_child_socket_quiet C K _ _ _ _ _ _ h1
          obtain ⟨d2, w2⟩ :=
            share_desched_event_fd_skipped C K H _ _ _ _ _ _ _ hshare h2
          have q3 := share_shmem_fd_quiet C K H _ _ _ _ _ _ _ h3
          have q4 := map_syscallbuf_quiet C K H _ _ _ _ _ _ _ _ _ h
          obtain ⟨d34, l34, w34, n34⟩ := quiet_steps_trans tb tc t1 q3 q4
          obtain ⟨_, l1, w1, n1⟩ := q1
          have hd : t1.desched_fd_child = REPLAY_DESCHED_EVENT_FD := d34.trans d2
          refine ⟨hd, rfl, ⟨l1 ++ l34, ?_, ?_⟩, ?_⟩
          · rw [w34, w2, w1, List.append_assoc]
          · intro r hr
            rcases List.mem_append.mp hr with hh | hh
            · exact n1 r hh
            · exact n34 r hh
          · intro regs hregs
            unfold is_desched_event_syscall
            rw [if_pos ⟨hregs.symm, Or.inr hd⟩]

/-- Witness for C22: the bootstrap of `sample_task` under `toy_kernel` on a
host where every call succeeds, with no sharing asked for, returns and leaves
the sentinel. -/
theorem init_without_desched_sharing_witness :
    sample_params.SHARE_DESCHED_EVENT_FD ≠ 0 ∧
    ∃ x, init_syscall_buffer sample_params toy_kernel sample_host
        (prepare_remote_syscalls sample_task).1 (prepare_remote_syscalls sample_task).2
        sample_args 0 0 = .ok x ∧
      x.1.desched_fd_child = -123 := by
  refine ⟨by decide, ?_⟩
  obtain ⟨⟨t1, state1, args1, addr⟩, hx⟩ := exists_of_returned
    (init_syscall_buffer sample_params toy_kernel sample_host
      (prepare_remote_syscalls sample_task).1 (prepare_remote_syscalls sample_task).2
      sample_args 0 0) (by decide!)
  exact ⟨_, hx, (init_without_desched_sharing sample_params toy_kernel sample_host _ t1 _
    state1 _ args1 0 addr 0 (by decide) hx).1⟩

end RR
